import Mathlib

/-!
SimpleKnx: the KNX telegram codec.

A shallow embedding of `src/src/KnxTelegram.h`, `src/src/KnxTelegram.cpp` and the
address helpers of `src/src/SimpleKnx.h`.

Conventions of the embedding:

* a `byte` is a `Fin 256`; arithmetic is done on natural numbers (the value after C++
  integer promotion) and every store into a `byte` truncates with an explicit `% 256`;
* a `word` is a natural number reduced with an explicit `% 65536`;
* the telegram is the 23-byte array `_telegram`; the named members of the anonymous
  union (`_controlField`, ..., `_commandL`, `_payloadChecksum`) are read and written
  through their byte offset in that array;
* a method that modifies the telegram returns the modified telegram.
-/

namespace SimpleKnx

/-- A `byte` of the target: an unsigned 8-bit value. -/
abbrev Byte := Fin 256

/-- Conversion of a promoted integer value to `byte`: keeps the low eight bits. -/
def toByte (x : Nat) : Byte := ⟨x % 256, Nat.mod_lt x (by decide)⟩

/-- Conversion of a promoted integer value to `word`: keeps the low sixteen bits. -/
def toWord (x : Nat) : Nat := x % 65536

/-- The C++ operator `~` on a promoted (non-negative) `int` value, as the two-complement
bit pattern of the 16-bit `int` of the AVR target. Every use below is stored into a `byte`
or masked by a `byte`, so that only the low eight bits of the pattern are observed. -/
def bitNot (x : Nat) : Nat := 0xFFFF ^^^ (x % 65536)

/-! ## Constants of `KnxTelegram.h` -/

def KNX_TELEGRAM_HEADER_SIZE : Nat := 6
def KNX_TELEGRAM_PAYLOAD_MAX_SIZE : Nat := 16
def KNX_TELEGRAM_MIN_SIZE : Nat := 9
def KNX_TELEGRAM_MAX_SIZE : Nat := 23
def KNX_TELEGRAM_LENGTH_OFFSET : Nat := 8

/-- The enumeration `KnxPriority`. -/
inductive KnxPriority where
  | KNX_PRIORITY_SYSTEM_VALUE
  | KNX_PRIORITY_HIGH_VALUE
  | KNX_PRIORITY_ALARM_VALUE
  | KNX_PRIORITY_NORMAL_VALUE
  deriving DecidableEq, Repr

/-- The enumerator values of `KnxPriority`. -/
def KnxPriority.val : KnxPriority → Nat
  | .KNX_PRIORITY_SYSTEM_VALUE => 0b00000000
  | .KNX_PRIORITY_HIGH_VALUE => 0b00000100
  | .KNX_PRIORITY_ALARM_VALUE => 0b00001000
  | .KNX_PRIORITY_NORMAL_VALUE => 0b00001100

/-- The enumeration `KnxCommand`. -/
inductive KnxCommand where
  | KNX_COMMAND_VALUE_READ
  | KNX_COMMAND_VALUE_RESPONSE
  | KNX_COMMAND_VALUE_WRITE
  | KNX_COMMAND_MEMORY_WRITE
  deriving DecidableEq, Repr

/-- The enumerator values of `KnxCommand`. -/
def KnxCommand.val : KnxCommand → Nat
  | .KNX_COMMAND_VALUE_READ => 0b00000000
  | .KNX_COMMAND_VALUE_RESPONSE => 0b00000001
  | .KNX_COMMAND_VALUE_WRITE => 0b00000010
  | .KNX_COMMAND_MEMORY_WRITE => 0b00001010

def CONTROL_FIELD_DEFAULT_VALUE : Nat := 0b10111100
def CONTROL_FIELD_FRAME_FORMAT_MASK : Nat := 0b11000000
def CONTROL_FIELD_STANDARD_FRAME_FORMAT : Nat := 0b10000000
def CONTROL_FIELD_REPEATED_MASK : Nat := 0b00100000
def CONTROL_FIELD_PRIORITY_MASK : Nat := 0b00001100
def CONTROL_FIELD_PATTERN_MASK : Nat := 0b00010011
def CONTROL_FIELD_VALID_PATTERN : Nat := 0b00010000

def ROUTING_FIELD_DEFAULT_VALUE : Nat := 0b11100001
def ROUTING_FIELD_TARGET_ADDRESS_TYPE_MASK : Nat := 0b10000000
def ROUTING_FIELD_COUNTER_MASK : Nat := 0b01110000
def ROUTING_FIELD_PAYLOAD_LENGTH_MASK : Nat := 0b00001111

def COMMAND_FIELD_HIGH_COMMAND_MASK : Nat := 0x03
def COMMAND_FIELD_LOW_COMMAND_MASK : Nat := 0xC0
def COMMAND_FIELD_LOW_DATA_MASK : Nat := 0x3F
def COMMAND_FIELD_PATTERN_MASK : Nat := 0b11000000
def COMMAND_FIELD_VALID_PATTERN : Nat := 0b00000000

/-- The enumeration `KnxTelegramValidity`. -/
inductive KnxTelegramValidity where
  | KNX_TELEGRAM_VALID
  | KNX_TELEGRAM_INVALID_CONTROL_FIELD
  | KNX_TELEGRAM_UNSUPPORTED_FRAME_FORMAT
  | KNX_TELEGRAM_INCORRECT_PAYLOAD_LENGTH
  | KNX_TELEGRAM_INVALID_COMMAND_FIELD
  | KNX_TELEGRAM_UNKNOWN_COMMAND
  | KNX_TELEGRAM_INCORRECT_CHECKSUM
  deriving DecidableEq, Repr

/-- The class `KnxTelegram`: its only data member is the union over the 23-byte array
`_telegram`. -/
structure KnxTelegram where
  telegram : Fin 23 → Byte

namespace KnxTelegram

/-- Read of `_telegram[byteIndex]`, as the promoted integer value. An index outside the
array (not reached by any caller in this development) reads as 0. -/
def getRawByte (t : KnxTelegram) (byteIndex : Nat) : Nat :=
  if h : byteIndex < 23 then (t.telegram ⟨byteIndex, h⟩).val else 0

/-- Store `_telegram[byteIndex] = data`, truncating `data` to a `byte`. A store outside
the array (not reached by any caller in this development) is dropped. -/
def setRawByte (t : KnxTelegram) (data : Nat) (byteIndex : Nat) : KnxTelegram :=
  if h : byteIndex < 23 then ⟨Function.update t.telegram ⟨byteIndex, h⟩ (toByte data)⟩ else t

/-! Members of the anonymous struct of the union, by byte offset. -/

def controlField (t : KnxTelegram) : Nat := t.getRawByte 0
def sourceAddrH (t : KnxTelegram) : Nat := t.getRawByte 1
def sourceAddrL (t : KnxTelegram) : Nat := t.getRawByte 2
def targetAddrH (t : KnxTelegram) : Nat := t.getRawByte 3
def targetAddrL (t : KnxTelegram) : Nat := t.getRawByte 4
def routing (t : KnxTelegram) : Nat := t.getRawByte 5
def commandH (t : KnxTelegram) : Nat := t.getRawByte 6
def commandL (t : KnxTelegram) : Nat := t.getRawByte 7

/-- Read of `_payloadChecksum[k]`. The member starts at byte 8 of the union, so that the
element `k` is the byte `8 + k` of `_telegram`; `getChecksum` reaches `k = -1`. -/
def payloadChecksum (t : KnxTelegram) (k : Int) : Nat := t.getRawByte (8 + k).toNat

/-- Store `_payloadChecksum[k] = data`, for `k ≥ 0`. -/
def setPayloadChecksum (t : KnxTelegram) (k : Nat) (data : Nat) : KnxTelegram :=
  t.setRawByte data (8 + k)

/-- `memset(_telegram, 0, KNX_TELEGRAM_MAX_SIZE)` followed by the two default stores. -/
def clearTelegram (_t : KnxTelegram) : KnxTelegram :=
  let t0 : KnxTelegram := ⟨fun _ => toByte 0⟩
  let t1 := t0.setRawByte CONTROL_FIELD_DEFAULT_VALUE 0
  t1.setRawByte ROUTING_FIELD_DEFAULT_VALUE 5

/-- The constructor `KnxTelegram::KnxTelegram()`: `clearTelegram()` on the fresh object,
whose storage holds arbitrary bytes. -/
def new (uninitialised : KnxTelegram) : KnxTelegram := clearTelegram uninitialised

/-! ### Inlined accessors of `KnxTelegram.h` -/

def setPriority (t : KnxTelegram) (priority : KnxPriority) : KnxTelegram :=
  let t1 := t.setRawByte (t.controlField &&& bitNot CONTROL_FIELD_PRIORITY_MASK) 0
  t1.setRawByte (t1.controlField ||| (priority.val &&& CONTROL_FIELD_PRIORITY_MASK)) 0

/-- The result of `getPriority` is the integer value of the returned `KnxPriority`. -/
def getPriority (t : KnxTelegram) : Nat :=
  t.controlField &&& CONTROL_FIELD_PRIORITY_MASK

/-- `CONTROL_FIELD_SET_REPEATED(_controlField)`, that is `_controlField &= 0b11011111`. -/
def setRepeated (t : KnxTelegram) : KnxTelegram :=
  t.setRawByte (t.controlField &&& 0b11011111) 0

def isRepeated (t : KnxTelegram) : Bool :=
  !((t.controlField &&& CONTROL_FIELD_REPEATED_MASK) != 0)

/-- The parameter `addr` is a `word`. -/
def setSourceAddress (t : KnxTelegram) (addr : Nat) : KnxTelegram :=
  let t1 := t.setRawByte (toWord addr) 2
  t1.setRawByte (toWord addr >>> 8) 1

def getSourceAddress (t : KnxTelegram) : Nat :=
  toWord (t.sourceAddrL + (t.sourceAddrH <<< 8))

/-- The parameter `addr` is a `word`. -/
def setTargetAddress (t : KnxTelegram) (addr : Nat) : KnxTelegram :=
  let t1 := t.setRawByte (toWord addr) 4
  t1.setRawByte (toWord addr >>> 8) 3

def getTargetAddress (t : KnxTelegram) : Nat :=
  toWord (t.targetAddrL + (t.targetAddrH <<< 8))

def isMulticast (t : KnxTelegram) : Bool :=
  (t.routing &&& ROUTING_FIELD_TARGET_ADDRESS_TYPE_MASK) != 0

def setMulticast (t : KnxTelegram) (mode : Bool) : KnxTelegram :=
  if mode then
    t.setRawByte (t.routing ||| ROUTING_FIELD_TARGET_ADDRESS_TYPE_MASK) 5
  else
    t.setRawByte (t.routing &&& bitNot ROUTING_FIELD_TARGET_ADDRESS_TYPE_MASK) 5

/-- The parameter `counter` is a `byte`; `counter <<= 4` truncates to a `byte`. -/
def setRoutingCounter (t : KnxTelegram) (counter : Byte) : KnxTelegram :=
  let counter1 := (toByte (counter.val <<< 4)).val
  let t1 := t.setRawByte (t.routing &&& bitNot ROUTING_FIELD_COUNTER_MASK) 5
  t1.setRawByte (t1.routing ||| (counter1 &&& ROUTING_FIELD_COUNTER_MASK)) 5

def getRoutingCounter (t : KnxTelegram) : Nat :=
  (toByte ((t.routing &&& ROUTING_FIELD_COUNTER_MASK) >>> 4)).val

/-- The parameter `length` is a `byte`. -/
def setPayloadLength (t : KnxTelegram) (length : Byte) : KnxTelegram :=
  let t1 := t.setRawByte (t.routing &&& bitNot ROUTING_FIELD_PAYLOAD_LENGTH_MASK) 5
  t1.setRawByte (t1.routing ||| (length.val &&& ROUTING_FIELD_PAYLOAD_LENGTH_MASK)) 5

def getPayloadLength (t : KnxTelegram) : Nat :=
  (toByte (t.routing &&& ROUTING_FIELD_PAYLOAD_LENGTH_MASK)).val

def getTelegramLength (t : KnxTelegram) : Nat :=
  (toByte (KNX_TELEGRAM_LENGTH_OFFSET + t.getPayloadLength)).val

def setCommand (t : KnxTelegram) (cmd : KnxCommand) : KnxTelegram :=
  let t1 := t.setRawByte (t.commandH &&& bitNot COMMAND_FIELD_HIGH_COMMAND_MASK) 6
  let t2 := t1.setRawByte (t1.commandH ||| (cmd.val >>> 2)) 6
  let t3 := t2.setRawByte (t2.commandL &&& bitNot COMMAND_FIELD_LOW_COMMAND_MASK) 7
  t3.setRawByte (t3.commandL ||| (cmd.val <<< 6)) 7

/-- The result of `getCommand` is the integer value of the returned `KnxCommand`, which
need not be the value of one of the four enumerators. -/
def getCommand (t : KnxTelegram) : Nat :=
  ((t.commandL &&& COMMAND_FIELD_LOW_COMMAND_MASK) >>> 6)
    + ((t.commandH &&& COMMAND_FIELD_HIGH_COMMAND_MASK) <<< 2)

def getChecksum (t : KnxTelegram) : Nat :=
  t.payloadChecksum ((t.getPayloadLength : Int) - 1)

/-! ### Checksum, validity and payload (`KnxTelegram.cpp`) -/

/-- The value of `xorSum` in `calculateChecksum` after the first `n` iterations of
`for (byte i = 0; i < indexChecksum; i++) xorSum ^= _telegram[i];`. -/
def xorSumAfter (t : KnxTelegram) : Nat → Nat
  | 0 => 0
  | i + 1 => (toByte (xorSumAfter t i ^^^ t.getRawByte i)).val

def calculateChecksum (t : KnxTelegram) : Nat :=
  let indexChecksum := (toByte (KNX_TELEGRAM_HEADER_SIZE + t.getPayloadLength + 1)).val
  let xorSum := xorSumAfter t indexChecksum
  (toByte (bitNot xorSum)).val

def updateChecksum (t : KnxTelegram) : KnxTelegram :=
  let indexChecksum := (toByte (KNX_TELEGRAM_HEADER_SIZE + t.getPayloadLength + 1)).val
  t.setRawByte t.calculateChecksum indexChecksum

def isChecksumCorrect (t : KnxTelegram) : Bool :=
  t.getChecksum == t.calculateChecksum

def getValidity (t : KnxTelegram) : KnxTelegramValidity :=
  if (t.controlField &&& CONTROL_FIELD_PATTERN_MASK) != CONTROL_FIELD_VALID_PATTERN then
    .KNX_TELEGRAM_INVALID_CONTROL_FIELD
  else if (t.controlField &&& CONTROL_FIELD_FRAME_FORMAT_MASK)
      != CONTROL_FIELD_STANDARD_FRAME_FORMAT then
    .KNX_TELEGRAM_UNSUPPORTED_FRAME_FORMAT
  else if !(t.getPayloadLength != 0) then
    .KNX_TELEGRAM_INCORRECT_PAYLOAD_LENGTH
  else if (t.commandH &&& COMMAND_FIELD_PATTERN_MASK) != COMMAND_FIELD_VALID_PATTERN then
    .KNX_TELEGRAM_INVALID_COMMAND_FIELD
  else if t.getChecksum != t.calculateChecksum then
    .KNX_TELEGRAM_INCORRECT_CHECKSUM
  else
    let cmd := (toByte t.getCommand).val
    if cmd != KnxCommand.KNX_COMMAND_VALUE_READ.val
        && cmd != KnxCommand.KNX_COMMAND_VALUE_RESPONSE.val
        && cmd != KnxCommand.KNX_COMMAND_VALUE_WRITE.val
        && cmd != KnxCommand.KNX_COMMAND_MEMORY_WRITE.val then
      .KNX_TELEGRAM_UNKNOWN_COMMAND
    else
      .KNX_TELEGRAM_VALID

/-- The telegram after the first `n` iterations of
`for (byte i = 0; i < length; i++) _payloadChecksum[i] = data[i];`. -/
def copyPayload (t : KnxTelegram) (data : Nat → Byte) : Nat → KnxTelegram
  | 0 => t
  | i + 1 => (copyPayload t data i).setPayloadChecksum i (data i).val

/-- The array parameter `data` is given by its elements `data i`; `length` is a `byte`. -/
def setPayload (t : KnxTelegram) (data : Nat → Byte) (length : Byte) : KnxTelegram :=
  if length.val = 0 then
    let t1 := t.setRawByte (t.commandL &&& bitNot COMMAND_FIELD_LOW_DATA_MASK) 7
    t1.setRawByte (t1.commandL ||| ((data 0).val &&& COMMAND_FIELD_LOW_DATA_MASK)) 7
  else
    let t1 := t.setPayloadLength (toByte (length.val + 1))
    let length1 := (toByte (min length.val (KNX_TELEGRAM_PAYLOAD_MAX_SIZE - 2))).val
    copyPayload t1 data length1

/-- The function `KnxTelegram::copy`: `memcpy(dest._telegram, _telegram, length)` with
`length = getTelegramLength()`, which is at most 23. The result is the destination. -/
def copy (t dest : KnxTelegram) : KnxTelegram :=
  let length := t.getTelegramLength
  ⟨fun i => if i.val < length then t.telegram i else dest.telegram i⟩

/-- The function `KnxTelegram::copyHeader`: `memcpy` of the first
`KNX_TELEGRAM_HEADER_SIZE` bytes. The result is the destination. -/
def copyHeader (t dest : KnxTelegram) : KnxTelegram :=
  ⟨fun i => if i.val < KNX_TELEGRAM_HEADER_SIZE then t.telegram i else dest.telegram i⟩

/-! ### DPT decoders (`KnxTelegram.cpp`) -/

/-- Conversion of a mathematical integer to the 16-bit two-complement `int` of the AVR
target (the value an overflowing `int` computation wraps to). -/
def toInt (x : Int) : Int := (x + 32768) % 65536 - 32768

def getBool (t : KnxTelegram) : Bool :=
  if t.getPayloadLength != 1 then false
  else (t.commandL &&& 0b00000001) != 0

def get2BitIntValue (t : KnxTelegram) : Nat :=
  if t.getPayloadLength != 1 then 0
  else (toByte (t.commandL &&& 0b00000011)).val

def get4BitIntValue (t : KnxTelegram) : Nat :=
  if t.getPayloadLength != 1 then 0
  else (toByte (t.commandL &&& 0b00001111)).val

def get1ByteIntValue (t : KnxTelegram) : Nat :=
  if t.getPayloadLength != 2 then 0
  else t.payloadChecksum 0

/-- The result is an `int`: `_payloadChecksum[0] << 8` and the sum are computed in 16-bit
`int` arithmetic. -/
def get2ByteIntValue (t : KnxTelegram) : Int :=
  if t.getPayloadLength != 3 then 0
  else toInt (toInt ((t.payloadChecksum 0 <<< 8 : Nat) : Int) + toInt (t.payloadChecksum 1 : Nat))

/-- The local `signMultiplier` of `get2ByteFloatValue`. -/
def get2ByteFloatValue.signMultiplier (t : KnxTelegram) : Int :=
  if (t.payloadChecksum 0 &&& 0x80) != 0 then -1 else 1

/-- The local `absoluteMantissa` (a `word`) of `get2ByteFloatValue`, after the adjustment
made for a negative mantissa. -/
def get2ByteFloatValue.absoluteMantissa (t : KnxTelegram) : Nat :=
  let absoluteMantissa := toWord (t.payloadChecksum 1 + ((t.payloadChecksum 0 &&& 0x07) <<< 8))
  if get2ByteFloatValue.signMultiplier t == -1 then
    toWord ((bitNot absoluteMantissa &&& 0x07FF) + 1)
  else absoluteMantissa

/-- The local `exponent` (a `byte`) of `get2ByteFloatValue`. -/
def get2ByteFloatValue.exponent (t : KnxTelegram) : Nat :=
  (toByte ((t.payloadChecksum 0 &&& 0x78) >>> 3)).val

/-- The result of `get2ByteFloatValue`, a `float`, is represented by the integer `k` for
which the function returns the floating-point product
`0.01 * ((long)absoluteMantissa << exponent) * signMultiplier`, that is `0.01 * k` up to
floating-point rounding, which is outside this embedding; `return 0` is `k = 0`. The shift
stays below `2 ^ 27` and so never leaves the 32-bit `long`. -/
def get2ByteFloatValue (t : KnxTelegram) : Int :=
  if t.getPayloadLength != 3 then 0
  else
    ((get2ByteFloatValue.absoluteMantissa t <<< get2ByteFloatValue.exponent t : Nat) : Int)
      * get2ByteFloatValue.signMultiplier t

/-- The value of a `float` object whose four bytes in memory are `data[0..3]`, as its
32-bit IEEE-754 pattern: the AVR target is little-endian, `data[0]` is the least
significant byte. -/
def floatOfBytes (data0 data1 data2 data3 : Nat) : Nat :=
  data0 + (data1 <<< 8) + (data2 <<< 16) + (data3 <<< 24)

/-- The result of `get4ByteFloatValue`, a `float`, is represented by its 32-bit IEEE-754
pattern; `return 0` is the pattern 0. -/
def get4ByteFloatValue (t : KnxTelegram) : Nat :=
  if t.getPayloadLength != 5 then 0
  else
    let data0 := t.payloadChecksum 3
    let data1 := t.payloadChecksum 2
    let data2 := t.payloadChecksum 1
    let data3 := t.payloadChecksum 0
    floatOfBytes data0 data1 data2 data3

/-! ### Specification-side operations

The definitions below are not part of the sources: they name what the specification
talks about (the XOR of a range of bytes, the inversion of one bit) and fix the concrete
telegrams used as examples. -/

/-- Specification side: the XOR of the bytes at index `0 .. n-1` of the buffer. -/
def xorOfBytes (t : KnxTelegram) (n : Nat) : Nat :=
  ((List.range n).map t.getRawByte).foldl (fun acc b => acc ^^^ b) 0

/-- Specification side: the telegram with bit `bit` of the byte at `byteIndex` inverted. -/
def flipBit (t : KnxTelegram) (byteIndex bit : Nat) : KnxTelegram :=
  t.setRawByte (t.getRawByte byteIndex ^^^ (1 <<< bit)) byteIndex

/-- A two-byte payload `A2 00`. -/
def payloadA2 : Nat → Byte := fun i => if i = 0 then 0xA2 else 0

/-- A fresh telegram on which `setPayload(payloadA2, 2)` was called. -/
def telegramA2 : KnxTelegram := setPayload (new ⟨fun _ => 0⟩) payloadA2 2

/-- A payload of fourteen bytes `FF`. -/
def payloadFF : Nat → Byte := fun _ => 0xFF

/-- A fresh telegram with the command `ValueWrite` and an updated checksum. -/
def telegramValid : KnxTelegram :=
  updateChecksum (setCommand (new ⟨fun _ => 0⟩) .KNX_COMMAND_VALUE_WRITE)

end KnxTelegram

/-! ## Address helpers of `SimpleKnx.h` -/

/-- The three parameters are `byte`s; the result is converted to `word`. -/
def P_ADDR (area line busdevice : Byte) : Nat :=
  toWord (((area.val &&& 0xF) <<< 12) + ((line.val &&& 0xF) <<< 8) + busdevice.val)

/-- The three parameters are `byte`s; the result is converted to `word`. -/
def G_ADDR (maingrp midgrp subgrp : Byte) : Nat :=
  toWord (((maingrp.val &&& 0x1F) <<< 11) + ((midgrp.val &&& 0x7) <<< 8) + subgrp.val)

/-! ## Outbound telegrams of `SimpleKnx.cpp`

Each `groupWrite*` method of `SimpleKnx_` builds a telegram in `appendTelegram` and hands
it to `_txActionList.append`. The functions of this section return that telegram. -/

namespace TxTelegram

/-- Conversion of a (possibly negative) integer value to `byte`: the low eight bits of its
two-complement form. -/
def toByteInt (x : Int) : Byte := ⟨(x % 256).toNat, by omega⟩

/-- The elements of a local `byte` array given by an initialiser list. No caller reads
past the end of its array; the model reads 0 there. -/
def arrayOf (elements : List Byte) : Nat → Byte := fun i => elements.getD i 0

/-- The local `txTelegram` of `appendTelegram` at the call `_txActionList.append(txTelegram)`.
The constructor overwrites all 23 bytes, so the storage it starts from is immaterial. -/
def appendTelegram (answer : Bool) (groupAddress : Nat) (data : Nat → Byte) (length : Byte) :
    KnxTelegram :=
  let txTelegram := KnxTelegram.new ⟨fun _ => 0⟩
  let txTelegram := txTelegram.setTargetAddress groupAddress
  let txTelegram := txTelegram.setCommand
    (if answer then .KNX_COMMAND_VALUE_RESPONSE else .KNX_COMMAND_VALUE_WRITE)
  txTelegram.setPayload data length

def groupWriteBool (answer : Bool) (groupAddress : Nat) (value : Bool) : KnxTelegram :=
  let data := arrayOf [toByte (if value then 0b00000001 else 0b00000000)]
  appendTelegram answer groupAddress data 0

def groupWrite2BitIntValue (answer : Bool) (groupAddress : Nat) (value : Byte) : KnxTelegram :=
  let data := arrayOf [toByte (value.val &&& 0b00000011)]
  appendTelegram answer groupAddress data 0

def groupWrite4BitIntValue (answer : Bool) (groupAddress : Nat) (value : Byte) : KnxTelegram :=
  let data := arrayOf [toByte (value.val &&& 0b00001111)]
  appendTelegram answer groupAddress data 0

def groupWrite1ByteIntValue (answer : Bool) (groupAddress : Nat) (value : Byte) : KnxTelegram :=
  let data := arrayOf [value]
  appendTelegram answer groupAddress data 1

/-- The 16-bit two-complement pattern of an `int` value. -/
def intBits (x : Int) : Nat := (x % 65536).toNat

/-- The 32-bit two-complement pattern of a `long` value. -/
def longBits (x : Int) : Nat := (x % 4294967296).toNat

/-- The parameter `value` is an `int` (16 bits); `>>` on it is the arithmetic shift, and
`value & 0xFF` is taken on the two-complement pattern. -/
def groupWrite2ByteIntValue (answer : Bool) (groupAddress : Nat) (value : Int) : KnxTelegram :=
  let data := arrayOf [toByteInt (value >>> (8 : Nat)), toByte (intBits value &&& 0xFF)]
  appendTelegram answer groupAddress data 2

/-- The parameter `value` is a `long` (32 bits); `>>` on it is the arithmetic shift, and
`value & 0xFF` is taken on the two-complement pattern. -/
def groupWrite4ByteIntValue (answer : Bool) (groupAddress : Nat) (value : Int) : KnxTelegram :=
  let data := arrayOf [toByteInt (value >>> (24 : Nat)), toByteInt (value >>> (16 : Nat)),
    toByteInt (value >>> (8 : Nat)), toByte (longBits value &&& 0xFF)]
  appendTelegram answer groupAddress data 4

/-- The `long` value of a 32-bit pattern. -/
def ofLongBits (bits : Nat) : Int :=
  if bits % 4294967296 < 2147483648 then ((bits % 4294967296 : Nat) : Int)
  else ((bits % 4294967296 : Nat) : Int) - 4294967296

/-- The locals `longValuex100`, `exponent` and `round` of `groupWrite2ByteFloatValue`. -/
structure EncoderState where
  longValuex100 : Int
  exponent : Nat
  round : Nat
  deriving DecidableEq, Repr

/-- The loop `while (longValuex100 < (long)(-2048)) { ... }`, run for at most `fuel`
iterations. -/
def negativeLoop : Nat → EncoderState → EncoderState
  | 0, s => s
  | fuel + 1, s =>
    if s.longValuex100 < -2048 then
      negativeLoop fuel
        { exponent := (toByte (s.exponent + 1)).val
          round := (toByteInt s.longValuex100).val &&& 1
          longValuex100 := ofLongBits (longBits (s.longValuex100 >>> (1 : Nat)) ||| 0x80000000) }
    else s

/-- The loop `while (longValuex100 > (long)(2047)) { ... }`, run for at most `fuel`
iterations. -/
def positiveLoop : Nat → EncoderState → EncoderState
  | 0, s => s
  | fuel + 1, s =>
    if s.longValuex100 > 2047 then
      positiveLoop fuel
        { exponent := (toByte (s.exponent + 1)).val
          round := (toByteInt s.longValuex100).val &&& 1
          longValuex100 := s.longValuex100 >>> (1 : Nat) }
    else s

/-- The array `data` of `groupWrite2ByteFloatValue` at the call of `appendTelegram`. The
parameter is the value of `longValuex100` after `long longValuex100 = (long)(100.0 * value)`;
the floating-point product and its conversion are outside this embedding. Each loop
halves a 32-bit value and leaves after at most 20 iterations, so that 32 iterations
are never exhausted. -/
def groupWrite2ByteFloatValue.data (longValuex100 : Int) : Nat → Byte :=
  let negativeSign := (longBits longValuex100 &&& 0x80000000) != 0
  let s : EncoderState := { longValuex100 := longValuex100, exponent := 0, round := 0 }
  let s := if negativeSign then negativeLoop 32 s else positiveLoop 32 s
  let longValuex100 :=
    if s.round != 0 then ofLongBits (longBits (s.longValuex100 + 1)) else s.longValuex100
  let data1 := toByteInt longValuex100
  let data0 := toByte ((toByteInt (longValuex100 >>> (8 : Nat))).val &&& 0x7)
  let data0 := toByte (data0.val + (s.exponent <<< 3))
  let data0 := if negativeSign then toByte (data0.val + 0x80) else data0
  arrayOf [data0, data1]

/-- The parameter stands for `(long)(100.0 * value)`, see `groupWrite2ByteFloatValue.data`. -/
def groupWrite2ByteFloatValue (answer : Bool) (groupAddress : Nat) (longValuex100 : Int) :
    KnxTelegram :=
  appendTelegram answer groupAddress (groupWrite2ByteFloatValue.data longValuex100) 2

/-- The parameter `value`, a `float`, is given by its 32-bit IEEE-754 pattern. The store
`*f = value` through the pointer to `data[0]` writes the four bytes of the object; the AVR
target is little-endian, so `data[0]` receives the least significant byte. -/
def groupWrite4ByteFloatValue (answer : Bool) (groupAddress : Nat) (value : Nat) : KnxTelegram :=
  let data := arrayOf [toByte value, toByte (value >>> 8), toByte (value >>> 16),
    toByte (value >>> 24)]
  appendTelegram answer groupAddress data 4

end TxTelegram

/-! ## The link driver (`KnxTpUart.h`, `KnxTpUart.cpp`) -/

def KNX_TPUART_OK : Nat := 0
def KNX_TPUART_ERROR : Nat := 255
def KNX_TPUART_ERROR_NOT_INIT_STATE : Nat := 254

/-- The enumeration `TpUartRxState`. -/
inductive TpUartRxState where
  | RX_RESET
  | RX_STOPPED
  | RX_INIT
  | RX_IDLE_WAITING_FOR_CTRL_FIELD
  | RX_KNX_TELEGRAM_RECEPTION_STARTED
  | RX_KNX_TELEGRAM_RECEPTION_ADDRESSED
  | RX_KNX_TELEGRAM_RECEPTION_LENGTH_INVALID
  | RX_KNX_TELEGRAM_RECEPTION_NOT_ADDRESSED
  deriving DecidableEq, Repr

/-- The enumeration `TpUartTxState`. -/
inductive TpUartTxState where
  | TX_RESET
  | TX_STOPPED
  | TX_INIT
  | TX_IDLE
  | TX_TELEGRAM_SENDING_ONGOING
  | TX_WAITING_ACK
  deriving DecidableEq, Repr

/-- The enumerator values of `TpUartRxState`. -/
def TpUartRxState.val : TpUartRxState → Nat
  | .RX_RESET => 0
  | .RX_STOPPED => 1
  | .RX_INIT => 2
  | .RX_IDLE_WAITING_FOR_CTRL_FIELD => 3
  | .RX_KNX_TELEGRAM_RECEPTION_STARTED => 4
  | .RX_KNX_TELEGRAM_RECEPTION_ADDRESSED => 5
  | .RX_KNX_TELEGRAM_RECEPTION_LENGTH_INVALID => 6
  | .RX_KNX_TELEGRAM_RECEPTION_NOT_ADDRESSED => 7

/-- The enumerator values of `TpUartTxState`. -/
def TpUartTxState.val : TpUartTxState → Nat
  | .TX_RESET => 0
  | .TX_STOPPED => 1
  | .TX_INIT => 2
  | .TX_IDLE => 3
  | .TX_TELEGRAM_SENDING_ONGOING => 4
  | .TX_WAITING_ACK => 5

/-- The enumeration `KnxTpUartEvent`. -/
inductive KnxTpUartEvent where
  | TPUART_EVENT_RESET
  | TPUART_EVENT_RECEIVED_KNX_TELEGRAM
  | TPUART_EVENT_KNX_TELEGRAM_RECEPTION_ERROR
  deriving DecidableEq, Repr

def TPUART_RESET_REQ : Nat := 0x01
def TPUART_DATA_START_CONTINUE_REQ : Nat := 0x80
def TPUART_DATA_END_REQ : Nat := 0x40
def TPUART_RX_ACK_SERVICE_ADDRESSED : Nat := 0x11
def TPUART_RX_ACK_SERVICE_NOT_ADDRESSED : Nat := 0x10
def TPUART_RESET_INDICATION : Nat := 0x03
def TPUART_DATA_CONFIRM_SUCCESS : Nat := 0x8B
def TPUART_DATA_CONFIRM_FAILED : Nat := 0x0B
def TPUART_STATE_INDICATION : Nat := 0x07
def TPUART_STATE_INDICATION_MASK : Nat := 0x07
def KNX_CONTROL_FIELD_PATTERN_MASK : Nat := 0b11010011
def KNX_CONTROL_FIELD_VALID_PATTERN : Nat := 0b10010000
def KNX_PAYLOAD_LENGTH_MASK : Nat := 0b00001111
def KNX_RX_TIMEOUT : Nat := 50000
def KNX_TX_TIMEOUT : Nat := 500

/-- The function `TimeDeltaWord` of `KnxTools.h`: the difference of two `word`s, as a
`word`. -/
def TimeDeltaWord (now before : Nat) : Nat :=
  (toWord now + 65536 - toWord before) % 65536

/-- The function `TimeDeltaUnsignedLong` of `KnxTools.h`: the difference of two 32-bit
`unsigned long`s, as an `unsigned long`. -/
def TimeDeltaUnsignedLong (now before : Nat) : Nat :=
  (now % 4294967296 + 4294967296 - before % 4294967296) % 4294967296

/-- The serial port `HardwareSerial` as the driver sees it: the bytes the UART has received
and the driver has not read yet (`available()`, `read()`), and the bytes the driver has
written, oldest first. -/
structure HardwareSerial where
  rxBuffer : List Nat
  written : List Nat

/-- The struct `TpUartRx`. -/
structure TpUartRx where
  readBytes : Nat
  telegramCompletelyReceived : Bool
  state : TpUartRxState
  receivedTelegram : KnxTelegram

/-- The struct `TpUartTx`. The pointer `sentTelegram` is modelled by the telegram it points
to (`none` for `NULL`). -/
structure TpUartTx where
  state : TpUartTxState
  sentTelegram : Option KnxTelegram
  bytesRemaining : Nat
  txByteIndex : Nat

/-- The function-local `static` variables of `rxTask` (`expectedTelegramLength`,
`telegram`, `lastByteRxTimeMicrosec`) and of `txTask` (`sentMessageTimeMillisec`). -/
structure Statics where
  expectedTelegramLength : Nat
  telegram : KnxTelegram
  lastByteRxTimeMicrosec : Nat
  sentMessageTimeMillisec : Nat

/-- The values of the `static` variables at program start. -/
def Statics.initial : Statics :=
  { expectedTelegramLength := 0
    telegram := KnxTelegram.new ⟨fun _ => 0⟩
    lastByteRxTimeMicrosec := 0
    sentMessageTimeMillisec := 0 }

/-- The class `KnxTpUart`, with the `static` locals of its tasks. The member
`_evtCallbackFct` is modelled by `events`: every call `_evtCallbackFct(event)` is recorded,
oldest first, together with the content `_rx.receivedTelegram` has at the time of the
call, which is what `getReceivedTelegram()` gives the callee. What the installed callback
does to the driver is applied by the model of its caller (the callback of this repository,
`SimpleKnx_::getTpUartEvents`, touches the driver only on `TPUART_EVENT_RESET`, after which
`rxTask` returns at once). -/
structure KnxTpUart where
  serial : HardwareSerial
  rx : TpUartRx
  tx : TpUartTx
  events : List (KnxTpUartEvent × KnxTelegram)
  physicalAddr : Nat
  groupAddressList : List Nat
  groupAddressListSize : Nat
  statics : Statics

namespace KnxTpUart

/-- The constructor `KnxTpUart::KnxTpUart`. The members it leaves uninitialised are given
as parameters, and so are the `static` locals of the tasks, which it does not touch. -/
def new (serial : HardwareSerial) (physicalAddr : Nat) (groupAddressList : List Nat)
    (groupAddressListSize : Byte)
    (telegramCompletelyReceived : Bool) (receivedTelegram : KnxTelegram)
    (statics : Statics) : KnxTpUart :=
  { serial := serial
    rx := { state := .RX_RESET, readBytes := 0,
            telegramCompletelyReceived := telegramCompletelyReceived,
            receivedTelegram := KnxTelegram.new receivedTelegram }
    tx := { state := .TX_RESET, sentTelegram := none, bytesRemaining := 0, txByteIndex := 0 }
    events := []
    physicalAddr := toWord physicalAddr
    groupAddressList := groupAddressList
    groupAddressListSize := groupAddressListSize.val
    statics := statics }

/-- A call `_evtCallbackFct(event)`, see `KnxTpUart`. -/
def evtCallbackFct (d : KnxTpUart) (event : KnxTpUartEvent) : KnxTpUart :=
  { d with events := d.events ++ [(event, d.rx.receivedTelegram)] }

/-- The function `KnxTpUart::init`: the returned status and the driver after the call. -/
def init (d : KnxTpUart) : Nat × KnxTpUart :=
  if d.rx.state != .RX_INIT || d.tx.state != .TX_INIT then
    (KNX_TPUART_ERROR_NOT_INIT_STATE, d)
  else
    (KNX_TPUART_OK,
      { d with rx := { d.rx with state := .RX_IDLE_WAITING_FOR_CTRL_FIELD }
               tx := { d.tx with state := .TX_IDLE } })

def isFreeToSend (d : KnxTpUart) : Bool :=
  d.rx.state == .RX_IDLE_WAITING_FOR_CTRL_FIELD && d.tx.state == .TX_IDLE

def isRxActive (d : KnxTpUart) : Bool :=
  decide (d.rx.state.val > TpUartRxState.RX_IDLE_WAITING_FOR_CTRL_FIELD.val)

/-- The loop of `isAddressAssigned` from index `i` on, with `remaining` entries of the
table left to compare. An entry past the end of the table (not reached when
`_groupAddressListSize` is the size of the table) reads as 0. -/
def isAddressAssignedFrom (d : KnxTpUart) (addr : Nat) : Nat → Nat → Bool
  | 0, _ => false
  | remaining + 1, i =>
    if d.groupAddressList.getD i 0 == addr then true
    else isAddressAssignedFrom d addr remaining (i + 1)

def isAddressAssigned (d : KnxTpUart) (addr : Nat) : Bool :=
  isAddressAssignedFrom d addr d.groupAddressListSize 0

/-- The function `KnxTpUart::rxTaskFinished`. Its parameter is a copy of the telegram. -/
def rxTaskFinished (d : KnxTpUart) (telegram : KnxTelegram) : KnxTpUart :=
  let d :=
    match d.rx.state with
    | .RX_KNX_TELEGRAM_RECEPTION_STARTED
    | .RX_KNX_TELEGRAM_RECEPTION_LENGTH_INVALID =>
      d.evtCallbackFct .TPUART_EVENT_KNX_TELEGRAM_RECEPTION_ERROR
    | .RX_KNX_TELEGRAM_RECEPTION_ADDRESSED =>
      if telegram.isChecksumCorrect then
        let d := { d with rx := { d.rx with
          receivedTelegram := telegram.copy d.rx.receivedTelegram } }
        d.evtCallbackFct .TPUART_EVENT_RECEIVED_KNX_TELEGRAM
      else
        d.evtCallbackFct .TPUART_EVENT_KNX_TELEGRAM_RECEPTION_ERROR
    | _ => d
  { d with rx := { d.rx with state := .RX_IDLE_WAITING_FOR_CTRL_FIELD, readBytes := 0 } }

/-- The `switch (_rx.state)` of `rxTask` for the byte `incomingByte` just read. -/
def rxTaskByte (d : KnxTpUart) (incomingByte : Nat) : KnxTpUart :=
  match d.rx.state with
  | .RX_IDLE_WAITING_FOR_CTRL_FIELD =>
    if (incomingByte &&& KNX_CONTROL_FIELD_PATTERN_MASK) == KNX_CONTROL_FIELD_VALID_PATTERN then
      { d with
        rx := { d.rx with state := .RX_KNX_TELEGRAM_RECEPTION_STARTED, readBytes := 1 }
        statics := { d.statics with telegram := d.statics.telegram.setRawByte incomingByte 0 } }
    else if incomingByte == TPUART_DATA_CONFIRM_SUCCESS then
      if d.tx.state == .TX_WAITING_ACK then { d with tx := { d.tx with state := .TX_IDLE } }
      else d
    else if incomingByte == TPUART_RESET_INDICATION then
      let d := { d with tx := { d.tx with state := .TX_STOPPED }
                        rx := { d.rx with state := .RX_STOPPED } }
      d.evtCallbackFct .TPUART_EVENT_RESET
    else if (incomingByte &&& TPUART_STATE_INDICATION_MASK) == TPUART_STATE_INDICATION then
      d
    else if incomingByte == TPUART_DATA_CONFIRM_FAILED then
      if d.tx.state == .TX_WAITING_ACK then { d with tx := { d.tx with state := .TX_IDLE } }
      else d
    else if incomingByte != 0 then
      d
    else d
  | .RX_KNX_TELEGRAM_RECEPTION_STARTED =>
    let d := { d with statics := { d.statics with
      telegram := d.statics.telegram.setRawByte incomingByte d.rx.readBytes } }
    let d := { d with rx := { d.rx with readBytes := (toByte (d.rx.readBytes + 1)).val } }
    if d.rx.readBytes == 6 then
      let d := { d with statics := { d.statics with
        expectedTelegramLength := (toByte ((incomingByte &&& KNX_PAYLOAD_LENGTH_MASK) + 7)).val } }
      if d.statics.telegram.getSourceAddress != d.physicalAddr
          && d.isAddressAssigned d.statics.telegram.getTargetAddress then
        let d := { d with serial := { d.serial with
          written := d.serial.written ++ [TPUART_RX_ACK_SERVICE_ADDRESSED] } }
        { d with rx := { d.rx with state := .RX_KNX_TELEGRAM_RECEPTION_ADDRESSED } }
      else
        let d := { d with serial := { d.serial with
          written := d.serial.written ++ [TPUART_RX_ACK_SERVICE_NOT_ADDRESSED] } }
        { d with rx := { d.rx with state := .RX_KNX_TELEGRAM_RECEPTION_NOT_ADDRESSED } }
    else d
  | .RX_KNX_TELEGRAM_RECEPTION_ADDRESSED
  | .RX_KNX_TELEGRAM_RECEPTION_NOT_ADDRESSED =>
    if d.rx.readBytes == KNX_TELEGRAM_MAX_SIZE then
      let d := { d with rx := { d.rx with state := .RX_KNX_TELEGRAM_RECEPTION_LENGTH_INVALID } }
      d.rxTaskFinished d.statics.telegram
    else
      let d :=
        if d.rx.state == .RX_KNX_TELEGRAM_RECEPTION_ADDRESSED then
          { d with statics := { d.statics with
            telegram := d.statics.telegram.setRawByte incomingByte d.rx.readBytes } }
        else d
      if d.statics.expectedTelegramLength == d.rx.readBytes then
        d.rxTaskFinished d.statics.telegram
      else
        { d with rx := { d.rx with readBytes := (toByte (d.rx.readBytes + 1)).val } }
  | .RX_KNX_TELEGRAM_RECEPTION_LENGTH_INVALID =>
    { d with rx := { d.rx with readBytes := (toByte (d.rx.readBytes + 1)).val } }
  | _ => d

/-- The function `KnxTpUart::rxTask`. The parameters are the values the two calls of
`micros()` return: `micros1` at the start, `micros2` after a byte has been read (not used
when no byte is available). -/
def rxTask (d : KnxTpUart) (micros1 micros2 : Nat) : KnxTpUart :=
  let nowTime := micros1 % 4294967296
  let d :=
    if d.rx.state.val ≥ TpUartRxState.RX_KNX_TELEGRAM_RECEPTION_STARTED.val then
      if TimeDeltaUnsignedLong nowTime d.statics.lastByteRxTimeMicrosec > KNX_RX_TIMEOUT then
        d.rxTaskFinished d.statics.telegram
      else d
    else d
  match d.serial.rxBuffer with
  | [] => d
  | first :: rest =>
    let incomingByte := (toByte first).val
    let d := { d with serial := { d.serial with rxBuffer := rest } }
    let d := { d with statics := { d.statics with
      lastByteRxTimeMicrosec := micros2 % 4294967296 } }
    d.rxTaskByte incomingByte

/-- The index that the `switch (_rx.state)` of `rxTask` passes to `telegram.setRawByte`
for the byte `incomingByte` just read: `0` for a control field read in the idle state,
`_rx.readBytes` in the state `RX_KNX_TELEGRAM_RECEPTION_STARTED`, and `_rx.readBytes` in the
state `RX_KNX_TELEGRAM_RECEPTION_ADDRESSED` unless `_rx.readBytes` is `KNX_TELEGRAM_MAX_SIZE`;
`none` where the branch taken does not call `setRawByte`. -/
def rxTaskByteStore (d : KnxTpUart) (incomingByte : Nat) : Option Nat :=
  match d.rx.state with
  | .RX_IDLE_WAITING_FOR_CTRL_FIELD =>
    if (incomingByte &&& KNX_CONTROL_FIELD_PATTERN_MASK) == KNX_CONTROL_FIELD_VALID_PATTERN then
      some 0
    else none
  | .RX_KNX_TELEGRAM_RECEPTION_STARTED => some d.rx.readBytes
  | .RX_KNX_TELEGRAM_RECEPTION_ADDRESSED
  | .RX_KNX_TELEGRAM_RECEPTION_NOT_ADDRESSED =>
    if d.rx.readBytes == KNX_TELEGRAM_MAX_SIZE then none
    else if d.rx.state == .RX_KNX_TELEGRAM_RECEPTION_ADDRESSED then some d.rx.readBytes
    else none
  | _ => none

/-- The index that a call of `rxTask` passes to `telegram.setRawByte`, if it calls it: the
index of `rxTaskByteStore` for the byte read, in the state the end-of-packet check has
left; `none` when no byte is available. -/
def rxTaskStore (d : KnxTpUart) (micros1 : Nat) : Option Nat :=
  let nowTime := micros1 % 4294967296
  let d :=
    if d.rx.state.val ≥ TpUartRxState.RX_KNX_TELEGRAM_RECEPTION_STARTED.val then
      if TimeDeltaUnsignedLong nowTime d.statics.lastByteRxTimeMicrosec > KNX_RX_TIMEOUT then
        d.rxTaskFinished d.statics.telegram
      else d
    else d
  match d.serial.rxBuffer with
  | [] => none
  | first :: _ => d.rxTaskByteStore (toByte first).val

/-- The loop `while (_tx.bytesRemaining > 0) { ... }` of `txTask`, run for at most `fuel`
iterations; every iteration decrements `_tx.bytesRemaining`, so that `_tx.bytesRemaining`
iterations are enough. A `NULL` telegram pointer (not reached: only `sendTelegram` enters
the sending state) reads as 0. -/
def txTaskLoop : Nat → KnxTpUart → KnxTpUart
  | 0, d => d
  | fuel + 1, d =>
    if d.tx.bytesRemaining > 0 then
      let txByte0 := (toByte
        ((if d.tx.bytesRemaining == 1 then TPUART_DATA_END_REQ
          else TPUART_DATA_START_CONTINUE_REQ) + d.tx.txByteIndex)).val
      let txByte1 :=
        match d.tx.sentTelegram with
        | some t => t.getRawByte d.tx.txByteIndex
        | none => 0
      let d := { d with serial := { d.serial with
        written := d.serial.written ++ [txByte0, txByte1] } }
      let d := { d with tx := { d.tx with txByteIndex := (toByte (d.tx.txByteIndex + 1)).val } }
      let d := { d with tx := { d.tx with bytesRemaining := d.tx.bytesRemaining - 1 } }
      txTaskLoop fuel d
    else d

/-- The function `KnxTpUart::txTask`. The parameter is the value `millis()` returns; each
branch that reads the clock reads it once. -/
def txTask (d : KnxTpUart) (millis : Nat) : KnxTpUart :=
  match d.tx.state with
  | .TX_WAITING_ACK =>
    let nowTime := toWord millis
    if TimeDeltaWord nowTime d.statics.sentMessageTimeMillisec > KNX_TX_TIMEOUT then
      { d with tx := { d.tx with state := .TX_IDLE } }
    else d
  | .TX_TELEGRAM_SENDING_ONGOING =>
    if d.rx.state == .RX_IDLE_WAITING_FOR_CTRL_FIELD then
      let d := txTaskLoop d.tx.bytesRemaining d
      let d := { d with statics := { d.statics with sentMessageTimeMillisec := toWord millis } }
      { d with tx := { d.tx with state := .TX_WAITING_ACK } }
    else d
  | _ => d

/-- The function `KnxTpUart::sendTelegram`: the returned status, the telegram `sentTelegram`
refers to after the call, and the driver after the call. -/
def sendTelegram (d : KnxTpUart) (sentTelegram : KnxTelegram) :
    Nat × KnxTelegram × KnxTpUart :=
  let sentTelegram := sentTelegram.setSourceAddress d.physicalAddr
  let sentTelegram := sentTelegram.updateChecksum
  let tx : TpUartTx :=
    { sentTelegram := some sentTelegram
      bytesRemaining := sentTelegram.getTelegramLength
      txByteIndex := 0
      state := .TX_TELEGRAM_SENDING_ONGOING }
  (KNX_TPUART_OK, sentTelegram, { d with tx := tx })

/-- Environment: the UART receives the byte `b`, which joins the bytes waiting to be
read. -/
def receive (d : KnxTpUart) (b : Nat) : KnxTpUart :=
  { d with serial := { d.serial with rxBuffer := d.serial.rxBuffer ++ [b] } }

/-- The call `_serial.end()`. Of what the Arduino core does there, the driver can observe
only that the received bytes not yet read are dropped. -/
def serialEnd (d : KnxTpUart) : KnxTpUart :=
  { d with serial := { d.serial with rxBuffer := [] } }

/-- The call `_serial.begin(19200, SERIAL_8E1)`, which changes nothing the driver can
observe. -/
def serialBegin (d : KnxTpUart) : KnxTpUart := d

/-- The inputs of one iteration of the `for` loop of `reset()`: the bytes the UART receives
before the `available()` test of the iteration, and the value `millis()` returns at the end
of the iteration. -/
structure ResetPoll where
  arrived : List Nat
  millis : Nat

/-- The inputs of one attempt of `reset()`: the value `millis()` returns when the `for`
loop starts, and the inputs of its iterations. -/
structure ResetAttempt where
  startMillis : Nat
  polls : List ResetPoll

/-- The `for` loop of `reset()` from the test of its condition on, with `nowTime` as it
is then. The result is `none` when the loop is still running after the iterations for
which inputs are given; otherwise it tells whether the reset indication was read (the
function then returns from inside the loop) and gives the driver. -/
def resetWait (startTime : Nat) : List ResetPoll → Nat → KnxTpUart → Option (Bool × KnxTpUart)
  | [], nowTime, d =>
    if TimeDeltaWord nowTime startTime < 1000 then none else some (false, d)
  | p :: polls, nowTime, d =>
    if TimeDeltaWord nowTime startTime < 1000 then
      let d := p.arrived.foldl receive d
      match d.serial.rxBuffer with
      | first :: rest =>
        let data := (toByte first).val
        let d := { d with serial := { d.serial with rxBuffer := rest } }
        if data == TPUART_RESET_INDICATION then
          some (true, { d with rx := { d.rx with state := .RX_INIT }
                               tx := { d.tx with state := .TX_INIT } })
        else resetWait startTime polls (toWord p.millis) d
      | [] => resetWait startTime polls (toWord p.millis) d
    else some (false, d)

/-- The loop `while (attempts--) { ... }` of `reset()` with `attempts` as it is at the
test. The result is `none` when inputs are missing; otherwise it tells whether the reset
indication was read and gives the driver. -/
def resetAttempts : Nat → List ResetAttempt → KnxTpUart → Option (Bool × KnxTpUart)
  | 0, _, d => some (false, d)
  | _ + 1, [], _ => none
  | attempts + 1, a :: more, d =>
    let d := { d with serial := { d.serial with
      written := d.serial.written ++ [TPUART_RESET_REQ] } }
    match resetWait (toWord a.startMillis) a.polls (toWord a.startMillis) d with
    | none => none
    | some (true, d) => some (true, d)
    | some (false, d) => resetAttempts attempts more d

/-- The function `KnxTpUart::reset`: the returned status and the driver after the call,
or `none` when the inputs given do not cover the whole call. -/
def reset (d : KnxTpUart) (attempts : List ResetAttempt) : Option (Nat × KnxTpUart) :=
  let d :=
    if decide (d.rx.state.val > TpUartRxState.RX_RESET.val)
        || decide (d.tx.state.val > TpUartTxState.TX_RESET.val) then
      let d := d.serialEnd
      { d with rx := { d.rx with state := .RX_RESET }, tx := { d.tx with state := .TX_RESET } }
    else d
  let d := d.serialBegin
  match resetAttempts 10 attempts d with
  | none => none
  | some (true, d) => some (KNX_TPUART_OK, d)
  | some (false, d) => some (KNX_TPUART_ERROR, d.serialEnd)

/-- The loop `while (SimpleKnx._tpuart->reset() == KNX_TPUART_ERROR) {}` of the callback
`getTpUartEvents`, with the inputs of its `reset()` calls: the driver when the loop has
ended, or `none` when it is still running after the calls for which inputs are given. -/
def resetLoop : List (List ResetAttempt) → KnxTpUart → Option KnxTpUart
  | [], _ => none
  | attempts :: more, d =>
    match d.reset attempts with
    | none => none
    | some (status, d) =>
      if status == KNX_TPUART_ERROR then resetLoop more d else some d

end KnxTpUart

/-! ## The orchestrator (`SimpleKnx.h`, `SimpleKnx.cpp`) -/

def ACTIONS_QUEUE_SIZE : Nat := 16
def KNX_RXTASK_INTERVAL : Nat := 400
def KNX_TXTASK_INTERVAL : Nat := 800

/-- Modelled from the spec: the class template `RingBuff` of `RingBuff.h`, which is not
among the sources. The specification describes it as a bounded FIFO of telegrams of
capacity 16 with the operations `append(t) → Ok|Full` (reject on full), `pop() → Option<t>`
and `count()`. The queue holds its telegrams oldest first. -/
structure RingBuff where
  items : List KnxTelegram

namespace RingBuff

/-- Modelled from the spec: `append` rejects the telegram when the queue is full. -/
def append (q : RingBuff) (t : KnxTelegram) : Bool × RingBuff :=
  if q.items.length < ACTIONS_QUEUE_SIZE then (true, ⟨q.items ++ [t]⟩) else (false, q)

/-- Modelled from the spec: `pop` removes and returns the oldest telegram, if any. -/
def pop (q : RingBuff) : Option KnxTelegram × RingBuff :=
  match q.items with
  | [] => (none, q)
  | t :: rest => (some t, ⟨rest⟩)

/-- Modelled from the spec: `getItemCount` is the number of queued telegrams. -/
def getItemCount (q : RingBuff) : Nat := q.items.length

end RingBuff

/-- The class `SimpleKnx_`. The pointer `_tpuart` is modelled by the driver it points to
(`task()` is only called after `begin` has created it). `hostCalls` records the telegrams
handed to the host function `telegramEventCallback`, oldest first. -/
structure SimpleKnx_ where
  deviceAddress : Nat
  lastRXTimeMicros : Nat
  lastTXTimeMicros : Nat
  tpuart : KnxTpUart
  txTelegram : KnxTelegram
  txActionList : RingBuff
  hostCalls : List KnxTelegram

/-- What the surroundings of the device contribute to a run of the callback
`getTpUartEvents`: `resetUntilOk` is the driver as the loop
`while (reset() == KNX_TPUART_ERROR) {}` leaves it when it ends (the loop with its inputs
is `KnxTpUart.resetLoop`), `telegramEventCallback` is what the host function of that name
does to the outbound queue through the `groupWrite*` methods. -/
structure Surroundings where
  resetUntilOk : KnxTpUart → KnxTpUart
  telegramEventCallback : KnxTelegram → RingBuff → RingBuff

/-- The clock values read and the bytes received around one call of `rxTask()`:
`arrived` are the bytes the UART has received since the previous call. -/
structure RxTaskEnv where
  arrived : List Nat
  micros1 : Nat
  micros2 : Nat

/-- The inputs of one pass of the loop of `task()`: the value of the first `micros()`,
the inputs of the first `rxTask()` call and of those of the inner `while` loop, the value
of the second `micros()` and the value `txTask()` reads from `millis()`. -/
structure TaskEnv where
  micros1 : Nat
  rxTask : RxTaskEnv
  rxTaskMore : List RxTaskEnv
  micros2 : Nat
  millis : Nat

namespace SimpleKnx_

/-- The call `_txActionList.append(txTelegram)` of `appendTelegram`; the result of `append`
is not used. -/
def append (s : SimpleKnx_) (txTelegram : KnxTelegram) : SimpleKnx_ :=
  { s with txActionList := (s.txActionList.append txTelegram).2 }

def groupWriteBool (s : SimpleKnx_) (answer : Bool) (groupAddress : Nat) (value : Bool) :
    SimpleKnx_ :=
  s.append (TxTelegram.groupWriteBool answer groupAddress value)

/-- The callback `getTpUartEvents`, run for an event the driver recorded together with
the received telegram of that moment. -/
def getTpUartEvents (w : Surroundings) (s : SimpleKnx_)
    (event : KnxTpUartEvent × KnxTelegram) : SimpleKnx_ :=
  match event.1 with
  | .TPUART_EVENT_RECEIVED_KNX_TELEGRAM =>
    let telegram := event.2
    { s with hostCalls := s.hostCalls ++ [telegram]
             txActionList := w.telegramEventCallback telegram s.txActionList }
  | .TPUART_EVENT_RESET =>
    { s with tpuart := (w.resetUntilOk s.tpuart).init.2 }
  | _ => s

/-- One call `_tpuart->rxTask()` from `task()`, with the callback run for the events the
call emits. -/
def rxTaskCall (w : Surroundings) (s : SimpleKnx_) (e : RxTaskEnv) : SimpleKnx_ :=
  let before := e.arrived.foldl KnxTpUart.receive s.tpuart
  let after := before.rxTask e.micros1 e.micros2
  (after.events.drop before.events.length).foldl (getTpUartEvents w) { s with tpuart := after }

/-- The loop `while (_tpuart->isRxActive()) { _tpuart->rxTask(); }`, run for as long as
inputs are given. -/
def rxTaskLoop (w : Surroundings) : List RxTaskEnv → SimpleKnx_ → SimpleKnx_
  | [], s => s
  | e :: more, s =>
    if s.tpuart.isRxActive then rxTaskLoop w more (rxTaskCall w s e) else s

/-- STEP 1 of a pass of the loop of `task()`: the received bytes are taken from the
TPUART when more than `KNX_RXTASK_INTERVAL` microseconds (in `word` arithmetic) have passed
since the last time. -/
def taskStep1 (w : Surroundings) (e : TaskEnv) (s : SimpleKnx_) : SimpleKnx_ :=
  let nowTimeMicros := toWord e.micros1
  if TimeDeltaWord nowTimeMicros s.lastRXTimeMicros > KNX_RXTASK_INTERVAL then
    let s := { s with lastRXTimeMicros := nowTimeMicros }
    let s := rxTaskCall w s e.rxTask
    rxTaskLoop w e.rxTaskMore s
  else s

/-- STEP 2 of a pass of the loop of `task()`: when the driver is free to send, the oldest
queued telegram, if any, is popped into `_txTelegram` and handed to `sendTelegram`. -/
def taskStep2 (s : SimpleKnx_) : SimpleKnx_ :=
  if s.tpuart.isFreeToSend then
    match s.txActionList.pop with
    | (some t, q) =>
      let sent := s.tpuart.sendTelegram t
      { s with txActionList := q, txTelegram := sent.2.1, tpuart := sent.2.2 }
    | (none, _) => s
  else s

/-- STEP 3 of a pass of the loop of `task()`: `txTask()` is called when more than
`KNX_TXTASK_INTERVAL` microseconds (in `word` arithmetic) have passed since the last
time. -/
def taskStep3 (e : TaskEnv) (s : SimpleKnx_) : SimpleKnx_ :=
  let nowTimeMicros := toWord e.micros2
  if TimeDeltaWord nowTimeMicros s.lastTXTimeMicros > KNX_TXTASK_INTERVAL then
    let s := { s with lastTXTimeMicros := nowTimeMicros }
    { s with tpuart := s.tpuart.txTask e.millis }
  else s

/-- One pass of the `do { ... } while` loop of `task()`. -/
def taskPass (w : Surroundings) (e : TaskEnv) (s : SimpleKnx_) : SimpleKnx_ :=
  taskStep3 e (taskStep2 (taskStep1 w e s))

end SimpleKnx_

/-! ## Specification-side definitions for the DPT codecs and the scenarios -/

/-- Specification side: the value of a 12-bit two-complement pattern. -/
def KnxTelegram.signed12 (bits : Nat) : Int :=
  if bits < 2048 then (bits : Int) else (bits : Int) - 4096

/-- Specification side: the 12-bit mantissa pattern of the payload bytes `b0`, `b1` of a
2-byte float: its sign bit is bit 7 of `b0`, its low 11 bits are `((b0 & 0x07) << 8) | b1`. -/
def KnxTelegram.mantissaBits (b0 b1 : Nat) : Nat :=
  ((b0 >>> 7) <<< 11) ||| ((b0 &&& 0x07) <<< 8) ||| b1

/-- A fresh telegram on which `setPayload` was called with the two bytes `0C 65`. -/
def KnxTelegram.telegram0C65 : KnxTelegram :=
  KnxTelegram.setPayload (KnxTelegram.new ⟨fun _ => 0⟩) (TxTelegram.arrayOf [0x0C, 0x65]) 2

/-- Specification side: what the specification requires of the telegram a `groupWrite*`
operation hands to the outbound queue. -/
def isGroupWriteTelegram (t : KnxTelegram) (answer : Bool) (groupAddress : Nat)
    (payloadLength : Nat) : Prop :=
  t.getTargetAddress = groupAddress
  ∧ t.isMulticast = true
  ∧ t.getCommand = (if answer then KnxCommand.KNX_COMMAND_VALUE_RESPONSE.val
      else KnxCommand.KNX_COMMAND_VALUE_WRITE.val)
  ∧ t.getPayloadLength = payloadLength

/-- Specification side: the driver after the first `n` bytes `bytes 0 .. bytes (n-1)` have
been fed one per `rxTask()` call; call `i` reads the clock values `micros1 i` and
`micros2 i`. -/
def KnxTpUart.rxFeed (d : KnxTpUart) (bytes micros1 micros2 : Nat → Nat) : Nat → KnxTpUart
  | 0 => d
  | n + 1 =>
    ((KnxTpUart.rxFeed d bytes micros1 micros2 n).receive (bytes n)).rxTask
      (micros1 n) (micros2 n)

/-- Specification side: no end-of-packet timeout within the first `n` calls of a feed:
every call after the first starts at most `KNX_RX_TIMEOUT` microseconds (in 32-bit
arithmetic) after the previous byte was read. -/
def noEopTimeout (micros1 micros2 : Nat → Nat) (n : Nat) : Prop :=
  ∀ i, i + 1 < n → TimeDeltaUnsignedLong (micros1 (i + 1)) (micros2 i) ≤ KNX_RX_TIMEOUT

/-- Specification side: the address `addr` occurs among the first `_groupAddressListSize`
entries of the group address table. -/
def KnxTpUart.subscribed (d : KnxTpUart) (addr : Nat) : Prop :=
  ∃ i, i < d.groupAddressListSize ∧ d.groupAddressList.getD i 0 = addr

/-- Proof side: what is known of the driver `d` while the bytes `f 0, f 1, ...` of a frame
are fed to the driver `d0`: the reception state, the number of bytes read, how many
leading bytes of the telegram under assembly hold the frame, the bytes written since,
and the time the last byte was read. -/
structure KnxTpUart.RxInv (d0 : KnxTpUart) (f : Nat → Nat) (st : TpUartRxState)
    (n stored : Nat) (acks : List Nat) (last : Nat) (d : KnxTpUart) : Prop where
  state : d.rx.state = st
  readBytes : d.rx.readBytes = n
  rxBuffer : d.serial.rxBuffer = []
  written : d.serial.written = d0.serial.written ++ acks
  events : d.events = d0.events
  receivedTelegram : d.rx.receivedTelegram = d0.rx.receivedTelegram
  tx : d.tx = d0.tx
  physicalAddr : d.physicalAddr = d0.physicalAddr
  groupAddressList : d.groupAddressList = d0.groupAddressList
  groupAddressListSize : d.groupAddressListSize = d0.groupAddressListSize
  telegram : ∀ i, i < stored → d.statics.telegram.getRawByte i = f i
  expected : 6 ≤ n → d.statics.expectedTelegramLength = (f 5 &&& 0x0F) + 7
  lastByte : d.statics.lastByteRxTimeMicrosec % 4294967296 = last % 4294967296

/-- The driver of scenario S1: physical address `0x110C`, subscribed to `0x1701`. -/
def driverS1 : KnxTpUart :=
  KnxTpUart.new ⟨[], []⟩ 0x110C [0x1701] 1 false ⟨fun _ => 0⟩ Statics.initial

/-- Specification side: the telegram buffer that holds the given bytes, and zero beyond
them. -/
def KnxTelegram.ofBytes (bytes : List Nat) : KnxTelegram :=
  ⟨fun i => toByte (bytes.getD i.val 0)⟩

/-- The driver of scenario S4: the one of S1 (physical address `0x110C`, subscribed to
`0x1701`) once `reset()` has left both state machines in their init state and `init()` has
been called. -/
def driverS4 : KnxTpUart :=
  (KnxTpUart.init { driverS1 with
    rx := { driverS1.rx with state := .RX_INIT }
    tx := { driverS1.tx with state := .TX_INIT } }).2

/-- The frame of scenario S4 as the specification gives it. -/
def frameS4 : KnxTelegram :=
  KnxTelegram.ofBytes [0xBC, 0x00, 0x01, 0x17, 0x01, 0xE1, 0x00, 0x81, 0xCC]

/-- The frame of scenario S4 with the checksum byte of its first eight bytes, `0x34`. -/
def frameS4Checked : KnxTelegram :=
  KnxTelegram.ofBytes [0xBC, 0x00, 0x01, 0x17, 0x01, 0xE1, 0x00, 0x81, 0x34]

/-- The frame of scenario S5: that of S4 with the last byte `0xCD`. -/
def frameS5 : KnxTelegram :=
  KnxTelegram.ofBytes [0xBC, 0x00, 0x01, 0x17, 0x01, 0xE1, 0x00, 0x81, 0xCD]

/-- The frame of scenario S4 sent to the group `0x1702`, with its checksum byte. -/
def frameS4Other : KnxTelegram :=
  KnxTelegram.ofBytes [0xBC, 0x00, 0x01, 0x17, 0x02, 0xE1, 0x00, 0x81, 0x37]

/-- A frame for the group `0x1701` with two payload bytes and a checksum byte that is not
the correct one (`0x8A`); its payload byte `0xBC` has the pattern of a control field. -/
def frameS5Restart : KnxTelegram :=
  KnxTelegram.ofBytes [0xBC, 0x00, 0x01, 0x17, 0x01, 0xE2, 0x00, 0x80, 0xBC, 0x00]

/-- Specification side: the device after the first `n` bytes `bytes 0 .. bytes (n-1)` have
arrived one before each `rxTask()` call of `task()`; call `i` reads the clock values
`micros1 i` and `micros2 i`. -/
def SimpleKnx_.rxFeed (w : Surroundings) (s : SimpleKnx_) (bytes micros1 micros2 : Nat → Nat) :
    Nat → SimpleKnx_
  | 0 => s
  | n + 1 =>
    SimpleKnx_.rxTaskCall w (SimpleKnx_.rxFeed w s bytes micros1 micros2 n)
      ⟨[bytes n], micros1 n, micros2 n⟩

/-- Surroundings for the scenarios: a bus coupler that answers the first reset request
(`reset()` then leaves both state machines in their init state, having written the request
and read the indication), and a host function that sends nothing. -/
def surroundingsS4 : Surroundings :=
  { resetUntilOk := fun d =>
      { d with
        serial := { rxBuffer := [], written := d.serial.written ++ [TPUART_RESET_REQ] }
        rx := { d.rx with state := .RX_INIT }
        tx := { d.tx with state := .TX_INIT } }
    telegramEventCallback := fun _ q => q }

/-- The device of scenario S4 after `begin`: own address `0x110C`, subscribed to `0x1701`,
nothing queued. -/
def deviceS4 : SimpleKnx_ :=
  { deviceAddress := 0x110C
    lastRXTimeMicros := 0
    lastTXTimeMicros := 0
    tpuart := driverS4
    txTelegram := KnxTelegram.new ⟨fun _ => 0⟩
    txActionList := ⟨[]⟩
    hostCalls := [] }

/-- Specification side: the bytes `txTask()` writes to the UART for the telegram `t`: for
every byte index `i` below the telegram length the pair `(DataStartContinueReq | i, t[i])`,
and for the last one the pair `(DataEndReq | i, t[i])` instead. -/
def uartFrame (t : KnxTelegram) : List Nat :=
  (List.range t.getTelegramLength).flatMap (fun i =>
    [(if i + 1 = t.getTelegramLength then TPUART_DATA_END_REQ
        else TPUART_DATA_START_CONTINUE_REQ) ||| i,
      t.getRawByte i])

/-- Specification side: the drivers that can be reached from a successful `init()`, called
on a driver whose `readBytes` is 0 as the constructor leaves it, by `rxTask()` calls with
any bytes arriving before each call and any clock values, and by the `reset()` loop
followed by `init()` that the callback of the orchestrator runs on a reset event. -/
inductive KnxTpUart.RxReachable : KnxTpUart → Prop where
  | init (d : KnxTpUart) : d.rx.readBytes = 0 → d.init.1 = KNX_TPUART_OK →
      KnxTpUart.RxReachable d.init.2
  | rxTask (d : KnxTpUart) (arrived : List Nat) (micros1 micros2 : Nat) :
      KnxTpUart.RxReachable d →
      KnxTpUart.RxReachable ((arrived.foldl KnxTpUart.receive d).rxTask micros1 micros2)
  | callback (d d1 : KnxTpUart) (inputs : List (List KnxTpUart.ResetAttempt)) :
      KnxTpUart.RxReachable d → KnxTpUart.resetLoop inputs d = some d1 →
      KnxTpUart.RxReachable d1.init.2

/-- Proof side: what holds of the reception part in every reachable state. -/
structure KnxTpUart.RxBounds (d : KnxTpUart) : Prop where
  readBytes : d.rx.readBytes ≤ 22
  notInvalid : d.rx.state ≠ .RX_KNX_TELEGRAM_RECEPTION_LENGTH_INVALID
  started : d.rx.state = .RX_KNX_TELEGRAM_RECEPTION_STARTED → d.rx.readBytes ≤ 5
  expected : d.rx.state = .RX_KNX_TELEGRAM_RECEPTION_ADDRESSED
      ∨ d.rx.state = .RX_KNX_TELEGRAM_RECEPTION_NOT_ADDRESSED →
    d.rx.readBytes ≤ d.statics.expectedTelegramLength
    ∧ d.statics.expectedTelegramLength ≤ 22

/-- Specification side: a byte that `rxTask()` reads in the idle state without starting a
reception and without seeing a reset indication: it is neither a KNX control field
(`(b & 0xD3) = 0x90`) nor `0x03`. -/
def quietByte (b : Nat) : Prop :=
  ((toByte b).val &&& KNX_CONTROL_FIELD_PATTERN_MASK) ≠ KNX_CONTROL_FIELD_VALID_PATTERN
  ∧ (toByte b).val ≠ TPUART_RESET_INDICATION

instance quietByte.decidable (b : Nat) : Decidable (quietByte b) :=
  inferInstanceAs (Decidable
    (((toByte b).val &&& KNX_CONTROL_FIELD_PATTERN_MASK) ≠ KNX_CONTROL_FIELD_VALID_PATTERN
      ∧ (toByte b).val ≠ TPUART_RESET_INDICATION))

set_option maxRecDepth 100000

namespace KnxTelegram

/-! ## Raw byte access -/

theorem getRawByte_lt (t : KnxTelegram) (i : Nat) : t.getRawByte i < 256 := by
  unfold getRawByte
  split
  · exact Fin.isLt _
  · decide

theorem getRawByte_setRawByte_same (t : KnxTelegram) (v : Nat) {i : Nat} (h : i < 23) :
    (t.setRawByte v i).getRawByte i = v % 256 := by
  simp [getRawByte, setRawByte, h, toByte]

theorem getRawByte_setRawByte_ne (t : KnxTelegram) (v : Nat) {i j : Nat} (h : i ≠ j) :
    (t.setRawByte v i).getRawByte j = t.getRawByte j := by
  unfold getRawByte setRawByte
  by_cases hi : i < 23 <;> by_cases hj : j < 23 <;> simp [hi, hj]
  rw [Function.update_noteq]
  intro hEq
  exact h (Fin.mk.inj hEq).symm

theorem getRawByte_setRawByte (t : KnxTelegram) (v : Nat) (i j : Nat) (h : i < 23) :
    (t.setRawByte v i).getRawByte j = if j = i then v % 256 else t.getRawByte j := by
  by_cases hji : j = i
  · subst hji; simp [getRawByte_setRawByte_same t v h]
  · simp [hji, getRawByte_setRawByte_ne t v (Ne.symm hji)]

theorem ext_getRawByte {s t : KnxTelegram} (h : ∀ i, i < 23 → s.getRawByte i = t.getRawByte i) :
    s = t := by
  cases s with
  | mk f =>
    cases t with
    | mk g =>
      congr
      funext i
      have := h i.val i.isLt
      simp [getRawByte] at this
      exact Fin.ext this

/-! ## Checksum -/

theorem getPayloadLength_eq (t : KnxTelegram) : t.getPayloadLength = t.getRawByte 5 &&& 15 := by
  have h : ∀ b < 256, (b &&& 15) % 256 = b &&& 15 := by decide
  simp [getPayloadLength, routing, toByte, ROUTING_FIELD_PAYLOAD_LENGTH_MASK,
    h _ (getRawByte_lt t 5)]

theorem getPayloadLength_lt (t : KnxTelegram) : t.getPayloadLength < 16 := by
  have h : ∀ b < 256, (b &&& 15) < 16 := by decide
  rw [getPayloadLength_eq]
  exact h _ (getRawByte_lt t 5)

theorem indexChecksum_eq (t : KnxTelegram) :
    (toByte (KNX_TELEGRAM_HEADER_SIZE + t.getPayloadLength + 1)).val = 7 + t.getPayloadLength := by
  have := getPayloadLength_lt t
  simp only [toByte, KNX_TELEGRAM_HEADER_SIZE]
  omega

theorem getPayloadLength_congr {s t : KnxTelegram} (h : s.getRawByte 5 = t.getRawByte 5) :
    s.getPayloadLength = t.getPayloadLength := by
  rw [getPayloadLength_eq, getPayloadLength_eq, h]

theorem xorSumAfter_lt (t : KnxTelegram) (n : Nat) : xorSumAfter t n < 256 := by
  cases n with
  | zero => simp [xorSumAfter]
  | succ n => exact Fin.isLt _

theorem xorSumAfter_succ (t : KnxTelegram) (n : Nat) :
    xorSumAfter t (n + 1) = xorSumAfter t n ^^^ t.getRawByte n := by
  have h := Nat.xor_lt_two_pow (n := 8) (xorSumAfter_lt t n) (getRawByte_lt t n)
  simp only [xorSumAfter, toByte]
  exact Nat.mod_eq_of_lt h

theorem xorSumAfter_congr {s t : KnxTelegram} (n : Nat)
    (h : ∀ i, i < n → s.getRawByte i = t.getRawByte i) : xorSumAfter s n = xorSumAfter t n := by
  induction n with
  | zero => rfl
  | succ n ih =>
    rw [xorSumAfter_succ, xorSumAfter_succ, ih (fun i hi => h i (Nat.lt_succ_of_lt hi)),
      h n (Nat.lt_succ_self n)]

theorem xorSumAfter_eq_xorOfBytes (t : KnxTelegram) (n : Nat) :
    xorSumAfter t n = xorOfBytes t n := by
  induction n with
  | zero => rfl
  | succ n ih =>
    rw [xorSumAfter_succ, ih]
    simp [xorOfBytes, List.range_succ]

theorem calculateChecksum_eq (t : KnxTelegram) :
    t.calculateChecksum = 255 ^^^ xorSumAfter t (7 + t.getPayloadLength) := by
  have h : ∀ x < 256, (0xFFFF ^^^ (x % 65536)) % 256 = 255 ^^^ x := by decide
  unfold calculateChecksum
  rw [indexChecksum_eq]
  simp only [toByte, bitNot]
  exact h _ (xorSumAfter_lt t _)

theorem calculateChecksum_lt (t : KnxTelegram) : t.calculateChecksum < 256 := Fin.isLt _

theorem calculateChecksum_congr {s t : KnxTelegram}
    (h5 : s.getRawByte 5 = t.getRawByte 5)
    (h : ∀ i, i < 7 + t.getPayloadLength → s.getRawByte i = t.getRawByte i) :
    s.calculateChecksum = t.calculateChecksum := by
  rw [calculateChecksum_eq, calculateChecksum_eq, getPayloadLength_congr h5,
    xorSumAfter_congr _ h]

theorem getChecksum_eq (t : KnxTelegram) :
    t.getChecksum = t.getRawByte (7 + t.getPayloadLength) := by
  have h : (8 + ((t.getPayloadLength : Int) - 1)).toNat = 7 + t.getPayloadLength := by omega
  simp only [getChecksum, payloadChecksum, h]

theorem updateChecksum_eq (t : KnxTelegram) :
    t.updateChecksum = t.setRawByte t.calculateChecksum (7 + t.getPayloadLength) := by
  unfold updateChecksum
  rw [indexChecksum_eq]

theorem getRawByte_updateChecksum (t : KnxTelegram) (j : Nat) :
    t.updateChecksum.getRawByte j
      = if j = 7 + t.getPayloadLength then t.calculateChecksum else t.getRawByte j := by
  have hL := getPayloadLength_lt t
  rw [updateChecksum_eq, getRawByte_setRawByte _ _ _ _ (by omega),
    Nat.mod_eq_of_lt (calculateChecksum_lt t)]

theorem getPayloadLength_updateChecksum (t : KnxTelegram) :
    t.updateChecksum.getPayloadLength = t.getPayloadLength := by
  apply getPayloadLength_congr
  rw [getRawByte_updateChecksum, if_neg (by omega)]

theorem calculateChecksum_updateChecksum (t : KnxTelegram) :
    t.updateChecksum.calculateChecksum = t.calculateChecksum := by
  apply calculateChecksum_congr
  · rw [getRawByte_updateChecksum, if_neg (by omega)]
  · intro i hi
    rw [getRawByte_updateChecksum, if_neg (by omega)]

/-- Claim C1: for every telegram buffer (any 23 bytes, hence any payload-length nibble
0..15), `isChecksumCorrect()` returns true right after `updateChecksum()`. -/
theorem C1_isChecksumCorrect_updateChecksum (t : KnxTelegram) :
    t.updateChecksum.isChecksumCorrect = true := by
  simp only [isChecksumCorrect, beq_iff_eq]
  rw [getChecksum_eq, getPayloadLength_updateChecksum, calculateChecksum_updateChecksum,
    getRawByte_updateChecksum, if_pos rfl]

/-- Claim C3: for a telegram with payload length `len`, `calculateChecksum()` returns the
8-bit complement (`255 ^^^ x`, which is `255 - x`) of the XOR `x` of the bytes at index
`0 .. 6+len`; `updateChecksum()` stores that value at index `7+len` and leaves every other
byte of the buffer as it was. -/
theorem C3_calculateChecksum_updateChecksum (t : KnxTelegram) :
    t.calculateChecksum = 255 ^^^ xorOfBytes t (7 + t.getPayloadLength)
    ∧ t.calculateChecksum = 255 - xorOfBytes t (7 + t.getPayloadLength)
    ∧ ∀ i, t.updateChecksum.getRawByte i
        = if i = 7 + t.getPayloadLength then t.calculateChecksum else t.getRawByte i := by
  have h : ∀ x < 256, 255 ^^^ x = 255 - x := by decide
  have hx := xorSumAfter_lt t (7 + t.getPayloadLength)
  refine ⟨?_, ?_, getRawByte_updateChecksum t⟩
  · rw [calculateChecksum_eq, xorSumAfter_eq_xorOfBytes]
  · rw [calculateChecksum_eq, h _ hx, xorSumAfter_eq_xorOfBytes]

/-- Claim C2 fails as stated: on the telegram `telegramA2` (payload length 3, payload
`A2 00`) with an updated checksum, inverting bit 1 of the routing byte (index 5, which is
within `0 .. 7+len`) turns the payload length into 1, and the telegram read at that length
still has a correct checksum. -/
theorem C2_counterexample :
    5 ≤ 7 + (updateChecksum telegramA2).getPayloadLength ∧ 1 < 8
    ∧ (flipBit (updateChecksum telegramA2) 5 1).isChecksumCorrect = true := by
  decide

theorem getRawByte_flipBit (t : KnxTelegram) (i k j : Nat) (hi : i < 23) (hk : k < 8) :
    (flipBit t i k).getRawByte j
      = if j = i then t.getRawByte i ^^^ (1 <<< k) else t.getRawByte j := by
  have h : ∀ b < 256, ∀ k < 8, (b ^^^ (1 <<< k)) % 256 = b ^^^ (1 <<< k) := by decide
  unfold flipBit
  rw [getRawByte_setRawByte _ _ _ _ hi, h _ (getRawByte_lt t i) k hk]

theorem xorSumAfter_of_xor_at {s u : KnxTelegram} (i m : Nat)
    (h : ∀ j, s.getRawByte j = if j = i then u.getRawByte i ^^^ m else u.getRawByte j)
    (n : Nat) :
    xorSumAfter s n = if i < n then xorSumAfter u n ^^^ m else xorSumAfter u n := by
  induction n with
  | zero => simp [xorSumAfter]
  | succ n ih =>
    rw [xorSumAfter_succ, xorSumAfter_succ, ih, h n]
    rcases Nat.lt_trichotomy i n with hlt | heq | hgt
    · rw [if_pos hlt, if_neg (by omega), if_pos (by omega)]
      simp only [Nat.xor_assoc, Nat.xor_comm m]
    · subst heq
      rw [if_neg (by omega), if_pos rfl, if_pos (by omega), Nat.xor_assoc]
    · rw [if_neg (by omega), if_neg (by omega), if_neg (by omega)]

/-- Claim C2, amended: on a telegram on which `updateChecksum()` has just been called,
with payload length `len`, inverting any single bit of a byte at index `0 .. 7+len`, other
than one of the four payload-length bits (bits 0..3 of the routing byte at index 5), makes
`isChecksumCorrect()` return false. -/
theorem C2_single_bit_flip_detected (t : KnxTelegram) (i k : Nat)
    (hi : i ≤ 7 + t.updateChecksum.getPayloadLength) (hk : k < 8)
    (hlen : ¬ (i = 5 ∧ k < 4)) :
    (flipBit t.updateChecksum i k).isChecksumCorrect = false := by
  have hL := getPayloadLength_lt t
  rw [getPayloadLength_updateChecksum] at hi
  have hi23 : i < 23 := by omega
  have hget := fun j => getRawByte_flipBit t.updateChecksum i k j hi23 hk
  have hmask : ∀ b < 256, ∀ k < 8, 4 ≤ k → (b ^^^ (1 <<< k)) &&& 15 = b &&& 15 := by decide
  have hne : ∀ b < 256, ∀ k < 8, b ^^^ (1 <<< k) ≠ b := by decide
  have hne2 : ∀ x < 256, ∀ k < 8, 255 ^^^ (x ^^^ (1 <<< k)) ≠ 255 ^^^ x := by decide
  have hlenEq : (flipBit t.updateChecksum i k).getPayloadLength = t.getPayloadLength := by
    rw [← getPayloadLength_updateChecksum t, getPayloadLength_eq, getPayloadLength_eq, hget 5]
    by_cases h5 : 5 = i
    · subst h5
      rw [if_pos rfl]
      exact hmask _ (getRawByte_lt _ 5) k hk (by omega)
    · rw [if_neg h5]
  have hstored : t.updateChecksum.getRawByte (7 + t.getPayloadLength) = t.calculateChecksum := by
    rw [getRawByte_updateChecksum, if_pos rfl]
  have hcu : 255 ^^^ xorSumAfter t.updateChecksum (7 + t.getPayloadLength)
      = t.calculateChecksum := by
    rw [← calculateChecksum_updateChecksum, calculateChecksum_eq,
      getPayloadLength_updateChecksum]
  simp only [isChecksumCorrect, beq_eq_false_iff_ne, ne_eq]
  rw [getChecksum_eq, hlenEq, calculateChecksum_eq, hlenEq,
    xorSumAfter_of_xor_at i (1 <<< k) hget, hget]
  rcases Nat.lt_or_ge i (7 + t.getPayloadLength) with hlt | hge
  · rw [if_neg (by omega), if_pos hlt, hstored, ← hcu]
    exact fun hEq => hne2 _ (xorSumAfter_lt _ _) k hk hEq.symm
  · have hEq : i = 7 + t.getPayloadLength := by omega
    rw [if_pos hEq.symm, if_neg (by omega), hEq, hstored, hcu]
    exact hne _ (calculateChecksum_lt t) k hk

/-- Witness of the amended claim C2: bit 0 of the control byte of `telegramA2`. -/
theorem C2_single_bit_flip_detected_witness :
    0 ≤ 7 + (updateChecksum telegramA2).getPayloadLength ∧ 0 < 8 ∧ ¬ (0 = 5 ∧ 0 < 4)
    ∧ (flipBit (updateChecksum telegramA2) 0 0).isChecksumCorrect = false :=
  ⟨by decide, by decide, by decide,
    C2_single_bit_flip_detected telegramA2 0 0 (by decide) (by decide) (by decide)⟩

/-! ## Header setters: their effect on the raw bytes -/

theorem getRawByte_setPriority (t : KnxTelegram) (p : KnxPriority) (j : Nat) :
    (t.setPriority p).getRawByte j
      = if j = 0 then
          (((t.getRawByte 0 &&& bitNot CONTROL_FIELD_PRIORITY_MASK) % 256)
            ||| (p.val &&& CONTROL_FIELD_PRIORITY_MASK)) % 256
        else t.getRawByte j := by
  simp only [setPriority, controlField, getRawByte_setRawByte _ _ _ _ (by decide : 0 < 23)]
  split <;> simp

theorem getRawByte_setRepeated (t : KnxTelegram) (j : Nat) :
    t.setRepeated.getRawByte j
      = if j = 0 then (t.getRawByte 0 &&& 0b11011111) % 256 else t.getRawByte j := by
  simp only [setRepeated, controlField, getRawByte_setRawByte _ _ _ _ (by decide : 0 < 23)]

theorem getRawByte_setSourceAddress (t : KnxTelegram) (addr j : Nat) :
    (t.setSourceAddress addr).getRawByte j
      = if j = 1 then (toWord addr >>> 8) % 256
        else if j = 2 then toWord addr % 256 else t.getRawByte j := by
  simp only [setSourceAddress, getRawByte_setRawByte _ _ _ _ (by decide : 1 < 23),
    getRawByte_setRawByte _ _ _ _ (by decide : 2 < 23)]

theorem getRawByte_setTargetAddress (t : KnxTelegram) (addr j : Nat) :
    (t.setTargetAddress addr).getRawByte j
      = if j = 3 then (toWord addr >>> 8) % 256
        else if j = 4 then toWord addr % 256 else t.getRawByte j := by
  simp only [setTargetAddress, getRawByte_setRawByte _ _ _ _ (by decide : 3 < 23),
    getRawByte_setRawByte _ _ _ _ (by decide : 4 < 23)]

theorem getRawByte_setMulticast (t : KnxTelegram) (mode : Bool) (j : Nat) :
    (t.setMulticast mode).getRawByte j
      = if j = 5 then
          (if mode then (t.getRawByte 5 ||| ROUTING_FIELD_TARGET_ADDRESS_TYPE_MASK) % 256
            else (t.getRawByte 5 &&& bitNot ROUTING_FIELD_TARGET_ADDRESS_TYPE_MASK) % 256)
        else t.getRawByte j := by
  cases mode
  · simp only [setMulticast, routing, Bool.false_eq_true, if_false]
    exact getRawByte_setRawByte _ _ _ _ (by decide)
  · simp only [setMulticast, routing, if_true]
    exact getRawByte_setRawByte _ _ _ _ (by decide)

theorem getRawByte_setRoutingCounter (t : KnxTelegram) (counter : Byte) (j : Nat) :
    (t.setRoutingCounter counter).getRawByte j
      = if j = 5 then
          (((t.getRawByte 5 &&& bitNot ROUTING_FIELD_COUNTER_MASK) % 256)
            ||| (((counter.val <<< 4) % 256) &&& ROUTING_FIELD_COUNTER_MASK)) % 256
        else t.getRawByte j := by
  simp only [setRoutingCounter, routing, toByte,
    getRawByte_setRawByte _ _ _ _ (by decide : 5 < 23)]
  split <;> simp

theorem getRawByte_setPayloadLength (t : KnxTelegram) (length : Byte) (j : Nat) :
    (t.setPayloadLength length).getRawByte j
      = if j = 5 then
          (((t.getRawByte 5 &&& bitNot ROUTING_FIELD_PAYLOAD_LENGTH_MASK) % 256)
            ||| (length.val &&& ROUTING_FIELD_PAYLOAD_LENGTH_MASK)) % 256
        else t.getRawByte j := by
  simp only [setPayloadLength, routing, getRawByte_setRawByte _ _ _ _ (by decide : 5 < 23)]
  split <;> simp

theorem getRawByte_setCommand (t : KnxTelegram) (cmd : KnxCommand) (j : Nat) :
    (t.setCommand cmd).getRawByte j
      = if j = 6 then
          (((t.getRawByte 6 &&& bitNot COMMAND_FIELD_HIGH_COMMAND_MASK) % 256)
            ||| (cmd.val >>> 2)) % 256
        else if j = 7 then
          (((t.getRawByte 7 &&& bitNot COMMAND_FIELD_LOW_COMMAND_MASK) % 256)
            ||| (cmd.val <<< 6)) % 256
        else t.getRawByte j := by
  simp only [setCommand, commandH, commandL,
    getRawByte_setRawByte _ _ _ _ (by decide : 6 < 23),
    getRawByte_setRawByte _ _ _ _ (by decide : 7 < 23)]
  by_cases h6 : j = 6
  · subst h6; simp
  · by_cases h7 : j = 7
    · subst h7; simp
    · simp [h6, h7]

/-- Claim C5: on every telegram each header getter returns what its setter just stored:
the priority (each of the four `KnxPriority` values), the 16-bit source and target
addresses (high byte at index 1 resp. 3, low byte at index 2 resp. 4), the multicast
flag, the routing counter (0..7), the payload length (0..15) and the command (each of the
four `KnxCommand` values). -/
theorem C5_getter_after_setter (t : KnxTelegram) (priority : KnxPriority) (addr : Nat)
    (mode : Bool) (counter length : Byte) (cmd : KnxCommand)
    (haddr : addr < 65536) (hcounter : counter.val < 8) (hlength : length.val < 16) :
    (t.setPriority priority).getPriority = priority.val
    ∧ (t.setSourceAddress addr).getSourceAddress = addr
    ∧ (t.setSourceAddress addr).getRawByte 1 = addr / 256
    ∧ (t.setSourceAddress addr).getRawByte 2 = addr % 256
    ∧ (t.setTargetAddress addr).getTargetAddress = addr
    ∧ (t.setTargetAddress addr).getRawByte 3 = addr / 256
    ∧ (t.setTargetAddress addr).getRawByte 4 = addr % 256
    ∧ (t.setMulticast mode).isMulticast = mode
    ∧ (t.setRoutingCounter counter).getRoutingCounter = counter.val
    ∧ (t.setPayloadLength length).getPayloadLength = length.val
    ∧ (t.setCommand cmd).getCommand = cmd.val := by
  have hPrio : ∀ b < 256, ∀ p < 16,
      ((((b &&& bitNot 0b00001100) % 256) ||| (p &&& 0b00001100)) % 256) &&& 0b00001100
        = p &&& 0b00001100 := by decide
  have hMulti : ∀ b < 256,
      (((b ||| 0b10000000) % 256) &&& 0b10000000 != 0) = true
      ∧ (((b &&& bitNot 0b10000000) % 256) &&& 0b10000000 != 0) = false := by decide
  have hCount : ∀ b < 256, ∀ c < 8,
      ((((((b &&& bitNot 0b01110000) % 256) ||| (((c <<< 4) % 256) &&& 0b01110000)) % 256)
        &&& 0b01110000) >>> 4) % 256 = c := by decide
  have hLen : ∀ b < 256, ∀ l < 16,
      (((((b &&& bitNot 0b00001111) % 256) ||| (l &&& 0b00001111)) % 256)
        &&& 0b00001111) % 256 = l := by decide
  have hCmdL : ∀ l < 256, ∀ c < 16,
      ((((l &&& bitNot 0xC0) % 256) ||| (c <<< 6)) % 256 &&& 0xC0) >>> 6 = c % 4 := by decide
  have hCmdH : ∀ h < 256, ∀ c < 16,
      (((((h &&& bitNot 0x03) % 256) ||| (c >>> 2)) % 256) &&& 0x03) <<< 2
        = c / 4 * 4 := by decide
  have hpv : priority.val < 16 ∧ priority.val &&& 0b00001100 = priority.val := by
    cases priority <;> decide
  have hcv : cmd.val < 16 := by cases cmd <;> decide
  have hw : toWord addr = addr := Nat.mod_eq_of_lt haddr
  have hH : (addr >>> 8) % 256 = addr / 256 := by
    rw [Nat.shiftRight_eq_div_pow]; omega
  have hJoin : toWord (addr % 256 + (addr / 256) <<< 8) = addr := by
    rw [Nat.shiftLeft_eq]; unfold toWord; omega
  refine ⟨?_, ?_, ?_, ?_, ?_, ?_, ?_, ?_, ?_, ?_, ?_⟩
  · simp only [getPriority, controlField, getRawByte_setPriority, if_pos,
      CONTROL_FIELD_PRIORITY_MASK]
    rw [hPrio _ (getRawByte_lt t 0) _ hpv.1]
    exact hpv.2
  · simp only [getSourceAddress, sourceAddrL, sourceAddrH, getRawByte_setSourceAddress, hw, hH]
    simpa using hJoin
  · simp only [getRawByte_setSourceAddress, hw, hH, if_pos]
  · simp only [getRawByte_setSourceAddress, hw]
    simp
  · simp only [getTargetAddress, targetAddrL, targetAddrH, getRawByte_setTargetAddress, hw, hH]
    simpa using hJoin
  · simp only [getRawByte_setTargetAddress, hw, hH, if_pos]
  · simp only [getRawByte_setTargetAddress, hw]
    simp
  · simp only [isMulticast, routing, getRawByte_setMulticast, if_pos,
      ROUTING_FIELD_TARGET_ADDRESS_TYPE_MASK]
    cases mode
    · exact (hMulti _ (getRawByte_lt t 5)).2
    · exact (hMulti _ (getRawByte_lt t 5)).1
  · simp only [getRoutingCounter, routing, toByte, getRawByte_setRoutingCounter, if_pos,
      ROUTING_FIELD_COUNTER_MASK]
    exact hCount _ (getRawByte_lt t 5) _ hcounter
  · simp only [getPayloadLength, routing, toByte, getRawByte_setPayloadLength, if_pos,
      ROUTING_FIELD_PAYLOAD_LENGTH_MASK]
    exact hLen _ (getRawByte_lt t 5) _ hlength
  · simp only [getCommand, commandL, commandH, getRawByte_setCommand,
      COMMAND_FIELD_LOW_COMMAND_MASK, COMMAND_FIELD_HIGH_COMMAND_MASK]
    simp only [if_pos, (by decide : ¬ (7 = 6)), if_false]
    rw [hCmdL _ (getRawByte_lt t 7) _ hcv, hCmdH _ (getRawByte_lt t 6) _ hcv]
    omega

/-- Witness of claim C5: alarm priority, address `0x110C`, unicast, routing counter 3,
payload length 15 and `MemoryWrite`, set on `telegramA2`. -/
theorem C5_getter_after_setter_witness :
    (telegramA2.setPriority .KNX_PRIORITY_ALARM_VALUE).getPriority
        = KnxPriority.KNX_PRIORITY_ALARM_VALUE.val
    ∧ (telegramA2.setSourceAddress 0x110C).getSourceAddress = 0x110C
    ∧ (telegramA2.setSourceAddress 0x110C).getRawByte 1 = 0x110C / 256
    ∧ (telegramA2.setSourceAddress 0x110C).getRawByte 2 = 0x110C % 256
    ∧ (telegramA2.setTargetAddress 0x110C).getTargetAddress = 0x110C
    ∧ (telegramA2.setTargetAddress 0x110C).getRawByte 3 = 0x110C / 256
    ∧ (telegramA2.setTargetAddress 0x110C).getRawByte 4 = 0x110C % 256
    ∧ (telegramA2.setMulticast false).isMulticast = false
    ∧ (telegramA2.setRoutingCounter 3).getRoutingCounter = (3 : Byte).val
    ∧ (telegramA2.setPayloadLength 15).getPayloadLength = (15 : Byte).val
    ∧ (telegramA2.setCommand .KNX_COMMAND_MEMORY_WRITE).getCommand
        = KnxCommand.KNX_COMMAND_MEMORY_WRITE.val :=
  C5_getter_after_setter telegramA2 .KNX_PRIORITY_ALARM_VALUE 0x110C false 3 15
    .KNX_COMMAND_MEMORY_WRITE (by decide) (by decide) (by decide)

/-- Claim C6: every header setter changes only bits of its own field mask. For each
setter, every byte other than the one or two it writes keeps its value, and in a byte it
writes the bits outside the field mask keep their value (the address setters own their
two bytes entirely). -/
theorem C6_setters_change_only_their_field (t : KnxTelegram) (priority : KnxPriority)
    (addr : Nat) (mode : Bool) (counter length : Byte) (cmd : KnxCommand) :
    ((∀ j, j ≠ 0 → (t.setPriority priority).getRawByte j = t.getRawByte j)
      ∧ (t.setPriority priority).getRawByte 0 &&& (0xFF ^^^ CONTROL_FIELD_PRIORITY_MASK)
          = t.getRawByte 0 &&& (0xFF ^^^ CONTROL_FIELD_PRIORITY_MASK))
    ∧ ((∀ j, j ≠ 0 → t.setRepeated.getRawByte j = t.getRawByte j)
      ∧ t.setRepeated.getRawByte 0 &&& (0xFF ^^^ CONTROL_FIELD_REPEATED_MASK)
          = t.getRawByte 0 &&& (0xFF ^^^ CONTROL_FIELD_REPEATED_MASK))
    ∧ (∀ j, j ≠ 1 → j ≠ 2 → (t.setSourceAddress addr).getRawByte j = t.getRawByte j)
    ∧ (∀ j, j ≠ 3 → j ≠ 4 → (t.setTargetAddress addr).getRawByte j = t.getRawByte j)
    ∧ ((∀ j, j ≠ 5 → (t.setMulticast mode).getRawByte j = t.getRawByte j)
      ∧ (t.setMulticast mode).getRawByte 5 &&& (0xFF ^^^ ROUTING_FIELD_TARGET_ADDRESS_TYPE_MASK)
          = t.getRawByte 5 &&& (0xFF ^^^ ROUTING_FIELD_TARGET_ADDRESS_TYPE_MASK))
    ∧ ((∀ j, j ≠ 5 → (t.setRoutingCounter counter).getRawByte j = t.getRawByte j)
      ∧ (t.setRoutingCounter counter).getRawByte 5 &&& (0xFF ^^^ ROUTING_FIELD_COUNTER_MASK)
          = t.getRawByte 5 &&& (0xFF ^^^ ROUTING_FIELD_COUNTER_MASK))
    ∧ ((∀ j, j ≠ 5 → (t.setPayloadLength length).getRawByte j = t.getRawByte j)
      ∧ (t.setPayloadLength length).getRawByte 5
            &&& (0xFF ^^^ ROUTING_FIELD_PAYLOAD_LENGTH_MASK)
          = t.getRawByte 5 &&& (0xFF ^^^ ROUTING_FIELD_PAYLOAD_LENGTH_MASK))
    ∧ ((∀ j, j ≠ 6 → j ≠ 7 → (t.setCommand cmd).getRawByte j = t.getRawByte j)
      ∧ (t.setCommand cmd).getRawByte 6 &&& (0xFF ^^^ COMMAND_FIELD_HIGH_COMMAND_MASK)
          = t.getRawByte 6 &&& (0xFF ^^^ COMMAND_FIELD_HIGH_COMMAND_MASK)
      ∧ (t.setCommand cmd).getRawByte 7 &&& (0xFF ^^^ COMMAND_FIELD_LOW_COMMAND_MASK)
          = t.getRawByte 7 &&& (0xFF ^^^ COMMAND_FIELD_LOW_COMMAND_MASK)) := by
  have hPrio : ∀ b < 256, ∀ p < 16,
      ((((b &&& bitNot 0b00001100) % 256) ||| (p &&& 0b00001100)) % 256)
        &&& (0xFF ^^^ 0b00001100) = b &&& (0xFF ^^^ 0b00001100) := by decide
  have hRep : ∀ b < 256,
      ((b &&& 0b11011111) % 256) &&& (0xFF ^^^ 0b00100000)
        = b &&& (0xFF ^^^ 0b00100000) := by decide
  have hMulti : ∀ b < 256,
      ((b ||| 0b10000000) % 256) &&& (0xFF ^^^ 0b10000000) = b &&& (0xFF ^^^ 0b10000000)
      ∧ ((b &&& bitNot 0b10000000) % 256) &&& (0xFF ^^^ 0b10000000)
          = b &&& (0xFF ^^^ 0b10000000) := by decide
  have hLen : ∀ b < 256, ∀ m < 16,
      ((((b &&& bitNot 0b00001111) % 256) ||| m) % 256)
        &&& (0xFF ^^^ 0b00001111) = b &&& (0xFF ^^^ 0b00001111) := by decide
  have hLenArg : length.val &&& 0b00001111 < 16 :=
    Nat.and_lt_two_pow (n := 4) length.val (by decide)
  have hCount : ∀ b < 256, ∀ m < 8,
      ((((b &&& bitNot 0b01110000) % 256) ||| (m <<< 4)) % 256)
        &&& (0xFF ^^^ 0b01110000) = b &&& (0xFF ^^^ 0b01110000) := by decide
  have hCountArg : ∀ c < 256, ((c <<< 4) % 256) &&& 0b01110000 = (c % 8) <<< 4 := by decide
  have hCmdH : ∀ h < 256, ∀ c < 16, c >>> 2 < 4 →
      ((((h &&& bitNot 0x03) % 256) ||| (c >>> 2)) % 256) &&& (0xFF ^^^ 0x03)
        = h &&& (0xFF ^^^ 0x03) := by decide
  have hCmdL : ∀ l < 256, ∀ c < 16,
      ((((l &&& bitNot 0xC0) % 256) ||| (c <<< 6)) % 256) &&& (0xFF ^^^ 0xC0)
        = l &&& (0xFF ^^^ 0xC0) := by decide
  have hpv : priority.val < 16 := by cases priority <;> decide
  have hcv : cmd.val < 16 ∧ cmd.val >>> 2 < 4 := by cases cmd <;> decide
  refine ⟨⟨?_, ?_⟩, ⟨?_, ?_⟩, ?_, ?_, ⟨?_, ?_⟩, ⟨?_, ?_⟩, ⟨?_, ?_⟩, ?_, ?_, ?_⟩
  · intro j hj; rw [getRawByte_setPriority, if_neg hj]
  · rw [getRawByte_setPriority, if_pos rfl]
    exact hPrio _ (getRawByte_lt t 0) _ hpv
  · intro j hj; rw [getRawByte_setRepeated, if_neg hj]
  · rw [getRawByte_setRepeated, if_pos rfl]
    exact hRep _ (getRawByte_lt t 0)
  · intro j h1 h2; rw [getRawByte_setSourceAddress, if_neg h1, if_neg h2]
  · intro j h1 h2; rw [getRawByte_setTargetAddress, if_neg h1, if_neg h2]
  · intro j hj; rw [getRawByte_setMulticast, if_neg hj]
  · rw [getRawByte_setMulticast, if_pos rfl]
    cases mode
    · exact (hMulti _ (getRawByte_lt t 5)).2
    · exact (hMulti _ (getRawByte_lt t 5)).1
  · intro j hj; rw [getRawByte_setRoutingCounter, if_neg hj]
  · rw [getRawByte_setRoutingCounter, if_pos rfl]
    simp only [ROUTING_FIELD_COUNTER_MASK]
    rw [hCountArg _ counter.isLt]
    exact hCount _ (getRawByte_lt t 5) _ (Nat.mod_lt _ (by decide))
  · intro j hj; rw [getRawByte_setPayloadLength, if_neg hj]
  · rw [getRawByte_setPayloadLength, if_pos rfl]
    exact hLen _ (getRawByte_lt t 5) _ hLenArg
  · intro j h6 h7; rw [getRawByte_setCommand, if_neg h6, if_neg h7]
  · rw [getRawByte_setCommand, if_pos rfl]
    exact hCmdH _ (getRawByte_lt t 6) _ hcv.1 hcv.2
  · rw [getRawByte_setCommand, if_neg (by decide), if_pos rfl]
    exact hCmdL _ (getRawByte_lt t 7) _ hcv.1

/-- Witness of claim C6: `setSourceAddress` leaves the routing byte of `telegramA2` alone
and `setCommand` leaves its first payload byte alone. -/
theorem C6_setters_change_only_their_field_witness :
    (telegramA2.setSourceAddress 0x110C).getRawByte 5 = telegramA2.getRawByte 5
    ∧ (telegramA2.setCommand .KNX_COMMAND_MEMORY_WRITE).getRawByte 8
        = telegramA2.getRawByte 8 :=
  have h := C6_setters_change_only_their_field telegramA2 .KNX_PRIORITY_ALARM_VALUE 0x110C
    false 3 15 .KNX_COMMAND_MEMORY_WRITE
  ⟨h.2.2.1 5 (by decide) (by decide), h.2.2.2.2.2.2.2.1 8 (by decide) (by decide)⟩

/-- Claim C7: a freshly constructed or cleared telegram has control byte `0xBC` (standard
frame format, not repeated, normal priority), routing byte `0xE1` (multicast, routing
counter 6, payload length 1, telegram length 9) and all other bytes zero. -/
theorem C7_default_telegram (t : KnxTelegram) :
    new t = clearTelegram t
    ∧ (∀ j, (clearTelegram t).getRawByte j
        = if j = 0 then 0xBC else if j = 5 then 0xE1 else 0)
    ∧ (clearTelegram t).controlField &&& CONTROL_FIELD_FRAME_FORMAT_MASK
        = CONTROL_FIELD_STANDARD_FRAME_FORMAT
    ∧ (clearTelegram t).isRepeated = false
    ∧ (clearTelegram t).getPriority = KnxPriority.KNX_PRIORITY_NORMAL_VALUE.val
    ∧ (clearTelegram t).isMulticast = true
    ∧ (clearTelegram t).getRoutingCounter = 6
    ∧ (clearTelegram t).getPayloadLength = 1
    ∧ (clearTelegram t).getTelegramLength = 9 := by
  have hconst : clearTelegram t = clearTelegram ⟨fun _ => 0⟩ := rfl
  have hbytes : ∀ j < 23, (clearTelegram ⟨fun _ => 0⟩).getRawByte j
      = if j = 0 then 0xBC else if j = 5 then 0xE1 else 0 := by decide
  rw [hconst]
  refine ⟨rfl, ?_, by decide, by decide, by decide, by decide, by decide, by decide, by decide⟩
  intro j
  by_cases hj : j < 23
  · exact hbytes j hj
  · rw [if_neg (by omega), if_neg (by omega)]
    simp [getRawByte, hj]

/-! ## Validity -/

theorem getCommand_lt (t : KnxTelegram) : t.getCommand < 16 := by
  have hL : ∀ l < 256, (l &&& 0xC0) >>> 6 < 4 := by decide
  have hH : ∀ h < 256, (h &&& 0x03) <<< 2 < 13 := by decide
  have h1 := hL _ (getRawByte_lt t 7)
  have h2 := hH _ (getRawByte_lt t 6)
  simp only [getCommand, commandL, commandH, COMMAND_FIELD_LOW_COMMAND_MASK,
    COMMAND_FIELD_HIGH_COMMAND_MASK]
  omega

theorem getValidity_cases (t : KnxTelegram) :
    t.getValidity =
      if t.controlField &&& 0x13 ≠ 0x10 then .KNX_TELEGRAM_INVALID_CONTROL_FIELD
      else if t.controlField &&& 0xC0 ≠ 0x80 then .KNX_TELEGRAM_UNSUPPORTED_FRAME_FORMAT
      else if t.getPayloadLength = 0 then .KNX_TELEGRAM_INCORRECT_PAYLOAD_LENGTH
      else if t.commandH &&& 0xC0 ≠ 0 then .KNX_TELEGRAM_INVALID_COMMAND_FIELD
      else if t.getChecksum ≠ t.calculateChecksum then .KNX_TELEGRAM_INCORRECT_CHECKSUM
      else if t.getCommand ≠ 0 ∧ t.getCommand ≠ 1 ∧ t.getCommand ≠ 2 ∧ t.getCommand ≠ 10 then
        .KNX_TELEGRAM_UNKNOWN_COMMAND
      else .KNX_TELEGRAM_VALID := by
  have hc : (toByte t.getCommand).val = t.getCommand := by
    have := getCommand_lt t
    simp only [toByte]; omega
  simp only [getValidity, hc, CONTROL_FIELD_PATTERN_MASK, CONTROL_FIELD_VALID_PATTERN,
    CONTROL_FIELD_FRAME_FORMAT_MASK, CONTROL_FIELD_STANDARD_FRAME_FORMAT,
    COMMAND_FIELD_PATTERN_MASK, COMMAND_FIELD_VALID_PATTERN, KnxCommand.val]
  simp only [bne_iff_ne, ne_eq, Bool.and_eq_true, Bool.not_eq_true', bne_eq_false_iff_eq,
    and_assoc]

/-- Claim C8: `getValidity()` returns `Valid` exactly when the control field matches the
pattern `0x13 -> 0x10`, the frame format bits are `0x80`, the payload length is not 0, the
high command byte has `0xC0` clear, the command is one of the four known ones and the
stored checksum equals the recomputed one; and each of the six error results implies the
condition attached to it. -/
theorem C8_getValidity_classification (t : KnxTelegram) :
    (t.getValidity = .KNX_TELEGRAM_VALID ↔
      (t.controlField &&& 0x13 = 0x10
        ∧ t.controlField &&& 0xC0 = 0x80
        ∧ t.getPayloadLength ≠ 0
        ∧ t.commandH &&& 0xC0 = 0
        ∧ (t.getCommand = KnxCommand.KNX_COMMAND_VALUE_READ.val
            ∨ t.getCommand = KnxCommand.KNX_COMMAND_VALUE_RESPONSE.val
            ∨ t.getCommand = KnxCommand.KNX_COMMAND_VALUE_WRITE.val
            ∨ t.getCommand = KnxCommand.KNX_COMMAND_MEMORY_WRITE.val)
        ∧ t.getChecksum = t.calculateChecksum))
    ∧ (t.getValidity = .KNX_TELEGRAM_INVALID_CONTROL_FIELD → t.controlField &&& 0x13 ≠ 0x10)
    ∧ (t.getValidity = .KNX_TELEGRAM_UNSUPPORTED_FRAME_FORMAT → t.controlField &&& 0xC0 ≠ 0x80)
    ∧ (t.getValidity = .KNX_TELEGRAM_INCORRECT_PAYLOAD_LENGTH → t.getPayloadLength = 0)
    ∧ (t.getValidity = .KNX_TELEGRAM_INVALID_COMMAND_FIELD → t.commandH &&& 0xC0 ≠ 0)
    ∧ (t.getValidity = .KNX_TELEGRAM_UNKNOWN_COMMAND →
        t.getCommand ≠ KnxCommand.KNX_COMMAND_VALUE_READ.val
        ∧ t.getCommand ≠ KnxCommand.KNX_COMMAND_VALUE_RESPONSE.val
        ∧ t.getCommand ≠ KnxCommand.KNX_COMMAND_VALUE_WRITE.val
        ∧ t.getCommand ≠ KnxCommand.KNX_COMMAND_MEMORY_WRITE.val)
    ∧ (t.getValidity = .KNX_TELEGRAM_INCORRECT_CHECKSUM →
        t.getChecksum ≠ t.calculateChecksum) := by
  rw [getValidity_cases]
  simp only [KnxCommand.val]
  by_cases h1 : t.controlField &&& 0x13 = 0x10
  · by_cases h2 : t.controlField &&& 0xC0 = 0x80
    · by_cases h3 : t.getPayloadLength = 0
      · simp [h1, h2, h3]
      · by_cases h4 : t.commandH &&& 0xC0 = 0
        · by_cases h5 : t.getChecksum = t.calculateChecksum
          · by_cases h6 : t.getCommand ≠ 0 ∧ t.getCommand ≠ 1 ∧ t.getCommand ≠ 2
                ∧ t.getCommand ≠ 10
            · have h6c := h6
              obtain ⟨h60, h61, h62, h63⟩ := h6
              simp [h1, h2, h3, h4, h5, h60, h61, h62, h63]
            · simp only [h1, h2, h3, h4, h5, h6]
              simp
              omega
          · simp [h1, h2, h3, h4, h5]
        · simp [h1, h2, h3, h4]
    · simp [h1, h2]
  · simp [h1]

/-- Witness of claim C8: `telegramValid` is valid and so has a matching checksum;
`telegramA2`, whose checksum was never written, is classified `IncorrectChecksum`. -/
theorem C8_getValidity_classification_witness :
    (telegramValid.getValidity = .KNX_TELEGRAM_VALID
      ∧ telegramValid.getChecksum = telegramValid.calculateChecksum)
    ∧ (telegramA2.getValidity = .KNX_TELEGRAM_INCORRECT_CHECKSUM
      ∧ telegramA2.getChecksum ≠ telegramA2.calculateChecksum) :=
  ⟨⟨by decide, ((C8_getValidity_classification telegramValid).1.mp (by decide)).2.2.2.2.2⟩,
    by decide, (C8_getValidity_classification telegramA2).2.2.2.2.2.2 (by decide)⟩

/-! ## Payload -/

theorem getTelegramLength_eq (t : KnxTelegram) :
    t.getTelegramLength = 8 + t.getPayloadLength := by
  have := getPayloadLength_lt t
  simp only [getTelegramLength, toByte, KNX_TELEGRAM_LENGTH_OFFSET]
  omega

theorem getPayloadLength_setPayloadLength (t : KnxTelegram) (length : Byte) :
    (t.setPayloadLength length).getPayloadLength = length.val % 16 := by
  have hLen : ∀ b < 256, ∀ m < 16,
      ((((b &&& bitNot 0b00001111) % 256) ||| m) % 256) &&& 15 = m := by decide
  have hArg : ∀ l < 256, l &&& 0b00001111 = l % 16 := by decide
  rw [getPayloadLength_eq, getRawByte_setPayloadLength, if_pos rfl]
  simp only [ROUTING_FIELD_PAYLOAD_LENGTH_MASK]
  rw [hArg _ length.isLt]
  exact hLen _ (getRawByte_lt t 5) _ (Nat.mod_lt _ (by decide))

theorem getRawByte_copyPayload (t : KnxTelegram) (data : Nat → Byte) (m : Nat) (hm : m ≤ 15)
    (j : Nat) :
    (copyPayload t data m).getRawByte j
      = if 8 ≤ j ∧ j < 8 + m then (data (j - 8)).val else t.getRawByte j := by
  induction m with
  | zero => rw [if_neg (by omega)]; rfl
  | succ m ih =>
    simp only [copyPayload, setPayloadChecksum]
    rw [getRawByte_setRawByte _ _ _ _ (by omega), ih (by omega)]
    by_cases hj : j = 8 + m
    · subst hj
      rw [if_pos rfl, if_pos (by omega), Nat.add_sub_cancel_left,
        Nat.mod_eq_of_lt (data m).isLt]
    · rw [if_neg hj]
      by_cases hr : 8 ≤ j ∧ j < 8 + m
      · rw [if_pos hr, if_pos (by omega)]
      · rw [if_neg hr, if_neg (by omega)]

theorem setPayload_of_pos (t : KnxTelegram) (data : Nat → Byte) (length : Byte)
    (h : 1 ≤ length.val) :
    t.setPayload data length
      = copyPayload (t.setPayloadLength (toByte (length.val + 1))) data (min length.val 14) := by
  have hlt := length.isLt
  have hmin : (toByte (min length.val (KNX_TELEGRAM_PAYLOAD_MAX_SIZE - 2))).val
      = min length.val 14 := by
    simp only [toByte, KNX_TELEGRAM_PAYLOAD_MAX_SIZE]
    omega
  unfold setPayload
  rw [if_neg (by omega)]
  simp only [hmin]

theorem getRawByte_setPayload_zero (t : KnxTelegram) (data : Nat → Byte) (j : Nat) :
    (t.setPayload data 0).getRawByte j
      = if j = 7 then
          (((t.getRawByte 7 &&& bitNot COMMAND_FIELD_LOW_DATA_MASK) % 256)
            ||| ((data 0).val &&& COMMAND_FIELD_LOW_DATA_MASK)) % 256
        else t.getRawByte j := by
  unfold setPayload
  rw [if_pos (by decide)]
  simp only [commandL, getRawByte_setRawByte _ _ _ _ (by decide : 7 < 23)]
  split <;> simp

/-- Claim C9: for `n` in 1..14, after `setPayload(data, n)` the payload length is `n+1`,
the telegram length is `8 + payload length = 9+n`, and the bytes at index `8 .. 8+n-1`
are `data[0..n-1]`. -/
theorem C9_setPayload_length (t : KnxTelegram) (data : Nat → Byte) (n : Byte)
    (h1 : 1 ≤ n.val) (h14 : n.val ≤ 14) :
    (t.setPayload data n).getPayloadLength = n.val + 1
    ∧ (t.setPayload data n).getTelegramLength = 8 + (t.setPayload data n).getPayloadLength
    ∧ (t.setPayload data n).getTelegramLength = 9 + n.val
    ∧ ∀ i, i < n.val → (t.setPayload data n).getRawByte (8 + i) = (data i).val := by
  have hmin : min n.val 14 = n.val := by omega
  have hlen : (t.setPayload data n).getPayloadLength = n.val + 1 := by
    rw [setPayload_of_pos t data n h1, hmin]
    rw [getPayloadLength_congr (t := t.setPayloadLength (toByte (n.val + 1)))]
    · rw [getPayloadLength_setPayloadLength]
      simp only [toByte]
      omega
    · rw [getRawByte_copyPayload _ _ _ (by omega), if_neg (by omega)]
  refine ⟨hlen, getTelegramLength_eq _, ?_, ?_⟩
  · rw [getTelegramLength_eq, hlen]; omega
  · intro i hi
    rw [setPayload_of_pos t data n h1, hmin, getRawByte_copyPayload _ _ _ (by omega),
      if_pos (by omega), Nat.add_sub_cancel_left]

/-- Witness of claim C9: `setPayload(payloadA2, 2)` on `telegramValid`. -/
theorem C9_setPayload_length_witness :
    (telegramValid.setPayload payloadA2 2).getPayloadLength = (2 : Byte).val + 1
    ∧ (telegramValid.setPayload payloadA2 2).getTelegramLength
        = 8 + (telegramValid.setPayload payloadA2 2).getPayloadLength
    ∧ (telegramValid.setPayload payloadA2 2).getTelegramLength = 9 + (2 : Byte).val
    ∧ (telegramValid.setPayload payloadA2 2).getRawByte (8 + 0) = (payloadA2 0).val
    ∧ (telegramValid.setPayload payloadA2 2).getRawByte (8 + 1) = (payloadA2 1).val :=
  have h := C9_setPayload_length telegramValid payloadA2 2 (by decide) (by decide)
  ⟨h.1, h.2.1, h.2.2.1, h.2.2.2 0 (by decide), h.2.2.2 1 (by decide)⟩

/-- Claim C10 fails as stated: `telegramA2` has payload length 3, and after
`setPayload(data, 0)` its payload length is still 3 and its telegram length 11. -/
theorem C10_counterexample :
    (telegramA2.setPayload payloadA2 0).getPayloadLength = 3
    ∧ (telegramA2.setPayload payloadA2 0).getPayloadLength ≠ 1
    ∧ (telegramA2.setPayload payloadA2 0).getTelegramLength = 11
    ∧ (telegramA2.setPayload payloadA2 0).getTelegramLength ≠ 9 := by
  decide

/-- Claim C10, amended: `setPayload(data, 0)` leaves the payload length and the telegram
length of every telegram unchanged; on a freshly cleared telegram they are therefore 1
and 9. -/
theorem C10_setPayload_zero_keeps_length (t : KnxTelegram) (data : Nat → Byte) :
    (t.setPayload data 0).getPayloadLength = t.getPayloadLength
    ∧ (t.setPayload data 0).getTelegramLength = t.getTelegramLength
    ∧ ((clearTelegram t).setPayload data 0).getPayloadLength = 1
    ∧ ((clearTelegram t).setPayload data 0).getTelegramLength = 9 := by
  have hkeep : ∀ s : KnxTelegram, (s.setPayload data 0).getPayloadLength = s.getPayloadLength :=
    fun s => getPayloadLength_congr (by rw [getRawByte_setPayload_zero, if_neg (by decide)])
  have hclear : (clearTelegram t).getPayloadLength = 1 := by
    have hconst : clearTelegram t = clearTelegram ⟨fun _ => 0⟩ := rfl
    rw [hconst]; decide
  refine ⟨hkeep t, ?_, ?_, ?_⟩
  · rw [getTelegramLength_eq, getTelegramLength_eq, hkeep t]
  · rw [hkeep, hclear]
  · rw [getTelegramLength_eq, hkeep, hclear]

end KnxTelegram

/-! ## Address helpers -/

/-- Claim C4: for `area`, `line` in 0..15 and any device byte, `P_ADDR` is
`(area<<12)|(line<<8)|dev`; for `main` in 0..31, `mid` in 0..7 and any sub byte, `G_ADDR`
is `(main<<11)|(mid<<8)|sub`; both results fit a 16-bit word. -/
theorem C4_address_packing (area line dev maingrp midgrp subgrp : Byte)
    (harea : area.val < 16) (hline : line.val < 16)
    (hmain : maingrp.val < 32) (hmid : midgrp.val < 8) :
    P_ADDR area line dev = (area.val <<< 12 ||| line.val <<< 8 ||| dev.val)
    ∧ P_ADDR area line dev < 65536
    ∧ G_ADDR maingrp midgrp subgrp = (maingrp.val <<< 11 ||| midgrp.val <<< 8 ||| subgrp.val)
    ∧ G_ADDR maingrp midgrp subgrp < 65536 := by
  have hP : ∀ a < 16, ∀ l < 16,
      ((a &&& 0xF) <<< 12) + ((l &&& 0xF) <<< 8) = 2 ^ 8 * (a * 16 + l)
      ∧ (a <<< 12 ||| l <<< 8) = 2 ^ 8 * (a * 16 + l) := by decide
  have hG : ∀ a < 32, ∀ l < 8,
      ((a &&& 0x1F) <<< 11) + ((l &&& 0x7) <<< 8) = 2 ^ 8 * (a * 8 + l)
      ∧ (a <<< 11 ||| l <<< 8) = 2 ^ 8 * (a * 8 + l) := by decide
  have hdev : dev.val < 2 ^ 8 := dev.isLt
  have hsub : subgrp.val < 2 ^ 8 := subgrp.isLt
  obtain ⟨hP1, hP2⟩ := hP _ harea _ hline
  obtain ⟨hG1, hG2⟩ := hG _ hmain _ hmid
  have hPlt : 2 ^ 8 * (area.val * 16 + line.val) + dev.val < 65536 := by omega
  have hGlt : 2 ^ 8 * (maingrp.val * 8 + midgrp.val) + subgrp.val < 65536 := by omega
  have hPe : P_ADDR area line dev = 2 ^ 8 * (area.val * 16 + line.val) + dev.val := by
    unfold P_ADDR toWord
    rw [hP1, Nat.mod_eq_of_lt hPlt]
  have hGe : G_ADDR maingrp midgrp subgrp
      = 2 ^ 8 * (maingrp.val * 8 + midgrp.val) + subgrp.val := by
    unfold G_ADDR toWord
    rw [hG1, Nat.mod_eq_of_lt hGlt]
  refine ⟨?_, ?_, ?_, ?_⟩
  · rw [hPe, hP2, Nat.mul_add_lt_is_or hdev]
  · rw [hPe]; exact hPlt
  · rw [hGe, hG2, Nat.mul_add_lt_is_or hsub]
  · rw [hGe]; exact hGlt

/-- Witness of claim C4: the device address `P_ADDR(1, 1, 12)` and the group address
`G_ADDR(2, 7, 1)` of the example sketch. -/
theorem C4_address_packing_witness :
    P_ADDR 1 1 12 = ((1 : Byte).val <<< 12 ||| (1 : Byte).val <<< 8 ||| (12 : Byte).val)
    ∧ P_ADDR 1 1 12 < 65536
    ∧ G_ADDR 2 7 1 = ((2 : Byte).val <<< 11 ||| (7 : Byte).val <<< 8 ||| (1 : Byte).val)
    ∧ G_ADDR 2 7 1 < 65536 :=
  C4_address_packing 1 1 12 2 7 1 (by decide) (by decide) (by decide) (by decide)

namespace KnxTelegram

/-! ## Outbound telegrams -/

theorem getRawByte_new (u : KnxTelegram) (j : Nat) :
    (new u).getRawByte j = if j = 0 then 0xBC else if j = 5 then 0xE1 else 0 := by
  have hconst : new u = clearTelegram ⟨fun _ => 0⟩ := rfl
  have hbytes : ∀ j < 23, (clearTelegram ⟨fun _ => 0⟩).getRawByte j
      = if j = 0 then 0xBC else if j = 5 then 0xE1 else 0 := by decide
  rw [hconst]
  by_cases hj : j < 23
  · exact hbytes j hj
  · rw [if_neg (by omega), if_neg (by omega)]
    simp [getRawByte, hj]

theorem getRawByte_setPayload_pos (t : KnxTelegram) (data : Nat → Byte) (length : Byte)
    (h1 : 1 ≤ length.val) (j : Nat) :
    (t.setPayload data length).getRawByte j
      = if 8 ≤ j ∧ j < 8 + min length.val 14 then (data (j - 8)).val
        else if j = 5 then
          (((t.getRawByte 5 &&& bitNot ROUTING_FIELD_PAYLOAD_LENGTH_MASK) % 256)
            ||| (((length.val + 1) % 256) &&& ROUTING_FIELD_PAYLOAD_LENGTH_MASK)) % 256
        else t.getRawByte j := by
  rw [setPayload_of_pos t data length h1, getRawByte_copyPayload _ _ _ (by omega),
    getRawByte_setPayloadLength]
  rfl

end KnxTelegram

namespace TxTelegram
open KnxTelegram

theorem getRawByte_appendTelegram_zero (answer : Bool) (groupAddress : Nat)
    (data : Nat → Byte) (j : Nat) :
    (appendTelegram answer groupAddress data 0).getRawByte j
      = if j = 0 then 0xBC
        else if j = 3 then (groupAddress % 65536) / 256
        else if j = 4 then groupAddress % 256
        else if j = 5 then 0xE1
        else if j = 7 then (if answer then 0x40 else 0x80) ||| ((data 0).val &&& 0x3F)
        else 0 := by
  have hd : ∀ d < 256,
      ((((0 &&& bitNot 0xC0) % 256 ||| (1 <<< 6)) % 256 &&& bitNot 0x3F) % 256 ||| (d &&& 0x3F)) % 256
          = 0x40 ||| (d &&& 0x3F)
      ∧ ((((0 &&& bitNot 0xC0) % 256 ||| (2 <<< 6)) % 256 &&& bitNot 0x3F) % 256 ||| (d &&& 0x3F)) % 256
          = 0x80 ||| (d &&& 0x3F) := by decide
  have hH : (toWord groupAddress >>> 8) % 256 = (groupAddress % 65536) / 256 := by
    rw [Nat.shiftRight_eq_div_pow]; unfold toWord; omega
  have hL : toWord groupAddress % 256 = groupAddress % 256 := by unfold toWord; omega
  unfold appendTelegram
  simp only [getRawByte_setPayload_zero, getRawByte_setCommand, getRawByte_setTargetAddress,
    getRawByte_new, hH, hL, COMMAND_FIELD_LOW_DATA_MASK, COMMAND_FIELD_LOW_COMMAND_MASK,
    COMMAND_FIELD_HIGH_COMMAND_MASK]
  by_cases h7 : j = 7
  · subst h7
    cases answer
    · simpa [KnxCommand.val] using (hd _ (data 0).isLt).2
    · simpa [KnxCommand.val] using (hd _ (data 0).isLt).1
  · by_cases h6 : j = 6
    · subst h6
      cases answer <;> simp [KnxCommand.val]
    · by_cases h3 : j = 3
      · subst h3; simp
      · by_cases h4 : j = 4
        · subst h4; simp
        · simp only [h7, h6, h3, h4, if_false]

theorem getRawByte_appendTelegram_pos (answer : Bool) (groupAddress : Nat)
    (data : Nat → Byte) (length : Byte) (h1 : 1 ≤ length.val) (h14 : length.val ≤ 14)
    (j : Nat) :
    (appendTelegram answer groupAddress data length).getRawByte j
      = if j = 0 then 0xBC
        else if j = 3 then (groupAddress % 65536) / 256
        else if j = 4 then groupAddress % 256
        else if j = 5 then 0xE0 + (length.val + 1)
        else if j = 7 then (if answer then 0x40 else 0x80)
        else if 8 ≤ j ∧ j < 8 + length.val then (data (j - 8)).val
        else 0 := by
  have hlen : ∀ l < 15, 1 ≤ l →
      (((0xE1 &&& bitNot 0b00001111) % 256) ||| (((l + 1) % 256) &&& 0b00001111)) % 256
        = 0xE0 + (l + 1) := by decide
  have hH : (toWord groupAddress >>> 8) % 256 = (groupAddress % 65536) / 256 := by
    rw [Nat.shiftRight_eq_div_pow]; unfold toWord; omega
  have hL : toWord groupAddress % 256 = groupAddress % 256 := by unfold toWord; omega
  have hmin : min length.val 14 = length.val := by omega
  unfold appendTelegram
  simp only [getRawByte_setPayload_pos _ _ _ h1, getRawByte_setCommand,
    getRawByte_setTargetAddress, getRawByte_new, hH, hL, hmin,
    ROUTING_FIELD_PAYLOAD_LENGTH_MASK, COMMAND_FIELD_LOW_COMMAND_MASK,
    COMMAND_FIELD_HIGH_COMMAND_MASK]
  by_cases h8 : 8 ≤ j ∧ j < 8 + length.val
  · rw [if_pos h8, if_neg (by omega), if_neg (by omega), if_neg (by omega), if_neg (by omega),
      if_neg (by omega), if_pos h8]
  · rw [if_neg h8]
    by_cases h5 : j = 5
    · subst h5
      simp only [if_pos, (by decide : ¬ (5 = 0)), (by decide : ¬ (5 = 3)),
        (by decide : ¬ (5 = 4)), (by decide : ¬ (5 = 6)), (by decide : ¬ (5 = 7)), if_false]
      exact hlen _ (by omega) h1
    · by_cases h7 : j = 7
      · subst h7
        cases answer <;> simp [KnxCommand.val]
      · by_cases h6 : j = 6
        · subst h6
          cases answer <;> simp [KnxCommand.val]
        · by_cases h3 : j = 3
          · subst h3; simp
          · by_cases h4 : j = 4
            · subst h4; simp
            · simp only [h8, h7, h6, h5, h3, h4, if_false]

end TxTelegram

namespace KnxTelegram

/-- Claim C11 fails as stated: with `length = 14` the byte at index 21, which lies after
the first 13 payload bytes, receives `data[13]`. -/
theorem C11_counterexample :
    8 + min 14 13 ≤ 21
    ∧ ((new ⟨fun _ => 0⟩).setPayload payloadFF 14).getRawByte 21 = 0xFF
    ∧ (new ⟨fun _ => 0⟩).getRawByte 21 = 0 := by
  decide

/-- Claim C11, amended: for every `length ≥ 1`, `setPayload(data, length)` copies exactly
`min(length, 14)` bytes of `data` into the buffer from index 8 on and leaves every later
byte of the buffer unchanged. -/
theorem C11_setPayload_copies_at_most_fourteen (t : KnxTelegram) (data : Nat → Byte)
    (length : Byte) (i j : Nat) (h1 : 1 ≤ length.val)
    (hi : i < min length.val 14) (hj : 8 + min length.val 14 ≤ j) :
    (t.setPayload data length).getRawByte (8 + i) = (data i).val
    ∧ (t.setPayload data length).getRawByte j = t.getRawByte j := by
  constructor
  · rw [getRawByte_setPayload_pos t data length h1, if_pos (by omega), Nat.add_sub_cancel_left]
  · rw [getRawByte_setPayload_pos t data length h1, if_neg (by omega), if_neg (by omega)]

/-- Witness of the amended claim C11: `length = 200` on `telegramValid`, last copied byte
and the byte after it. -/
theorem C11_setPayload_copies_at_most_fourteen_witness :
    (telegramValid.setPayload payloadFF 200).getRawByte (8 + 13) = (payloadFF 13).val
    ∧ (telegramValid.setPayload payloadFF 200).getRawByte 22 = telegramValid.getRawByte 22 :=
  C11_setPayload_copies_at_most_fourteen telegramValid payloadFF 200 13 22
    (by decide) (by decide) (by decide)

/-- Claim C16: every DPT decoder returns zero (`false` for `getBool`) when the payload
length is not the one of its DPT: 1 for `getBool`, `get2BitIntValue`, `get4BitIntValue`;
2 for `get1ByteIntValue`; 3 for `get2ByteIntValue` and `get2ByteFloatValue`; 5 for
`get4ByteFloatValue`. -/
theorem C16_decoders_zero_on_length_mismatch (t : KnxTelegram) :
    (t.getPayloadLength ≠ 1 →
      t.getBool = false ∧ t.get2BitIntValue = 0 ∧ t.get4BitIntValue = 0)
    ∧ (t.getPayloadLength ≠ 2 → t.get1ByteIntValue = 0)
    ∧ (t.getPayloadLength ≠ 3 → t.get2ByteIntValue = 0 ∧ t.get2ByteFloatValue = 0)
    ∧ (t.getPayloadLength ≠ 5 → t.get4ByteFloatValue = 0) := by
  refine ⟨fun h => ⟨?_, ?_, ?_⟩, fun h => ?_, fun h => ⟨?_, ?_⟩, fun h => ?_⟩
  · simp [getBool, h]
  · simp [get2BitIntValue, h]
  · simp [get4BitIntValue, h]
  · simp [get1ByteIntValue, h]
  · simp [get2ByteIntValue, h]
  · simp [get2ByteFloatValue, h]
  · simp [get4ByteFloatValue, h]

/-- Witness of claim C16: `telegramA2` has payload length 3 and `telegramValid` has
payload length 1. -/
theorem C16_decoders_zero_on_length_mismatch_witness :
    (telegramA2.getBool = false ∧ telegramA2.get2BitIntValue = 0
      ∧ telegramA2.get4BitIntValue = 0)
    ∧ telegramA2.get1ByteIntValue = 0
    ∧ (telegramValid.get2ByteIntValue = 0 ∧ telegramValid.get2ByteFloatValue = 0)
    ∧ telegramA2.get4ByteFloatValue = 0 :=
  ⟨(C16_decoders_zero_on_length_mismatch telegramA2).1 (by decide),
    (C16_decoders_zero_on_length_mismatch telegramA2).2.1 (by decide),
    (C16_decoders_zero_on_length_mismatch telegramValid).2.2.1 (by decide),
    (C16_decoders_zero_on_length_mismatch telegramA2).2.2.2 (by decide)⟩

end KnxTelegram

/-! ## DPT decoders -/

namespace KnxTelegram

theorem payloadChecksum_natCast (t : KnxTelegram) (k : Nat) :
    t.payloadChecksum (k : Int) = t.getRawByte (8 + k) := by
  have h : (8 + (k : Int)).toNat = 8 + k := by omega
  simp only [payloadChecksum, h]

theorem payloadChecksum_zero (t : KnxTelegram) : t.payloadChecksum 0 = t.getRawByte 8 :=
  payloadChecksum_natCast t 0

theorem payloadChecksum_one (t : KnxTelegram) : t.payloadChecksum 1 = t.getRawByte 9 :=
  payloadChecksum_natCast t 1

theorem get2ByteFloatValue_parts (t : KnxTelegram) :
    get2ByteFloatValue.signMultiplier t = (if t.getRawByte 8 < 128 then 1 else -1)
    ∧ get2ByteFloatValue.exponent t = (t.getRawByte 8 >>> 3) &&& 0xF
    ∧ get2ByteFloatValue.absoluteMantissa t
        = (if t.getRawByte 8 < 128 then 256 * (t.getRawByte 8 &&& 7) + t.getRawByte 9
            else 2048 - (256 * (t.getRawByte 8 &&& 7) + t.getRawByte 9))
    ∧ mantissaBits (t.getRawByte 8) (t.getRawByte 9)
        = (if t.getRawByte 8 < 128 then 0 else 2048)
            + (256 * (t.getRawByte 8 &&& 7) + t.getRawByte 9)
    ∧ t.getRawByte 8 &&& 7 < 8 := by
  have hb0 := getRawByte_lt t 8
  have hb1 := getRawByte_lt t 9
  have hB0 : ∀ b < 256,
      ((b &&& 0x80) != 0) = !decide (b < 128)
      ∧ ((b &&& 0x78) >>> 3) % 256 = (b >>> 3) &&& 0xF
      ∧ (b >>> 7) <<< 11 = (if b < 128 then 0 else 2048)
      ∧ b &&& 7 < 8 := by decide
  have hNeg : ∀ h < 8, ∀ b < 256,
      ((bitNot (256 * h + b) &&& 0x07FF) + 1) % 65536 = 2048 - (256 * h + b) := by decide
  obtain ⟨hs, he, hsh, hh⟩ := hB0 _ hb0
  have hm : toWord (t.getRawByte 9 + ((t.getRawByte 8 &&& 0x07) <<< 8))
      = 256 * (t.getRawByte 8 &&& 7) + t.getRawByte 9 := by
    rw [Nat.shiftLeft_eq]; unfold toWord; omega
  have hsign : get2ByteFloatValue.signMultiplier t = (if t.getRawByte 8 < 128 then 1 else -1) := by
    unfold get2ByteFloatValue.signMultiplier
    rw [payloadChecksum_zero, hs]
    by_cases h : t.getRawByte 8 < 128 <;> simp [h]
  refine ⟨hsign, ?_, ?_, ?_, hh⟩
  · unfold get2ByteFloatValue.exponent
    rw [payloadChecksum_zero]
    exact he
  · unfold get2ByteFloatValue.absoluteMantissa
    simp only [payloadChecksum_zero, payloadChecksum_one, hm, hsign]
    by_cases h : t.getRawByte 8 < 128
    · simp [h]
    · simp only [h, if_false]
      simp only [toWord]
      rw [if_pos (by decide)]
      exact hNeg _ hh _ hb1
  · unfold mantissaBits
    have hor : (t.getRawByte 8 &&& 0x07) <<< 8 ||| t.getRawByte 9
        = 256 * (t.getRawByte 8 &&& 7) + t.getRawByte 9 := by
      rw [Nat.shiftLeft_eq, Nat.mul_comm]
      exact (Nat.mul_add_lt_is_or (i := 8) hb1 _).symm
    rw [Nat.or_assoc, hor, hsh]
    by_cases h : t.getRawByte 8 < 128
    · simp [h]
    · simp only [h, if_false]
      have := Nat.mul_add_lt_is_or (i := 11)
        (b := 256 * (t.getRawByte 8 &&& 7) + t.getRawByte 9) (by omega) 1
      simpa using this.symm

/-- Claim C17: on a telegram with payload length 3 and payload bytes `b0`, `b1`, the
integer `get2ByteFloatValue` scales by 0.01 is `M * 2^E`, with `E = (b0 >> 3) & 0xF` and
`M` the 12-bit two-complement integer of sign bit `b0` bit 7 and low bits
`((b0 & 0x07) << 8) | b1`; `M` lies in -2048..2047. -/
theorem C17_get2ByteFloatValue_scaled_integer (t : KnxTelegram)
    (hlen : t.getPayloadLength = 3) :
    t.get2ByteFloatValue
      = signed12 (mantissaBits (t.getRawByte 8) (t.getRawByte 9))
          * 2 ^ ((t.getRawByte 8 >>> 3) &&& 0xF)
    ∧ -2048 ≤ signed12 (mantissaBits (t.getRawByte 8) (t.getRawByte 9))
    ∧ signed12 (mantissaBits (t.getRawByte 8) (t.getRawByte 9)) ≤ 2047 := by
  obtain ⟨hs, he, hm, hbits, hh⟩ := get2ByteFloatValue_parts t
  have hb1 := getRawByte_lt t 9
  unfold get2ByteFloatValue
  rw [hlen, hs, he, hm, hbits, Nat.shiftLeft_eq]
  simp only [bne_self_eq_false, Bool.false_eq_true, if_false, signed12]
  by_cases h : t.getRawByte 8 < 128
  · simp only [h, if_true]
    rw [if_pos (by omega)]
    refine ⟨?_, by omega, by omega⟩
    push_cast
    ring
  · simp only [h, if_false]
    rw [if_neg (by omega)]
    have hX : ((2048 - (256 * (t.getRawByte 8 &&& 7) + t.getRawByte 9) : Nat) : Int)
        = 2048 - ((256 * (t.getRawByte 8 &&& 7) + t.getRawByte 9 : Nat) : Int) := by omega
    refine ⟨?_, by omega, by omega⟩
    rw [Nat.cast_mul, hX]
    push_cast
    ring

/-- Witness of claim C17: the telegram `telegram0C65`. -/
theorem C17_get2ByteFloatValue_scaled_integer_witness :
    telegram0C65.get2ByteFloatValue
      = signed12 (mantissaBits (telegram0C65.getRawByte 8) (telegram0C65.getRawByte 9))
          * 2 ^ ((telegram0C65.getRawByte 8 >>> 3) &&& 0xF)
    ∧ -2048 ≤ signed12 (mantissaBits (telegram0C65.getRawByte 8) (telegram0C65.getRawByte 9))
    ∧ signed12 (mantissaBits (telegram0C65.getRawByte 8) (telegram0C65.getRawByte 9)) ≤ 2047 :=
  C17_get2ByteFloatValue_scaled_integer telegram0C65 (by decide)

/-- Claim C18 fails as stated: on the payload bytes `0C 65` the decoder finds the mantissa
`(0x0C & 0x07) << 8 | 0x65 = 0x465 = 1125`, not 357, and 2250 hundredths, not 714. -/
theorem C18_counterexample :
    telegram0C65.getPayloadLength = 3
    ∧ telegram0C65.getRawByte 8 = 0x0C ∧ telegram0C65.getRawByte 9 = 0x65
    ∧ get2ByteFloatValue.absoluteMantissa telegram0C65 = 1125
    ∧ get2ByteFloatValue.absoluteMantissa telegram0C65 ≠ 357
    ∧ telegram0C65.get2ByteFloatValue = 2250
    ∧ telegram0C65.get2ByteFloatValue ≠ 714 := by
  decide

/-- Claim C18, amended: decoding the payload bytes `0C 65` of a telegram with payload
length 3 gives sign 0, exponent 1, mantissa 1125 and the value 22.50 (2250 hundredths). -/
theorem C18_scenario_S3 (t : KnxTelegram) (hlen : t.getPayloadLength = 3)
    (h8 : t.getRawByte 8 = 0x0C) (h9 : t.getRawByte 9 = 0x65) :
    t.getRawByte 8 &&& 0x80 = 0
    ∧ get2ByteFloatValue.signMultiplier t = 1
    ∧ get2ByteFloatValue.exponent t = 1
    ∧ get2ByteFloatValue.absoluteMantissa t = 1125
    ∧ t.get2ByteFloatValue = 2250 := by
  obtain ⟨hs, he, hm, -, -⟩ := get2ByteFloatValue_parts t
  rw [h8] at hs he hm
  rw [h9] at hm
  have hs1 : get2ByteFloatValue.signMultiplier t = 1 := by rw [hs]; decide
  have he1 : get2ByteFloatValue.exponent t = 1 := by rw [he]; decide
  have hm1 : get2ByteFloatValue.absoluteMantissa t = 1125 := by rw [hm]; decide
  refine ⟨by rw [h8]; decide, hs1, he1, hm1, ?_⟩
  unfold get2ByteFloatValue
  rw [hlen, hs1, he1, hm1]
  decide

/-- Witness of the amended claim C18: the telegram `telegram0C65`. -/
theorem C18_scenario_S3_witness :
    telegram0C65.getRawByte 8 &&& 0x80 = 0
    ∧ get2ByteFloatValue.signMultiplier telegram0C65 = 1
    ∧ get2ByteFloatValue.exponent telegram0C65 = 1
    ∧ get2ByteFloatValue.absoluteMantissa telegram0C65 = 1125
    ∧ telegram0C65.get2ByteFloatValue = 2250 :=
  C18_scenario_S3 telegram0C65 (by decide) (by decide) (by decide)

end KnxTelegram

/-! ## Group writes -/

namespace TxTelegram
open KnxTelegram

theorem getPayloadLength_appendTelegram_zero (answer : Bool) (groupAddress : Nat)
    (data : Nat → Byte) : (appendTelegram answer groupAddress data 0).getPayloadLength = 1 := by
  rw [getPayloadLength_eq, getRawByte_appendTelegram_zero]
  simp only [if_pos, (by decide : ¬ (5 = 0)), (by decide : ¬ (5 = 3)),
    (by decide : ¬ (5 = 4)), if_false]
  decide

theorem getPayloadLength_appendTelegram_pos (answer : Bool) (groupAddress : Nat)
    (data : Nat → Byte) (length : Byte) (h1 : 1 ≤ length.val) (h14 : length.val ≤ 14) :
    (appendTelegram answer groupAddress data length).getPayloadLength = length.val + 1 := by
  have h : ∀ l < 15, (0xE0 + (l + 1)) &&& 15 = l + 1 := by decide
  rw [getPayloadLength_eq, getRawByte_appendTelegram_pos _ _ _ _ h1 h14]
  exact h _ (by omega)

theorem isGroupWriteTelegram_of_bytes (t : KnxTelegram) (answer : Bool)
    (groupAddress payloadLength : Nat) (hga : groupAddress < 65536)
    (h3 : t.getRawByte 3 = (groupAddress % 65536) / 256)
    (h4 : t.getRawByte 4 = groupAddress % 256)
    (h5 : t.getRawByte 5 &&& 0x80 = 0x80)
    (h6 : t.getRawByte 6 = 0)
    (h7 : t.getRawByte 7 &&& 0xC0 = (if answer then 0x40 else 0x80))
    (hlen : t.getPayloadLength = payloadLength) :
    isGroupWriteTelegram t answer groupAddress payloadLength := by
  refine ⟨?_, ?_, ?_, hlen⟩
  · simp only [getTargetAddress, targetAddrL, targetAddrH, h3, h4, Nat.shiftLeft_eq, toWord]
    omega
  · simp only [isMulticast, routing, ROUTING_FIELD_TARGET_ADDRESS_TYPE_MASK, h5]
    decide
  · simp only [getCommand, commandL, commandH, COMMAND_FIELD_LOW_COMMAND_MASK,
      COMMAND_FIELD_HIGH_COMMAND_MASK, h6, h7]
    cases answer <;> decide

theorem isGroupWriteTelegram_appendTelegram_zero (answer : Bool) (groupAddress : Nat)
    (data : Nat → Byte) (hga : groupAddress < 65536) :
    isGroupWriteTelegram (appendTelegram answer groupAddress data 0) answer groupAddress 1 := by
  have h7 : ∀ d < 256, (0x40 ||| (d &&& 0x3F)) &&& 0xC0 = 0x40
      ∧ (0x80 ||| (d &&& 0x3F)) &&& 0xC0 = 0x80 := by decide
  apply isGroupWriteTelegram_of_bytes _ _ _ _ hga
  · rw [getRawByte_appendTelegram_zero]; simp
  · rw [getRawByte_appendTelegram_zero]; simp
  · rw [getRawByte_appendTelegram_zero]
    simp only [if_pos, (by decide : ¬ (5 = 0)), (by decide : ¬ (5 = 3)),
      (by decide : ¬ (5 = 4)), if_false]
    decide
  · rw [getRawByte_appendTelegram_zero]; simp
  · rw [getRawByte_appendTelegram_zero]
    simp only [if_pos, (by decide : ¬ (7 = 0)), (by decide : ¬ (7 = 3)),
      (by decide : ¬ (7 = 4)), (by decide : ¬ (7 = 5)), if_false]
    cases answer
    · exact (h7 _ (data 0).isLt).2
    · exact (h7 _ (data 0).isLt).1
  · exact getPayloadLength_appendTelegram_zero _ _ _

theorem isGroupWriteTelegram_appendTelegram_pos (answer : Bool) (groupAddress : Nat)
    (data : Nat → Byte) (length : Byte) (hga : groupAddress < 65536)
    (h1 : 1 ≤ length.val) (h14 : length.val ≤ 14) :
    isGroupWriteTelegram (appendTelegram answer groupAddress data length) answer groupAddress
      (length.val + 1) := by
  have h5 : ∀ l < 15, (0xE0 + (l + 1)) &&& 0x80 = 0x80 := by decide
  apply isGroupWriteTelegram_of_bytes _ _ _ _ hga
  · rw [getRawByte_appendTelegram_pos _ _ _ _ h1 h14]; simp
  · rw [getRawByte_appendTelegram_pos _ _ _ _ h1 h14]; simp
  · rw [getRawByte_appendTelegram_pos _ _ _ _ h1 h14]
    simp only [if_pos, (by decide : ¬ (5 = 0)), (by decide : ¬ (5 = 3)),
      (by decide : ¬ (5 = 4)), if_false]
    exact h5 _ (by omega)
  · rw [getRawByte_appendTelegram_pos _ _ _ _ h1 h14]; simp
  · rw [getRawByte_appendTelegram_pos _ _ _ _ h1 h14]
    simp only [if_pos, (by decide : ¬ (7 = 0)), (by decide : ¬ (7 = 3)),
      (by decide : ¬ (7 = 4)), (by decide : ¬ (7 = 5)), if_false]
    cases answer <;> decide
  · exact getPayloadLength_appendTelegram_pos _ _ _ _ h1 h14

theorem ofLongBits_longBits_or_sign (x : Int) (hlo : -2147483648 ≤ x) (hneg : x < 0) :
    ofLongBits (longBits x ||| 0x80000000) = x := by
  have hp : ∃ q : Nat, q < 2 ^ 31 ∧ longBits x = 2 ^ 31 * 1 + q := by
    refine ⟨(x + 2147483648).toNat, by omega, ?_⟩
    unfold longBits
    omega
  obtain ⟨q, hq, hx⟩ := hp
  have hor : longBits x ||| 0x80000000 = longBits x := by
    rw [hx, Nat.mul_add_lt_is_or hq 1]
    have h31 : (0x80000000 : Nat) = 2 ^ 31 * 1 := by decide
    rw [h31, Nat.or_comm, ← Nat.or_assoc, Nat.or_self]
  rw [hor]
  unfold ofLongBits longBits
  omega

theorem negativeLoop_exits (fuel : Nat) (s : EncoderState)
    (hlo : -2147483648 ≤ s.longValuex100) (hneg : s.longValuex100 < 0)
    (hfuel : -2048 * 2 ^ fuel ≤ s.longValuex100) :
    -2048 ≤ (negativeLoop fuel s).longValuex100 := by
  induction fuel generalizing s with
  | zero =>
    simp only [negativeLoop]
    omega
  | succ fuel ih =>
    simp only [negativeLoop]
    by_cases h : s.longValuex100 < -2048
    · rw [if_pos h]
      have hshift : s.longValuex100 >>> (1 : Nat) = s.longValuex100 / 2 := by
        rw [Int.shiftRight_eq_div_pow]; rfl
      have hM : ofLongBits (longBits (s.longValuex100 >>> (1 : Nat)) ||| 0x80000000)
          = s.longValuex100 / 2 := by
        rw [hshift]
        exact ofLongBits_longBits_or_sign _ (by omega) (by omega)
      apply ih
      · simp only [hM]; omega
      · simp only [hM]; omega
      · simp only [hM]
        rw [pow_succ] at hfuel
        omega
    · rw [if_neg h]
      omega

theorem positiveLoop_exits (fuel : Nat) (s : EncoderState)
    (hfuel : s.longValuex100 < 2048 * 2 ^ fuel) :
    (positiveLoop fuel s).longValuex100 ≤ 2047 := by
  induction fuel generalizing s with
  | zero =>
    simp only [positiveLoop]
    omega
  | succ fuel ih =>
    simp only [positiveLoop]
    by_cases h : s.longValuex100 > 2047
    · rw [if_pos h]
      have hshift : s.longValuex100 >>> (1 : Nat) = s.longValuex100 / 2 := by
        rw [Int.shiftRight_eq_div_pow]; rfl
      apply ih
      simp only [hshift]
      rw [pow_succ] at hfuel
      omega
    · rw [if_neg h]
      omega

/-- Claim C20: for every `groupWrite*` operation, answer flag, group address and value,
the telegram handed to the outbound queue has the group address as target, the multicast
flag set, the command `ValueResponse` or `ValueWrite` according to `answer`, and the
payload length of its DPT (1, 1, 1, 2, 3, 3, 5, 5). Both loops of the 2-byte float encoder
leave by their own condition within the 32 iterations the model allows, for every 32-bit
`long`. `groupWrite2ByteIntValue(false, 0x1705, 1234)` gives bytes 3..9
`17 05 E3 00 80 04 D2`. -/
theorem C20_groupWrite_telegram_header (answer : Bool) (groupAddress : Nat) (b : Bool)
    (v2 v4 v8 : Byte) (v16 v32 hundredths : Int) (floatBits : Nat)
    (hga : groupAddress < 65536)
    (hlo : -2147483648 ≤ hundredths) (hhi : hundredths ≤ 2147483647) :
    isGroupWriteTelegram (groupWriteBool answer groupAddress b) answer groupAddress 1
    ∧ isGroupWriteTelegram (groupWrite2BitIntValue answer groupAddress v2) answer groupAddress 1
    ∧ isGroupWriteTelegram (groupWrite4BitIntValue answer groupAddress v4) answer groupAddress 1
    ∧ isGroupWriteTelegram (groupWrite1ByteIntValue answer groupAddress v8) answer groupAddress 2
    ∧ isGroupWriteTelegram (groupWrite2ByteIntValue answer groupAddress v16) answer
        groupAddress 3
    ∧ isGroupWriteTelegram (groupWrite2ByteFloatValue answer groupAddress hundredths) answer
        groupAddress 3
    ∧ isGroupWriteTelegram (groupWrite4ByteIntValue answer groupAddress v32) answer
        groupAddress 5
    ∧ isGroupWriteTelegram (groupWrite4ByteFloatValue answer groupAddress floatBits) answer
        groupAddress 5
    ∧ -2048 ≤ (negativeLoop 32
          { longValuex100 := hundredths, exponent := 0, round := 0 }).longValuex100
    ∧ (positiveLoop 32
          { longValuex100 := hundredths, exponent := 0, round := 0 }).longValuex100 ≤ 2047
    ∧ (List.range 7).map (fun i => (groupWrite2ByteIntValue false 0x1705 1234).getRawByte (3 + i))
        = [0x17, 0x05, 0xE3, 0x00, 0x80, 0x04, 0xD2] := by
  refine ⟨isGroupWriteTelegram_appendTelegram_zero _ _ _ hga,
    isGroupWriteTelegram_appendTelegram_zero _ _ _ hga,
    isGroupWriteTelegram_appendTelegram_zero _ _ _ hga,
    isGroupWriteTelegram_appendTelegram_pos _ _ _ 1 hga (by decide) (by decide),
    isGroupWriteTelegram_appendTelegram_pos _ _ _ 2 hga (by decide) (by decide),
    isGroupWriteTelegram_appendTelegram_pos _ _ _ 2 hga (by decide) (by decide),
    isGroupWriteTelegram_appendTelegram_pos _ _ _ 4 hga (by decide) (by decide),
    isGroupWriteTelegram_appendTelegram_pos _ _ _ 4 hga (by decide) (by decide),
    ?_, ?_, by decide⟩
  · by_cases hneg : hundredths < 0
    · exact negativeLoop_exits 32 _ hlo hneg (by simp only []; omega)
    · have h0 : ¬ ((⟨hundredths, 0, 0⟩ : EncoderState).longValuex100 < -2048) := by
        dsimp only; omega
      simp only [negativeLoop, if_neg h0]
      omega
  · exact positiveLoop_exits 32 _ (by simp only []; omega)

/-- Witness of claim C20: the 2-byte integer 1234 on `0x1705` and the 2-byte float of
-12356 hundredths on `0x1706`. -/
theorem C20_groupWrite_telegram_header_witness :
    isGroupWriteTelegram (groupWrite2ByteIntValue false 0x1705 1234) false 0x1705 3
    ∧ isGroupWriteTelegram (groupWrite2ByteFloatValue true 0x1706 (-12356)) true 0x1706 3
    ∧ -2048 ≤ (negativeLoop 32
        { longValuex100 := -12356, exponent := 0, round := 0 }).longValuex100 :=
  have h := C20_groupWrite_telegram_header false 0x1705 true 3 9 123 1234 123456 (-12356)
    0x47F12064 (by decide) (by decide) (by decide)
  have h2 := C20_groupWrite_telegram_header true 0x1706 true 3 9 123 1234 123456 (-12356)
    0x47F12064 (by decide) (by decide) (by decide)
  ⟨h.2.2.2.2.1, h2.2.2.2.2.2.1, h2.2.2.2.2.2.2.2.2.1⟩

/-- Claim C13 at the value of 4095 hundredths: the encoder shifts once (exponent 1,
mantissa 2047, rounding bit 1), the rounding increment makes the mantissa 2048, which does
not fit its 11 bits, and the payload is `08 00`; the decoder returns 0, which is not
within `2^1` of 4095. -/
theorem C13_rounding_overflow_at_4095 :
    (groupWrite2ByteFloatValue false 0x1706 4095).getRawByte 8 = 0x08
    ∧ (groupWrite2ByteFloatValue false 0x1706 4095).getRawByte 9 = 0x00
    ∧ get2ByteFloatValue.exponent (groupWrite2ByteFloatValue false 0x1706 4095) = 1
    ∧ (groupWrite2ByteFloatValue false 0x1706 4095).get2ByteFloatValue = 0
    ∧ ¬ (|(0 : Int) - 4095| < 2 ^ 1) := by
  decide

/-- Claim C14 at the pattern `0x3F800000` (the float 1.0): the payload length is 5, but
the payload bytes at index 8..11 are `00 00 80 3F`, least significant byte first, where
the claim has `3F 80 00 00`. -/
theorem C14_payload_is_least_significant_byte_first :
    (groupWrite4ByteFloatValue false 0x1707 0x3F800000).getPayloadLength = 5
    ∧ (List.range 4).map
        (fun i => (groupWrite4ByteFloatValue false 0x1707 0x3F800000).getRawByte (8 + i))
        = [0x00, 0x00, 0x80, 0x3F]
    ∧ [0x3F800000 >>> 24, (0x3F800000 >>> 16) &&& 0xFF, (0x3F800000 >>> 8) &&& 0xFF,
        0x3F800000 &&& 0xFF] = [0x3F, 0x80, 0x00, 0x00] := by
  decide

/-- Claim C15 at the pattern `0x3F800000`: `get4ByteFloatValue` on the telegram built by
`groupWrite4ByteFloatValue` returns the byte-reversed pattern `0x0000803F`. -/
theorem C15_round_trip_reverses_bytes :
    (groupWrite4ByteFloatValue false 0x1707 0x3F800000).get4ByteFloatValue = 0x0000803F
    ∧ (groupWrite4ByteFloatValue false 0x1707 0x3F800000).get4ByteFloatValue
        ≠ 0x3F800000 := by
  decide

end TxTelegram

namespace KnxTpUart
open KnxTelegram TxTelegram

/-- Claim C19 fails as stated: the ninth byte of the frame of scenario S1 is `0x28`, not
`0xCC`. -/
theorem C19_counterexample :
    driverS1.physicalAddr = 0x110C
    ∧ (driverS1.sendTelegram (groupWriteBool false 0x1701 true)).2.1.getRawByte 8 = 0x28
    ∧ (driverS1.sendTelegram (groupWriteBool false 0x1701 true)).2.1.getRawByte 8 ≠ 0xCC := by
  decide

/-- Claim C19, amended: with physical address `0x110C`, `groupWriteBool(false, 0x1701,
true)` followed by `sendTelegram` yields the 9-byte frame `BC 11 0C 17 01 E1 00 81 28`,
the last byte `0x28` being the checksum (complement of the XOR) of the first eight. -/
theorem C19_scenario_S1 (d : KnxTpUart) (hpa : d.physicalAddr = 0x110C) :
    (d.sendTelegram (groupWriteBool false 0x1701 true)).1 = KNX_TPUART_OK
    ∧ (d.sendTelegram (groupWriteBool false 0x1701 true)).2.1.getTelegramLength = 9
    ∧ (List.range 9).map (d.sendTelegram (groupWriteBool false 0x1701 true)).2.1.getRawByte
        = [0xBC, 0x11, 0x0C, 0x17, 0x01, 0xE1, 0x00, 0x81, 0x28]
    ∧ 0x28 = 255 ^^^ xorOfBytes (d.sendTelegram (groupWriteBool false 0x1701 true)).2.1 8
    ∧ (d.sendTelegram (groupWriteBool false 0x1701 true)).2.1.isChecksumCorrect = true := by
  have h : (d.sendTelegram (groupWriteBool false 0x1701 true)).2.1
      = ((groupWriteBool false 0x1701 true).setSourceAddress 0x110C).updateChecksum := by
    simp only [sendTelegram, hpa]
  rw [h]
  refine ⟨rfl, ?_, ?_, ?_, ?_⟩ <;> decide

/-- Witness of the amended claim C19: the driver `driverS1`. -/
theorem C19_scenario_S1_witness :
    (driverS1.sendTelegram (groupWriteBool false 0x1701 true)).1 = KNX_TPUART_OK
    ∧ (driverS1.sendTelegram (groupWriteBool false 0x1701 true)).2.1.getTelegramLength = 9
    ∧ (List.range 9).map
        (driverS1.sendTelegram (groupWriteBool false 0x1701 true)).2.1.getRawByte
        = [0xBC, 0x11, 0x0C, 0x17, 0x01, 0xE1, 0x00, 0x81, 0x28]
    ∧ 0x28 = 255 ^^^ xorOfBytes
        (driverS1.sendTelegram (groupWriteBool false 0x1701 true)).2.1 8
    ∧ (driverS1.sendTelegram (groupWriteBool false 0x1701 true)).2.1.isChecksumCorrect
        = true :=
  C19_scenario_S1 driverS1 (by decide)

end KnxTpUart

namespace TxTelegram
open KnxTelegram

theorem commandL_appendTelegram_zero (answer : Bool) (groupAddress : Nat)
    (data : Nat → Byte) :
    (appendTelegram answer groupAddress data 0).commandL
      = (if answer then 0x40 else 0x80) ||| ((data 0).val &&& 0x3F) := by
  unfold commandL
  rw [getRawByte_appendTelegram_zero]
  rfl

/-- Claim C12: on the telegram built by the matching `groupWrite*` call, `getBool`
returns the bool written, `get2BitIntValue` returns `v` for `v` in 0..3, `get4BitIntValue`
returns `v` for `v` in 0..15, `get1ByteIntValue` returns `v` for every byte,
`get2ByteIntValue` returns `v` for every 16-bit `int`, and the two payload bytes are the
high and the low byte of the two-complement form of `v`. -/
theorem C12_integer_round_trip (answer : Bool) (groupAddress : Nat) (b : Bool)
    (v2 v4 v8 : Byte) (v16 : Int) (h2 : v2.val < 4) (h4 : v4.val < 16)
    (hlo : -32768 ≤ v16) (hhi : v16 ≤ 32767) :
    (groupWriteBool answer groupAddress b).getBool = b
    ∧ (groupWrite2BitIntValue answer groupAddress v2).get2BitIntValue = v2.val
    ∧ (groupWrite4BitIntValue answer groupAddress v4).get4BitIntValue = v4.val
    ∧ (groupWrite1ByteIntValue answer groupAddress v8).get1ByteIntValue = v8.val
    ∧ (groupWrite2ByteIntValue answer groupAddress v16).get2ByteIntValue = v16
    ∧ (groupWrite2ByteIntValue answer groupAddress v16).getRawByte 8 = intBits v16 / 256
    ∧ (groupWrite2ByteIntValue answer groupAddress v16).getRawByte 9 = intBits v16 % 256 := by
  have hBits : ∀ c, (c = 0x40 ∨ c = 0x80) → ∀ v < 16,
      ((c ||| (((v &&& 0b00000011) % 256) &&& 0x3F)) &&& 0b00000011) % 256 = v % 4
      ∧ ((c ||| (((v &&& 0b00001111) % 256) &&& 0x3F)) &&& 0b00001111) % 256 = v := by
    intro c hc
    rcases hc with rfl | rfl <;> decide
  have hc : (if answer then 0x40 else 0x80) = 0x40 ∨ (if answer then 0x40 else 0x80) = 0x80 := by
    cases answer <;> simp
  have hb8 : (groupWrite2ByteIntValue answer groupAddress v16).getRawByte 8
      = intBits v16 / 256 := by
    unfold groupWrite2ByteIntValue
    rw [getRawByte_appendTelegram_pos _ _ _ _ (by decide) (by decide)]
    simp only [arrayOf, toByteInt, intBits, Int.shiftRight_eq_div_pow]
    simp
    omega
  have hb9 : (groupWrite2ByteIntValue answer groupAddress v16).getRawByte 9
      = intBits v16 % 256 := by
    unfold groupWrite2ByteIntValue
    rw [getRawByte_appendTelegram_pos _ _ _ _ (by decide) (by decide)]
    have hand : intBits v16 &&& 0xFF = intBits v16 % 256 :=
      Nat.and_pow_two_sub_one_eq_mod _ 8
    simp [arrayOf, toByte, hand]
  refine ⟨?_, ?_, ?_, ?_, ?_, hb8, hb9⟩
  · unfold groupWriteBool getBool
    rw [getPayloadLength_appendTelegram_zero, commandL_appendTelegram_zero]
    cases b <;> cases answer <;> decide
  · unfold groupWrite2BitIntValue get2BitIntValue
    rw [getPayloadLength_appendTelegram_zero, commandL_appendTelegram_zero]
    have := (hBits _ hc v2.val (by omega)).1
    simp only [arrayOf, toByte, List.getD_cons_zero] at this ⊢
    simp only [bne_self_eq_false, Bool.false_eq_true, if_false]
    omega
  · unfold groupWrite4BitIntValue get4BitIntValue
    rw [getPayloadLength_appendTelegram_zero, commandL_appendTelegram_zero]
    have := (hBits _ hc v4.val h4).2
    simp only [arrayOf, toByte, List.getD_cons_zero] at this ⊢
    simp only [bne_self_eq_false, Bool.false_eq_true, if_false]
    exact this
  · unfold groupWrite1ByteIntValue get1ByteIntValue
    rw [getPayloadLength_appendTelegram_pos _ _ _ _ (by decide) (by decide)]
    have h := payloadChecksum_natCast
      (appendTelegram answer groupAddress (arrayOf [v8]) 1) 0
    simp only [Nat.cast_zero] at h
    rw [h, getRawByte_appendTelegram_pos _ _ _ _ (by decide) (by decide)]
    simp [arrayOf]
  · have hlen : (groupWrite2ByteIntValue answer groupAddress v16).getPayloadLength = 3 := by
      unfold groupWrite2ByteIntValue
      rw [getPayloadLength_appendTelegram_pos _ _ _ _ (by decide) (by decide)]
      rfl
    have h8 := payloadChecksum_natCast (groupWrite2ByteIntValue answer groupAddress v16) 0
    have h9 := payloadChecksum_natCast (groupWrite2ByteIntValue answer groupAddress v16) 1
    simp only [Nat.cast_zero, Nat.cast_one] at h8 h9
    unfold get2ByteIntValue
    rw [hlen, h8, h9, hb8, hb9, Nat.shiftLeft_eq]
    simp only [bne_self_eq_false, Bool.false_eq_true, if_false, toInt, intBits]
    omega

/-- Witness of claim C12: the values of the example sketch. -/
theorem C12_integer_round_trip_witness :
    (groupWriteBool true 0x1701 true).getBool = true
    ∧ (groupWrite2BitIntValue true 0x1702 3).get2BitIntValue = (3 : Byte).val
    ∧ (groupWrite4BitIntValue true 0x1702 9).get4BitIntValue = (9 : Byte).val
    ∧ (groupWrite1ByteIntValue true 0x1702 123).get1ByteIntValue = (123 : Byte).val
    ∧ (groupWrite2ByteIntValue true 0x1702 (-1234)).get2ByteIntValue = -1234 :=
  have h1 := C12_integer_round_trip true 0x1701 true 3 9 123 (-1234)
    (by decide) (by decide) (by decide) (by decide)
  have h2 := C12_integer_round_trip true 0x1702 true 3 9 123 (-1234)
    (by decide) (by decide) (by decide) (by decide)
  ⟨h1.1, h2.2.1, h2.2.2.1, h2.2.2.2.1, h2.2.2.2.2.1⟩

end TxTelegram

/-! ## Reception -/

namespace KnxTpUart
open KnxTelegram

theorem timeDelta_of_lastByte {a b last : Nat}
    (h : b % 4294967296 = last % 4294967296) :
    TimeDeltaUnsignedLong (a % 4294967296) b = TimeDeltaUnsignedLong a last := by
  simp only [TimeDeltaUnsignedLong, Nat.mod_mod, h]

/-- Reading a byte in the idle state: a control field starts a reception. -/
theorem rxInv_start (d : KnxTpUart) (f : Nat → Nat) (m1 m2 : Nat)
    (hidle : d.rx.state = .RX_IDLE_WAITING_FOR_CTRL_FIELD) (hbuf : d.serial.rxBuffer = [])
    (hf : f 0 < 256) (hctrl : f 0 &&& 0xD3 = 0x90) :
    RxInv d f .RX_KNX_TELEGRAM_RECEPTION_STARTED 1 1 [] m2 ((d.receive (f 0)).rxTask m1 m2) := by
  have hb : (toByte (f 0)).val = f 0 := Nat.mod_eq_of_lt hf
  have hstep : (d.receive (f 0)).rxTask m1 m2
      = { d with
          serial := { d.serial with rxBuffer := [] }
          rx := { d.rx with state := .RX_KNX_TELEGRAM_RECEPTION_STARTED, readBytes := 1 }
          statics := { d.statics with
            telegram := d.statics.telegram.setRawByte (f 0) 0
            lastByteRxTimeMicrosec := m2 % 4294967296 } } := by
    simp [rxTask, receive, rxTaskByte, hidle, hbuf, hb, TpUartRxState.val,
      KNX_CONTROL_FIELD_PATTERN_MASK, KNX_CONTROL_FIELD_VALID_PATTERN, hctrl]
  rw [hstep]
  refine ⟨rfl, rfl, rfl, by simp, rfl, rfl, rfl, rfl, rfl, rfl, ?_, by omega, Nat.mod_mod _ _⟩
  intro i hi
  have : i = 0 := by omega
  subst this
  simp [getRawByte_setRawByte_same, Nat.mod_eq_of_lt hf]

theorem rxInv_started_step (d0 d : KnxTpUart) (f : Nat → Nat) (n last m1 m2 : Nat)
    (h : RxInv d0 f .RX_KNX_TELEGRAM_RECEPTION_STARTED n n [] last d)
    (hn : n ≤ 4) (hf : f n < 256)
    (hto : TimeDeltaUnsignedLong m1 last ≤ KNX_RX_TIMEOUT) :
    RxInv d0 f .RX_KNX_TELEGRAM_RECEPTION_STARTED (n + 1) (n + 1) [] m2
      ((d.receive (f n)).rxTask m1 m2) := by
  have hb : (toByte (f n)).val = f n := Nat.mod_eq_of_lt hf
  have hn1 : (toByte (n + 1)).val = n + 1 := Nat.mod_eq_of_lt (by omega)
  have hne : ¬ (n = 5) := by omega
  have hto2 : ¬ (KNX_RX_TIMEOUT < TimeDeltaUnsignedLong (m1 % 4294967296)
      d.statics.lastByteRxTimeMicrosec) := by
    rw [timeDelta_of_lastByte h.lastByte]; omega
  have hstep : (d.receive (f n)).rxTask m1 m2
      = { d with
          serial := { d.serial with rxBuffer := [] }
          rx := { d.rx with readBytes := n + 1 }
          statics := { d.statics with
            telegram := d.statics.telegram.setRawByte (f n) n
            lastByteRxTimeMicrosec := m2 % 4294967296 } } := by
    simp [rxTask, receive, rxTaskByte, h.state, h.rxBuffer, h.readBytes, hb, hn1,
      hne, hto2, TpUartRxState.val]
  rw [hstep]
  refine ⟨h.state, rfl, rfl, h.written, h.events, h.receivedTelegram, h.tx, h.physicalAddr,
    h.groupAddressList, h.groupAddressListSize, ?_, by omega, Nat.mod_mod _ _⟩
  intro i hi
  show (d.statics.telegram.setRawByte (f n) n).getRawByte i = f i
  rw [getRawByte_setRawByte _ _ _ _ (by omega)]
  by_cases hin : i = n
  · subst hin; rw [if_pos rfl, Nat.mod_eq_of_lt hf]
  · rw [if_neg hin]; exact h.telegram i (by omega)

theorem isAddressAssignedFrom_iff (d : KnxTpUart) (addr remaining i : Nat) :
    d.isAddressAssignedFrom addr remaining i = true
      ↔ ∃ j, i ≤ j ∧ j < i + remaining ∧ d.groupAddressList.getD j 0 = addr := by
  induction remaining generalizing i with
  | zero =>
    simp only [isAddressAssignedFrom]
    constructor
    · intro h; cases h
    · rintro ⟨j, h1, h2, -⟩; omega
  | succ r ih =>
    simp only [isAddressAssignedFrom]
    by_cases hi : d.groupAddressList.getD i 0 = addr
    · simp only [hi, beq_self_eq_true, if_true, true_iff]
      exact ⟨i, Nat.le_refl i, by omega, hi⟩
    · have hb : (d.groupAddressList.getD i 0 == addr) = false := by simpa using hi
      rw [hb]
      simp only [Bool.false_eq_true, if_false]
      rw [ih]
      constructor
      · rintro ⟨j, h1, h2, h3⟩
        exact ⟨j, by omega, by omega, h3⟩
      · rintro ⟨j, h1, h2, h3⟩
        have hne : j ≠ i := fun hEq => hi (hEq ▸ h3)
        exact ⟨j, by omega, by omega, h3⟩

theorem isAddressAssigned_iff (d : KnxTpUart) (addr : Nat) :
    d.isAddressAssigned addr = true ↔ d.subscribed addr := by
  unfold isAddressAssigned subscribed
  rw [isAddressAssignedFrom_iff]
  constructor
  · rintro ⟨j, -, h2, h3⟩; exact ⟨j, by omega, h3⟩
  · rintro ⟨j, h2, h3⟩; exact ⟨j, Nat.zero_le j, by omega, h3⟩

theorem subscribed_congr {d d0 : KnxTpUart} (hl : d.groupAddressList = d0.groupAddressList)
    (hs : d.groupAddressListSize = d0.groupAddressListSize) (addr : Nat) :
    d.subscribed addr ↔ d0.subscribed addr := by
  unfold subscribed
  rw [hl, hs]

/-- The byte at index 5 in the started state: the expected length is set and the
acknowledge service is written. -/
theorem rxInv_ack (d0 d : KnxTpUart) (f : Nat → Nat) (last m1 m2 : Nat)
    (h : RxInv d0 f .RX_KNX_TELEGRAM_RECEPTION_STARTED 5 5 [] last d)
    (hf : f 5 < 256) (hto : TimeDeltaUnsignedLong m1 last ≤ KNX_RX_TIMEOUT) :
    (toWord (f 2 + (f 1 <<< 8)) ≠ d0.physicalAddr
        ∧ d0.subscribed (toWord (f 4 + (f 3 <<< 8))) →
      RxInv d0 f .RX_KNX_TELEGRAM_RECEPTION_ADDRESSED 6 6 [TPUART_RX_ACK_SERVICE_ADDRESSED] m2
        ((d.receive (f 5)).rxTask m1 m2))
    ∧ (¬ (toWord (f 2 + (f 1 <<< 8)) ≠ d0.physicalAddr
        ∧ d0.subscribed (toWord (f 4 + (f 3 <<< 8)))) →
      RxInv d0 f .RX_KNX_TELEGRAM_RECEPTION_NOT_ADDRESSED 6 6
        [TPUART_RX_ACK_SERVICE_NOT_ADDRESSED] m2 ((d.receive (f 5)).rxTask m1 m2)) := by
  have hb : (toByte (f 5)).val = f 5 := Nat.mod_eq_of_lt hf
  have hlen : (toByte ((f 5 &&& KNX_PAYLOAD_LENGTH_MASK) + 7)).val = (f 5 &&& 0x0F) + 7 := by
    have := Nat.and_le_right (n := f 5) (m := 0x0F)
    simp only [toByte, KNX_PAYLOAD_LENGTH_MASK]
    omega
  have hto2 : ¬ (KNX_RX_TIMEOUT < TimeDeltaUnsignedLong (m1 % 4294967296)
      d.statics.lastByteRxTimeMicrosec) := by
    rw [timeDelta_of_lastByte h.lastByte]; omega
  have h6 : (toByte (5 + 1)).val = 6 := rfl
  have hbytes : ∀ i, i < 6 → (d.statics.telegram.setRawByte (f 5) 5).getRawByte i = f i := by
    intro i hi
    rw [getRawByte_setRawByte _ _ _ _ (by omega)]
    by_cases hin : i = 5
    · subst hin; rw [if_pos rfl, Nat.mod_eq_of_lt hf]
    · rw [if_neg hin]; exact h.telegram i (by omega)
  have hsrc : (d.statics.telegram.setRawByte (f 5) 5).getSourceAddress
      = toWord (f 2 + (f 1 <<< 8)) := by
    simp only [getSourceAddress, sourceAddrL, sourceAddrH, hbytes 1 (by omega),
      hbytes 2 (by omega)]
  have htgt : (d.statics.telegram.setRawByte (f 5) 5).getTargetAddress
      = toWord (f 4 + (f 3 <<< 8)) := by
    simp only [getTargetAddress, targetAddrL, targetAddrH, hbytes 3 (by omega),
      hbytes 4 (by omega)]
  have hsub : ∀ a, d.subscribed a ↔ d0.subscribed a :=
    subscribed_congr h.groupAddressList h.groupAddressListSize
  constructor
  · intro hc
    have hc2 : d.subscribed (toWord (f 4 + (f 3 <<< 8))) := (hsub _).mpr hc.2
    have hc1 : ¬ toWord (f 2 + (f 1 <<< 8)) = d.physicalAddr := by
      rw [h.physicalAddr]; exact hc.1
    have hstep : (d.receive (f 5)).rxTask m1 m2
        = { d with
            serial := { rxBuffer := [],
                        written := d.serial.written ++ [TPUART_RX_ACK_SERVICE_ADDRESSED] }
            rx := { d.rx with readBytes := 6,
                              state := .RX_KNX_TELEGRAM_RECEPTION_ADDRESSED }
            statics := { d.statics with
              expectedTelegramLength := (f 5 &&& 0x0F) + 7
              telegram := d.statics.telegram.setRawByte (f 5) 5
              lastByteRxTimeMicrosec := m2 % 4294967296 } } := by
      simp [rxTask, receive, rxTaskByte, h.state, h.rxBuffer, h.readBytes, hb,
        hlen, hto2, TpUartRxState.val, h6, hsrc, htgt, isAddressAssigned_iff, hc1]
      exact (subscribed_congr rfl rfl _).mpr hc2
    rw [hstep]
    refine ⟨rfl, rfl, rfl, ?_, h.events, h.receivedTelegram, h.tx, h.physicalAddr,
      h.groupAddressList, h.groupAddressListSize, hbytes, fun _ => rfl, Nat.mod_mod _ _⟩
    show d.serial.written ++ [TPUART_RX_ACK_SERVICE_ADDRESSED] = _
    rw [h.written]; simp
  · intro hc
    have hc' : ¬ (¬ toWord (f 2 + (f 1 <<< 8)) = d.physicalAddr
        ∧ d.subscribed (toWord (f 4 + (f 3 <<< 8)))) := by
      rw [h.physicalAddr, hsub]; exact hc
    have hstep : (d.receive (f 5)).rxTask m1 m2
        = { d with
            serial := { rxBuffer := [],
                        written := d.serial.written ++ [TPUART_RX_ACK_SERVICE_NOT_ADDRESSED] }
            rx := { d.rx with readBytes := 6,
                              state := .RX_KNX_TELEGRAM_RECEPTION_NOT_ADDRESSED }
            statics := { d.statics with
              expectedTelegramLength := (f 5 &&& 0x0F) + 7
              telegram := d.statics.telegram.setRawByte (f 5) 5
              lastByteRxTimeMicrosec := m2 % 4294967296 } } := by
      simp [rxTask, receive, rxTaskByte, h.state, h.rxBuffer, h.readBytes, hb,
        hlen, hto2, TpUartRxState.val, h6, hsrc, htgt, isAddressAssigned_iff]
      intro h1 h2
      exact absurd ⟨h1, (@subscribed_congr _ d rfl rfl _).mp h2⟩ hc'
    rw [hstep]
    refine ⟨rfl, rfl, rfl, ?_, h.events, h.receivedTelegram, h.tx, h.physicalAddr,
      h.groupAddressList, h.groupAddressListSize, hbytes, fun _ => rfl, Nat.mod_mod _ _⟩
    show d.serial.written ++ [TPUART_RX_ACK_SERVICE_NOT_ADDRESSED] = _
    rw [h.written]; simp

theorem rxInv_addressed_step (d0 d : KnxTpUart) (f : Nat → Nat) (acks : List Nat)
    (n last m1 m2 : Nat)
    (h : RxInv d0 f .RX_KNX_TELEGRAM_RECEPTION_ADDRESSED n n acks last d)
    (hn6 : 6 ≤ n) (hn : n < (f 5 &&& 0x0F) + 7) (hf : f n < 256)
    (hto : TimeDeltaUnsignedLong m1 last ≤ KNX_RX_TIMEOUT) :
    RxInv d0 f .RX_KNX_TELEGRAM_RECEPTION_ADDRESSED (n + 1) (n + 1) acks m2
      ((d.receive (f n)).rxTask m1 m2) := by
  have hL := Nat.and_le_right (n := f 5) (m := 0x0F)
  have hb : (toByte (f n)).val = f n := Nat.mod_eq_of_lt hf
  have hn1 : (toByte (n + 1)).val = n + 1 := Nat.mod_eq_of_lt (by omega)
  have hmax : ¬ (n = KNX_TELEGRAM_MAX_SIZE) := by simp only [KNX_TELEGRAM_MAX_SIZE]; omega
  have hexp : ¬ ((f 5 &&& 0x0F) + 7 = n) := by omega
  have hto2 : ¬ (KNX_RX_TIMEOUT < TimeDeltaUnsignedLong (m1 % 4294967296)
      d.statics.lastByteRxTimeMicrosec) := by
    rw [timeDelta_of_lastByte h.lastByte]; omega
  have hstep : (d.receive (f n)).rxTask m1 m2
      = { d with
          serial := { d.serial with rxBuffer := [] }
          rx := { d.rx with readBytes := n + 1 }
          statics := { d.statics with
            telegram := d.statics.telegram.setRawByte (f n) n
            lastByteRxTimeMicrosec := m2 % 4294967296 } } := by
    simp [rxTask, receive, rxTaskByte, h.state, h.rxBuffer, h.readBytes, hb, hn1,
      hmax, hexp, hto2, TpUartRxState.val, h.expected hn6]
  rw [hstep]
  refine ⟨h.state, rfl, rfl, h.written, h.events, h.receivedTelegram, h.tx, h.physicalAddr,
    h.groupAddressList, h.groupAddressListSize, ?_, fun _ => h.expected hn6, Nat.mod_mod _ _⟩
  intro i hi
  show (d.statics.telegram.setRawByte (f n) n).getRawByte i = f i
  rw [getRawByte_setRawByte _ _ _ _ (by omega)]
  by_cases hin : i = n
  · subst hin; rw [if_pos rfl, Nat.mod_eq_of_lt hf]
  · rw [if_neg hin]; exact h.telegram i (by omega)

theorem rxInv_notAddressed_step (d0 d : KnxTpUart) (f : Nat → Nat) (acks : List Nat)
    (n last m1 m2 : Nat)
    (h : RxInv d0 f .RX_KNX_TELEGRAM_RECEPTION_NOT_ADDRESSED n 6 acks last d)
    (hn6 : 6 ≤ n) (hn : n < (f 5 &&& 0x0F) + 7)
    (hto : TimeDeltaUnsignedLong m1 last ≤ KNX_RX_TIMEOUT) :
    RxInv d0 f .RX_KNX_TELEGRAM_RECEPTION_NOT_ADDRESSED (n + 1) 6 acks m2
      ((d.receive (f n)).rxTask m1 m2) := by
  have hL := Nat.and_le_right (n := f 5) (m := 0x0F)
  have hn1 : (toByte (n + 1)).val = n + 1 := Nat.mod_eq_of_lt (by omega)
  have hmax : ¬ (n = KNX_TELEGRAM_MAX_SIZE) := by simp only [KNX_TELEGRAM_MAX_SIZE]; omega
  have hexp : ¬ ((f 5 &&& 0x0F) + 7 = n) := by omega
  have hto2 : ¬ (KNX_RX_TIMEOUT < TimeDeltaUnsignedLong (m1 % 4294967296)
      d.statics.lastByteRxTimeMicrosec) := by
    rw [timeDelta_of_lastByte h.lastByte]; omega
  have hstep : (d.receive (f n)).rxTask m1 m2
      = { d with
          serial := { d.serial with rxBuffer := [] }
          rx := { d.rx with readBytes := n + 1 }
          statics := { d.statics with
            lastByteRxTimeMicrosec := m2 % 4294967296 } } := by
    simp [rxTask, receive, rxTaskByte, h.state, h.rxBuffer, h.readBytes, hn1,
      hmax, hexp, hto2, TpUartRxState.val, h.expected hn6]
  rw [hstep]
  exact ⟨h.state, rfl, rfl, h.written, h.events, h.receivedTelegram, h.tx, h.physicalAddr,
    h.groupAddressList, h.groupAddressListSize, h.telegram, fun _ => h.expected hn6, Nat.mod_mod _ _⟩

/-- The last byte of an addressed frame: the telegram is complete and `rxTaskFinished`
runs on it. -/
theorem rx_finish_addressed (d0 d : KnxTpUart) (f : Nat → Nat) (acks : List Nat)
    (n last m1 m2 : Nat)
    (h : RxInv d0 f .RX_KNX_TELEGRAM_RECEPTION_ADDRESSED n n acks last d)
    (hn : n = (f 5 &&& 0x0F) + 7) (hf : f n < 256)
    (hto : TimeDeltaUnsignedLong m1 last ≤ KNX_RX_TIMEOUT) :
    ((d.receive (f n)).rxTask m1 m2).rx.state = .RX_IDLE_WAITING_FOR_CTRL_FIELD
    ∧ ((d.receive (f n)).rxTask m1 m2).rx.readBytes = 0
    ∧ ((d.receive (f n)).rxTask m1 m2).serial.written = d0.serial.written ++ acks
    ∧ ((d.receive (f n)).rxTask m1 m2).tx = d0.tx
    ∧ (∀ i, i ≤ n → ((d.receive (f n)).rxTask m1 m2).statics.telegram.getRawByte i = f i)
    ∧ (((d.receive (f n)).rxTask m1 m2).statics.telegram.isChecksumCorrect = true →
        ((d.receive (f n)).rxTask m1 m2).events
          = d0.events ++ [(.TPUART_EVENT_RECEIVED_KNX_TELEGRAM,
              ((d.receive (f n)).rxTask m1 m2).rx.receivedTelegram)]
        ∧ ((d.receive (f n)).rxTask m1 m2).rx.receivedTelegram
          = ((d.receive (f n)).rxTask m1 m2).statics.telegram.copy d0.rx.receivedTelegram)
    ∧ (((d.receive (f n)).rxTask m1 m2).statics.telegram.isChecksumCorrect = false →
        ((d.receive (f n)).rxTask m1 m2).events
          = d0.events ++ [(.TPUART_EVENT_KNX_TELEGRAM_RECEPTION_ERROR, d0.rx.receivedTelegram)]
        ∧ ((d.receive (f n)).rxTask m1 m2).rx.receivedTelegram = d0.rx.receivedTelegram) := by
  have hL := Nat.and_le_right (n := f 5) (m := 0x0F)
  have hn6 : 6 ≤ n := by omega
  have hb : (toByte (f n)).val = f n := Nat.mod_eq_of_lt hf
  have hmax : ¬ (n = KNX_TELEGRAM_MAX_SIZE) := by simp only [KNX_TELEGRAM_MAX_SIZE]; omega
  have hexp : d.statics.expectedTelegramLength = n := by rw [h.expected hn6, hn]
  have hto2 : ¬ (KNX_RX_TIMEOUT < TimeDeltaUnsignedLong (m1 % 4294967296)
      d.statics.lastByteRxTimeMicrosec) := by
    rw [timeDelta_of_lastByte h.lastByte]; omega
  have hstep : (d.receive (f n)).rxTask m1 m2
      = rxTaskFinished
          { d with
            serial := { d.serial with rxBuffer := [] }
            statics := { d.statics with
              telegram := d.statics.telegram.setRawByte (f n) n
              lastByteRxTimeMicrosec := m2 % 4294967296 } }
          (d.statics.telegram.setRawByte (f n) n) := by
    simp [rxTask, receive, rxTaskByte, h.state, h.rxBuffer, h.readBytes, hb,
      hmax, hexp, hto2, TpUartRxState.val]
  have hbytes : ∀ i, i ≤ n → (d.statics.telegram.setRawByte (f n) n).getRawByte i = f i := by
    intro i hi
    rw [getRawByte_setRawByte _ _ _ _ (by omega)]
    by_cases hin : i = n
    · subst hin; rw [if_pos rfl, Nat.mod_eq_of_lt hf]
    · rw [if_neg hin]; exact h.telegram i (by omega)
  rw [hstep]
  by_cases hc : (d.statics.telegram.setRawByte (f n) n).isChecksumCorrect = true
  · simp [rxTaskFinished, evtCallbackFct, h.state, hc, h.written, h.tx, h.events,
      h.receivedTelegram]
    exact hbytes
  · simp [rxTaskFinished, evtCallbackFct, h.state, hc, h.written, h.tx, h.events,
      h.receivedTelegram]
    exact hbytes

theorem rx_finish_notAddressed (d0 d : KnxTpUart) (f : Nat → Nat) (acks : List Nat)
    (n last m1 m2 : Nat)
    (h : RxInv d0 f .RX_KNX_TELEGRAM_RECEPTION_NOT_ADDRESSED n 6 acks last d)
    (hn : n = (f 5 &&& 0x0F) + 7)
    (hto : TimeDeltaUnsignedLong m1 last ≤ KNX_RX_TIMEOUT) :
    ((d.receive (f n)).rxTask m1 m2).rx.state = .RX_IDLE_WAITING_FOR_CTRL_FIELD
    ∧ ((d.receive (f n)).rxTask m1 m2).rx.readBytes = 0
    ∧ ((d.receive (f n)).rxTask m1 m2).serial.written = d0.serial.written ++ acks
    ∧ ((d.receive (f n)).rxTask m1 m2).tx = d0.tx
    ∧ ((d.receive (f n)).rxTask m1 m2).events = d0.events
    ∧ ((d.receive (f n)).rxTask m1 m2).rx.receivedTelegram = d0.rx.receivedTelegram := by
  have hL := Nat.and_le_right (n := f 5) (m := 0x0F)
  have hn6 : 6 ≤ n := by omega
  have hmax : ¬ (n = KNX_TELEGRAM_MAX_SIZE) := by simp only [KNX_TELEGRAM_MAX_SIZE]; omega
  have hexp : d.statics.expectedTelegramLength = n := by rw [h.expected hn6, hn]
  have hto2 : ¬ (KNX_RX_TIMEOUT < TimeDeltaUnsignedLong (m1 % 4294967296)
      d.statics.lastByteRxTimeMicrosec) := by
    rw [timeDelta_of_lastByte h.lastByte]; omega
  simp [rxTask, receive, rxTaskByte, rxTaskFinished, h.state, h.rxBuffer, h.readBytes,
    hmax, hexp, hto2, TpUartRxState.val, h.written, h.tx, h.events,
    h.receivedTelegram]

end KnxTpUart

namespace KnxTelegram

theorem isChecksumCorrect_congr {s t : KnxTelegram}
    (h : ∀ i, i ≤ 7 + t.getPayloadLength → s.getRawByte i = t.getRawByte i) :
    s.isChecksumCorrect = t.isChecksumCorrect := by
  have h5 : s.getRawByte 5 = t.getRawByte 5 := h 5 (by omega)
  have hlen : s.getPayloadLength = t.getPayloadLength := getPayloadLength_congr h5
  unfold isChecksumCorrect
  rw [getChecksum_eq, getChecksum_eq, hlen, h _ (Nat.le_refl _),
    calculateChecksum_congr h5 (fun i hi => h i (by omega))]

theorem getRawByte_copy (t dest : KnxTelegram) (i : Nat) :
    (t.copy dest).getRawByte i
      = if i < 8 + t.getPayloadLength then t.getRawByte i else dest.getRawByte i := by
  have hL := getPayloadLength_lt t
  unfold copy getRawByte
  rw [getTelegramLength_eq]
  by_cases hi : i < 23
  · simp only [hi, dif_pos]
    by_cases h2 : i < 8 + t.getPayloadLength <;> simp [h2]
  · simp only [hi, dif_neg, not_false_eq_true]
    rw [if_neg (by omega)]

end KnxTelegram

namespace KnxTpUart
open KnxTelegram

theorem rxFeed_succ (d : KnxTpUart) (f m1 m2 : Nat → Nat) (n : Nat) :
    d.rxFeed f m1 m2 (n + 1) = ((d.rxFeed f m1 m2 n).receive (f n)).rxTask (m1 n) (m2 n) := rfl

/-- Feeding the first five bytes of a frame to an idle driver. -/
theorem rxFeed_started (d : KnxTpUart) (f m1 m2 : Nat → Nat) (N : Nat)
    (hidle : d.rx.state = .RX_IDLE_WAITING_FOR_CTRL_FIELD) (hbuf : d.serial.rxBuffer = [])
    (hf : ∀ i, f i < 256) (hctrl : f 0 &&& 0xD3 = 0x90)
    (htime : noEopTimeout m1 m2 N) (k : Nat) (hk : k ≤ 4) (hkN : k < N) :
    RxInv d f .RX_KNX_TELEGRAM_RECEPTION_STARTED (k + 1) (k + 1) [] (m2 k)
      (d.rxFeed f m1 m2 (k + 1)) := by
  induction k with
  | zero => exact rxInv_start d f (m1 0) (m2 0) hidle hbuf (hf 0) hctrl
  | succ k ih =>
    rw [rxFeed_succ]
    exact rxInv_started_step d _ f (k + 1) (m2 k) _ _ (ih (by omega) (by omega)) (by omega)
      (hf _) (htime k (by omega))

/-- Feeding the first six bytes: the acknowledge service has been chosen. -/
theorem rxFeed_ack (d : KnxTpUart) (f m1 m2 : Nat → Nat) (N : Nat)
    (hidle : d.rx.state = .RX_IDLE_WAITING_FOR_CTRL_FIELD) (hbuf : d.serial.rxBuffer = [])
    (hf : ∀ i, f i < 256) (hctrl : f 0 &&& 0xD3 = 0x90)
    (htime : noEopTimeout m1 m2 N) (hN : 6 ≤ N) :
    (toWord (f 2 + (f 1 <<< 8)) ≠ d.physicalAddr
        ∧ d.subscribed (toWord (f 4 + (f 3 <<< 8))) →
      RxInv d f .RX_KNX_TELEGRAM_RECEPTION_ADDRESSED 6 6 [TPUART_RX_ACK_SERVICE_ADDRESSED]
        (m2 5) (d.rxFeed f m1 m2 6))
    ∧ (¬ (toWord (f 2 + (f 1 <<< 8)) ≠ d.physicalAddr
        ∧ d.subscribed (toWord (f 4 + (f 3 <<< 8)))) →
      RxInv d f .RX_KNX_TELEGRAM_RECEPTION_NOT_ADDRESSED 6 6
        [TPUART_RX_ACK_SERVICE_NOT_ADDRESSED] (m2 5) (d.rxFeed f m1 m2 6)) := by
  have h5 := rxFeed_started d f m1 m2 N hidle hbuf hf hctrl htime 4 (by omega) (by omega)
  rw [rxFeed_succ]
  exact rxInv_ack d _ f (m2 4) (m1 5) (m2 5) h5 (hf 5) (htime 4 (by omega))

theorem rxFeed_addressed (d : KnxTpUart) (f m1 m2 : Nat → Nat)
    (hidle : d.rx.state = .RX_IDLE_WAITING_FOR_CTRL_FIELD) (hbuf : d.serial.rxBuffer = [])
    (hf : ∀ i, f i < 256) (hctrl : f 0 &&& 0xD3 = 0x90)
    (htime : noEopTimeout m1 m2 (8 + (f 5 &&& 0x0F)))
    (haddr : toWord (f 2 + (f 1 <<< 8)) ≠ d.physicalAddr
        ∧ d.subscribed (toWord (f 4 + (f 3 <<< 8))))
    (j : Nat) (hj : j ≤ (f 5 &&& 0x0F) + 1) :
    RxInv d f .RX_KNX_TELEGRAM_RECEPTION_ADDRESSED (6 + j) (6 + j)
      [TPUART_RX_ACK_SERVICE_ADDRESSED] (m2 (5 + j)) (d.rxFeed f m1 m2 (6 + j)) := by
  induction j with
  | zero => exact (rxFeed_ack d f m1 m2 _ hidle hbuf hf hctrl htime (by omega)).1 haddr
  | succ j ih =>
    have hstep := rxInv_addressed_step d _ f _ (6 + j) (m2 (5 + j)) (m1 (6 + j)) (m2 (6 + j))
      (ih (by omega)) (by omega) (by omega) (hf _) (by have := htime (5 + j) (by omega); rwa [show 5 + j + 1 = 6 + j by omega] at this)
    have e1 : 6 + (j + 1) = 6 + j + 1 := by omega
    have e2 : 5 + (j + 1) = 6 + j := by omega
    rw [e1, e2]
    exact hstep

theorem rxFeed_notAddressed (d : KnxTpUart) (f m1 m2 : Nat → Nat)
    (hidle : d.rx.state = .RX_IDLE_WAITING_FOR_CTRL_FIELD) (hbuf : d.serial.rxBuffer = [])
    (hf : ∀ i, f i < 256) (hctrl : f 0 &&& 0xD3 = 0x90)
    (htime : noEopTimeout m1 m2 (8 + (f 5 &&& 0x0F)))
    (haddr : ¬ (toWord (f 2 + (f 1 <<< 8)) ≠ d.physicalAddr
        ∧ d.subscribed (toWord (f 4 + (f 3 <<< 8)))))
    (j : Nat) (hj : j ≤ (f 5 &&& 0x0F) + 1) :
    RxInv d f .RX_KNX_TELEGRAM_RECEPTION_NOT_ADDRESSED (6 + j) 6
      [TPUART_RX_ACK_SERVICE_NOT_ADDRESSED] (m2 (5 + j)) (d.rxFeed f m1 m2 (6 + j)) := by
  induction j with
  | zero => exact (rxFeed_ack d f m1 m2 _ hidle hbuf hf hctrl htime (by omega)).2 haddr
  | succ j ih =>
    have hstep := rxInv_notAddressed_step d _ f _ (6 + j) (m2 (5 + j)) (m1 (6 + j))
      (m2 (6 + j)) (ih (by omega)) (by omega) (by omega) (by have := htime (5 + j) (by omega); rwa [show 5 + j + 1 = 6 + j by omega] at this)
    have e1 : 6 + (j + 1) = 6 + j + 1 := by omega
    have e2 : 5 + (j + 1) = 6 + j := by omega
    rw [e1, e2]
    exact hstep

/-- The driver in the middle of a frame: after `n` bytes, `1 ≤ n < 8 + L`. -/
theorem rxFeed_mid (d : KnxTpUart) (f m1 m2 : Nat → Nat)
    (hidle : d.rx.state = .RX_IDLE_WAITING_FOR_CTRL_FIELD) (hbuf : d.serial.rxBuffer = [])
    (hf : ∀ i, f i < 256) (hctrl : f 0 &&& 0xD3 = 0x90)
    (htime : noEopTimeout m1 m2 (8 + (f 5 &&& 0x0F)))
    (n : Nat) (h1 : 1 ≤ n) (hn : n < 8 + (f 5 &&& 0x0F)) :
    (d.rxFeed f m1 m2 n).rx.state ≠ .RX_IDLE_WAITING_FOR_CTRL_FIELD
    ∧ (d.rxFeed f m1 m2 n).rx.readBytes = n
    ∧ (d.rxFeed f m1 m2 n).events = d.events
    ∧ (d.rxFeed f m1 m2 n).rx.receivedTelegram = d.rx.receivedTelegram
    ∧ (d.rxFeed f m1 m2 n).tx = d.tx
    ∧ (n ≤ 5 → (d.rxFeed f m1 m2 n).rx.state = .RX_KNX_TELEGRAM_RECEPTION_STARTED
        ∧ (d.rxFeed f m1 m2 n).serial.written = d.serial.written)
    ∧ (6 ≤ n → (toWord (f 2 + (f 1 <<< 8)) ≠ d.physicalAddr
          ∧ d.subscribed (toWord (f 4 + (f 3 <<< 8)))) →
        (d.rxFeed f m1 m2 n).rx.state = .RX_KNX_TELEGRAM_RECEPTION_ADDRESSED
        ∧ (d.rxFeed f m1 m2 n).serial.written
            = d.serial.written ++ [TPUART_RX_ACK_SERVICE_ADDRESSED])
    ∧ (6 ≤ n → ¬ (toWord (f 2 + (f 1 <<< 8)) ≠ d.physicalAddr
          ∧ d.subscribed (toWord (f 4 + (f 3 <<< 8)))) →
        (d.rxFeed f m1 m2 n).rx.state = .RX_KNX_TELEGRAM_RECEPTION_NOT_ADDRESSED
        ∧ (d.rxFeed f m1 m2 n).serial.written
            = d.serial.written ++ [TPUART_RX_ACK_SERVICE_NOT_ADDRESSED]) := by
  by_cases h5 : n ≤ 5
  · obtain ⟨k, rfl⟩ : ∃ k, n = k + 1 := ⟨n - 1, by omega⟩
    have h := rxFeed_started d f m1 m2 _ hidle hbuf hf hctrl htime k (by omega) (by omega)
    refine ⟨by rw [h.state]; decide, h.readBytes, h.events, h.receivedTelegram, h.tx,
      fun _ => ⟨h.state, by rw [h.written, List.append_nil]⟩, fun h6 => by omega,
      fun h6 => by omega⟩
  · obtain ⟨j, rfl⟩ : ∃ j, n = 6 + j := ⟨n - 6, by omega⟩
    by_cases haddr : toWord (f 2 + (f 1 <<< 8)) ≠ d.physicalAddr
          ∧ d.subscribed (toWord (f 4 + (f 3 <<< 8)))
    · have h := rxFeed_addressed d f m1 m2 hidle hbuf hf hctrl htime haddr j (by omega)
      refine ⟨by rw [h.state]; decide, h.readBytes, h.events, h.receivedTelegram, h.tx,
        fun h => by omega, fun _ _ => ⟨h.state, h.written⟩, fun _ hna => absurd haddr hna⟩
    · have h := rxFeed_notAddressed d f m1 m2 hidle hbuf hf hctrl htime haddr j (by omega)
      refine ⟨by rw [h.state]; decide, h.readBytes, h.events, h.receivedTelegram, h.tx,
        fun h => by omega, fun _ ha => absurd ha haddr, fun _ _ => ⟨h.state, h.written⟩⟩

/-- The driver after the last byte of an addressed frame. -/
theorem rxFeed_end_addressed (d : KnxTpUart) (f m1 m2 : Nat → Nat)
    (hidle : d.rx.state = .RX_IDLE_WAITING_FOR_CTRL_FIELD) (hbuf : d.serial.rxBuffer = [])
    (hf : ∀ i, f i < 256) (hctrl : f 0 &&& 0xD3 = 0x90)
    (htime : noEopTimeout m1 m2 (8 + (f 5 &&& 0x0F)))
    (haddr : toWord (f 2 + (f 1 <<< 8)) ≠ d.physicalAddr
        ∧ d.subscribed (toWord (f 4 + (f 3 <<< 8))))
    (frame : KnxTelegram) (hframe : ∀ i, frame.getRawByte i = f i) :
    (d.rxFeed f m1 m2 (8 + (f 5 &&& 0x0F))).rx.state = .RX_IDLE_WAITING_FOR_CTRL_FIELD
    ∧ (d.rxFeed f m1 m2 (8 + (f 5 &&& 0x0F))).rx.readBytes = 0
    ∧ (d.rxFeed f m1 m2 (8 + (f 5 &&& 0x0F))).serial.written
        = d.serial.written ++ [TPUART_RX_ACK_SERVICE_ADDRESSED]
    ∧ (d.rxFeed f m1 m2 (8 + (f 5 &&& 0x0F))).tx = d.tx
    ∧ (frame.isChecksumCorrect = true →
        (d.rxFeed f m1 m2 (8 + (f 5 &&& 0x0F))).events
          = d.events ++ [(.TPUART_EVENT_RECEIVED_KNX_TELEGRAM,
              (d.rxFeed f m1 m2 (8 + (f 5 &&& 0x0F))).rx.receivedTelegram)]
        ∧ ∀ i, (d.rxFeed f m1 m2 (8 + (f 5 &&& 0x0F))).rx.receivedTelegram.getRawByte i
            = if i < 8 + (f 5 &&& 0x0F) then f i else d.rx.receivedTelegram.getRawByte i)
    ∧ (frame.isChecksumCorrect = false →
        (d.rxFeed f m1 m2 (8 + (f 5 &&& 0x0F))).events
          = d.events ++ [(.TPUART_EVENT_KNX_TELEGRAM_RECEPTION_ERROR, d.rx.receivedTelegram)]
        ∧ (d.rxFeed f m1 m2 (8 + (f 5 &&& 0x0F))).rx.receivedTelegram
            = d.rx.receivedTelegram) := by
  have hL := Nat.and_le_right (n := f 5) (m := 0x0F)
  have h := rxFeed_addressed d f m1 m2 hidle hbuf hf hctrl htime haddr ((f 5 &&& 0x0F) + 1)
    (Nat.le_refl _)
  have e1 : 8 + (f 5 &&& 0x0F) = (6 + ((f 5 &&& 0x0F) + 1)) + 1 := by omega
  have hto : TimeDeltaUnsignedLong (m1 (6 + ((f 5 &&& 0x0F) + 1)))
      (m2 (5 + ((f 5 &&& 0x0F) + 1))) ≤ KNX_RX_TIMEOUT := by
    have := htime (5 + ((f 5 &&& 0x0F) + 1)) (by omega)
    rwa [show 5 + ((f 5 &&& 0x0F) + 1) + 1 = 6 + ((f 5 &&& 0x0F) + 1) by omega] at this
  have hfin := rx_finish_addressed d _ f _ (6 + ((f 5 &&& 0x0F) + 1)) _
    (m1 (6 + ((f 5 &&& 0x0F) + 1))) (m2 (6 + ((f 5 &&& 0x0F) + 1))) h (by omega) (hf _) hto
  rw [← rxFeed_succ, ← e1] at hfin
  obtain ⟨hs, hr, hw, ht, hb, hok, hbad⟩ := hfin
  have hlenF : frame.getPayloadLength = f 5 &&& 0x0F := by
    rw [getPayloadLength_eq, hframe]
  have hsum : (d.rxFeed f m1 m2 (8 + (f 5 &&& 0x0F))).statics.telegram.isChecksumCorrect
      = frame.isChecksumCorrect :=
    isChecksumCorrect_congr (fun i hi => by rw [hb i (by omega), hframe])
  have hlenT : (d.rxFeed f m1 m2 (8 + (f 5 &&& 0x0F))).statics.telegram.getPayloadLength
      = f 5 &&& 0x0F := by
    rw [getPayloadLength_eq, hb 5 (by omega)]
  refine ⟨hs, hr, hw, ht, fun hc => ?_, fun hc => hbad (hsum.trans hc)⟩
  obtain ⟨hev, hslot⟩ := hok (hsum.trans hc)
  refine ⟨hev, fun i => ?_⟩
  rw [hslot, getRawByte_copy, hlenT]
  by_cases hi : i < 8 + (f 5 &&& 0x0F)
  · rw [if_pos hi, if_pos hi, hb i (by omega)]
  · rw [if_neg hi, if_neg hi]

/-- The driver after the last byte of a frame not addressed to it. -/
theorem rxFeed_end_notAddressed (d : KnxTpUart) (f m1 m2 : Nat → Nat)
    (hidle : d.rx.state = .RX_IDLE_WAITING_FOR_CTRL_FIELD) (hbuf : d.serial.rxBuffer = [])
    (hf : ∀ i, f i < 256) (hctrl : f 0 &&& 0xD3 = 0x90)
    (htime : noEopTimeout m1 m2 (8 + (f 5 &&& 0x0F)))
    (haddr : ¬ (toWord (f 2 + (f 1 <<< 8)) ≠ d.physicalAddr
        ∧ d.subscribed (toWord (f 4 + (f 3 <<< 8))))) :
    (d.rxFeed f m1 m2 (8 + (f 5 &&& 0x0F))).rx.state = .RX_IDLE_WAITING_FOR_CTRL_FIELD
    ∧ (d.rxFeed f m1 m2 (8 + (f 5 &&& 0x0F))).rx.readBytes = 0
    ∧ (d.rxFeed f m1 m2 (8 + (f 5 &&& 0x0F))).serial.written
        = d.serial.written ++ [TPUART_RX_ACK_SERVICE_NOT_ADDRESSED]
    ∧ (d.rxFeed f m1 m2 (8 + (f 5 &&& 0x0F))).tx = d.tx
    ∧ (d.rxFeed f m1 m2 (8 + (f 5 &&& 0x0F))).events = d.events
    ∧ (d.rxFeed f m1 m2 (8 + (f 5 &&& 0x0F))).rx.receivedTelegram = d.rx.receivedTelegram := by
  have hL := Nat.and_le_right (n := f 5) (m := 0x0F)
  have h := rxFeed_notAddressed d f m1 m2 hidle hbuf hf hctrl htime haddr
    ((f 5 &&& 0x0F) + 1) (Nat.le_refl _)
  have e1 : 8 + (f 5 &&& 0x0F) = (6 + ((f 5 &&& 0x0F) + 1)) + 1 := by omega
  have hto : TimeDeltaUnsignedLong (m1 (6 + ((f 5 &&& 0x0F) + 1)))
      (m2 (5 + ((f 5 &&& 0x0F) + 1))) ≤ KNX_RX_TIMEOUT := by
    have := htime (5 + ((f 5 &&& 0x0F) + 1)) (by omega)
    rwa [show 5 + ((f 5 &&& 0x0F) + 1) + 1 = 6 + ((f 5 &&& 0x0F) + 1) by omega] at this
  have hfin := rx_finish_notAddressed d _ f _ (6 + ((f 5 &&& 0x0F) + 1)) _
    (m1 (6 + ((f 5 &&& 0x0F) + 1))) (m2 (6 + ((f 5 &&& 0x0F) + 1))) h (by omega) hto
  rw [← rxFeed_succ, ← e1] at hfin
  exact hfin

/-- The addresses of a frame, read from its bytes. -/
theorem getSourceAddress_eq (t : KnxTelegram) :
    t.getSourceAddress = toWord (t.getRawByte 2 + (t.getRawByte 1 <<< 8)) := rfl

theorem getTargetAddress_eq (t : KnxTelegram) :
    t.getTargetAddress = toWord (t.getRawByte 4 + (t.getRawByte 3 <<< 8)) := rfl

/-- Claim C21: starting from RX idle with nothing waiting in the UART, for every frame
with a control byte of the pattern `(b & 0xD3) = 0x90` and a correct checksum, whose source
differs from the own physical address and whose target is in the group address table,
feeding the bytes one per `rxTask()` call with no end-of-packet timeout in between: nothing
has been written after any of the first five calls, exactly the byte `0x11` has been
written after the sixth call and after every later one, no event has been emitted before
the last call, the last call emits exactly one event, `ReceivedTelegram`, the first
`8 + len` bytes of the received-telegram slot are then those of the frame, and RX is idle
again. -/
theorem C21_rx_addressed_dispatch (d : KnxTpUart) (frame : KnxTelegram) (m1 m2 : Nat → Nat)
    (hidle : d.rx.state = .RX_IDLE_WAITING_FOR_CTRL_FIELD) (hbuf : d.serial.rxBuffer = [])
    (hctrl : frame.getRawByte 0 &&& KNX_CONTROL_FIELD_PATTERN_MASK
      = KNX_CONTROL_FIELD_VALID_PATTERN)
    (hsum : frame.isChecksumCorrect = true)
    (hsrc : frame.getSourceAddress ≠ d.physicalAddr)
    (htgt : d.subscribed frame.getTargetAddress)
    (htime : noEopTimeout m1 m2 (8 + frame.getPayloadLength)) :
    (∀ n, n ≤ 5 → (d.rxFeed frame.getRawByte m1 m2 n).serial.written = d.serial.written)
    ∧ (∀ n, 6 ≤ n → n ≤ 8 + frame.getPayloadLength →
        (d.rxFeed frame.getRawByte m1 m2 n).serial.written
          = d.serial.written ++ [TPUART_RX_ACK_SERVICE_ADDRESSED])
    ∧ (∀ n, n < 8 + frame.getPayloadLength →
        (d.rxFeed frame.getRawByte m1 m2 n).events = d.events)
    ∧ (d.rxFeed frame.getRawByte m1 m2 (8 + frame.getPayloadLength)).events
        = d.events ++ [(.TPUART_EVENT_RECEIVED_KNX_TELEGRAM,
            (d.rxFeed frame.getRawByte m1 m2 (8 + frame.getPayloadLength)).rx.receivedTelegram)]
    ∧ (∀ i, i < 8 + frame.getPayloadLength →
        (d.rxFeed frame.getRawByte m1 m2
          (8 + frame.getPayloadLength)).rx.receivedTelegram.getRawByte i = frame.getRawByte i)
    ∧ (d.rxFeed frame.getRawByte m1 m2 (8 + frame.getPayloadLength)).rx.state
        = .RX_IDLE_WAITING_FOR_CTRL_FIELD := by
  rw [getPayloadLength_eq] at htime ⊢
  have haddr : toWord (frame.getRawByte 2 + (frame.getRawByte 1 <<< 8)) ≠ d.physicalAddr
      ∧ d.subscribed (toWord (frame.getRawByte 4 + (frame.getRawByte 3 <<< 8))) := ⟨hsrc, htgt⟩
  have hmid := rxFeed_mid d frame.getRawByte m1 m2 hidle hbuf (getRawByte_lt frame) hctrl htime
  obtain ⟨hs, -, hw, -, hok, -⟩ := rxFeed_end_addressed d frame.getRawByte m1 m2 hidle hbuf
    (getRawByte_lt frame) hctrl htime haddr frame (fun _ => rfl)
  obtain ⟨hev, hslot⟩ := hok hsum
  refine ⟨fun n hn => ?_, fun n h6 hn => ?_, fun n hn => ?_, hev, fun i hi => ?_, hs⟩
  · rcases Nat.eq_zero_or_pos n with rfl | hpos
    · rfl
    · exact ((hmid n hpos (by omega)).2.2.2.2.2.1 hn).2
  · rcases Nat.lt_or_ge n (8 + (frame.getRawByte 5 &&& 15)) with hlt | hge
    · exact ((hmid n (by omega) hlt).2.2.2.2.2.2.1 h6 haddr).2
    · have : n = 8 + (frame.getRawByte 5 &&& 15) := by omega
      rw [this]; exact hw
  · rcases Nat.eq_zero_or_pos n with rfl | hpos
    · rfl
    · exact (hmid n hpos hn).2.2.1
  · rw [hslot i, if_pos hi]

/-- Witness of claim C21: the driver of scenario S4 and the frame
`BC 00 01 17 01 E1 00 81 34`. -/
theorem C21_rx_addressed_dispatch_witness :
    (driverS4.rxFeed frameS4Checked.getRawByte (fun _ => 0) (fun _ => 0) 5).serial.written
      = driverS4.serial.written
    ∧ (driverS4.rxFeed frameS4Checked.getRawByte (fun _ => 0) (fun _ => 0) 6).serial.written
      = driverS4.serial.written ++ [TPUART_RX_ACK_SERVICE_ADDRESSED]
    ∧ (driverS4.rxFeed frameS4Checked.getRawByte (fun _ => 0) (fun _ => 0)
        (8 + frameS4Checked.getPayloadLength)).rx.state = .RX_IDLE_WAITING_FOR_CTRL_FIELD :=
  have h := C21_rx_addressed_dispatch driverS4 frameS4Checked (fun _ => 0) (fun _ => 0)
    (by decide) (by decide) (by decide) (by decide) (by decide) ⟨0, by decide, by decide⟩
    (fun _ _ => (by decide : TimeDeltaUnsignedLong 0 0 ≤ KNX_RX_TIMEOUT))
  ⟨h.1 5 (by decide), h.2.1 6 (by decide) (by decide), h.2.2.2.2.2⟩

/-- Claim C23 fails as stated, which has no condition on the time between the calls: the
frame `BC 00 01 17 02 E1 00 81 37` for the group `0x1702`, to which the driver of scenario
S4 is not subscribed, fed one byte per `rxTask()` call with 100 ms between the calls, runs
into the end-of-packet timeout in the second call; the driver then emits `ReceptionError`,
reads the remaining bytes in the idle state, and never writes `0x10`. -/
theorem C23_counterexample :
    driverS4.rx.state = .RX_IDLE_WAITING_FOR_CTRL_FIELD
    ∧ driverS4.isAddressAssigned frameS4Other.getTargetAddress = false
    ∧ frameS4Other.getPayloadLength = 1
    ∧ (driverS4.rxFeed frameS4Other.getRawByte (fun i => 100000 * i) (fun i => 100000 * i)
        9).serial.written = []
    ∧ (driverS4.rxFeed frameS4Other.getRawByte (fun i => 100000 * i) (fun i => 100000 * i)
        9).events.map Prod.fst = [.TPUART_EVENT_KNX_TELEGRAM_RECEPTION_ERROR] := by
  decide

/-- Claim C23, amended: starting from RX idle with nothing waiting in the UART, for every frame
(control byte of the pattern `(b & 0xD3) = 0x90`) whose source is the own physical address
or whose target is not in the group address table, feeding the bytes one per `rxTask()`
call with no end-of-packet timeout in between: nothing has been written after any of the
first five calls, exactly the byte `0x10` has been written after the sixth call and after
every later one, no event has been emitted and the received-telegram slot is unchanged
after every call, and RX is idle again after the last one. -/
theorem C23_rx_not_addressed_drop (d : KnxTpUart) (frame : KnxTelegram) (m1 m2 : Nat → Nat)
    (hidle : d.rx.state = .RX_IDLE_WAITING_FOR_CTRL_FIELD) (hbuf : d.serial.rxBuffer = [])
    (hctrl : frame.getRawByte 0 &&& KNX_CONTROL_FIELD_PATTERN_MASK
      = KNX_CONTROL_FIELD_VALID_PATTERN)
    (hna : frame.getSourceAddress = d.physicalAddr ∨ ¬ d.subscribed frame.getTargetAddress)
    (htime : noEopTimeout m1 m2 (8 + frame.getPayloadLength)) :
    (∀ n, n ≤ 5 → (d.rxFeed frame.getRawByte m1 m2 n).serial.written = d.serial.written)
    ∧ (∀ n, 6 ≤ n → n ≤ 8 + frame.getPayloadLength →
        (d.rxFeed frame.getRawByte m1 m2 n).serial.written
          = d.serial.written ++ [TPUART_RX_ACK_SERVICE_NOT_ADDRESSED])
    ∧ (∀ n, n ≤ 8 + frame.getPayloadLength →
        (d.rxFeed frame.getRawByte m1 m2 n).events = d.events
        ∧ (d.rxFeed frame.getRawByte m1 m2 n).rx.receivedTelegram = d.rx.receivedTelegram)
    ∧ (d.rxFeed frame.getRawByte m1 m2 (8 + frame.getPayloadLength)).rx.state
        = .RX_IDLE_WAITING_FOR_CTRL_FIELD := by
  rw [getPayloadLength_eq] at htime ⊢
  have haddr : ¬ (toWord (frame.getRawByte 2 + (frame.getRawByte 1 <<< 8)) ≠ d.physicalAddr
      ∧ d.subscribed (toWord (frame.getRawByte 4 + (frame.getRawByte 3 <<< 8)))) := by
    rintro ⟨h1, h2⟩
    rcases hna with h | h
    · exact h1 h
    · exact h h2
  have hmid := rxFeed_mid d frame.getRawByte m1 m2 hidle hbuf (getRawByte_lt frame) hctrl htime
  obtain ⟨hs, -, hw, -, hev, hslot⟩ := rxFeed_end_notAddressed d frame.getRawByte m1 m2 hidle
    hbuf (getRawByte_lt frame) hctrl htime haddr
  refine ⟨fun n hn => ?_, fun n h6 hn => ?_, fun n hn => ?_, hs⟩
  · rcases Nat.eq_zero_or_pos n with rfl | hpos
    · rfl
    · exact ((hmid n hpos (by omega)).2.2.2.2.2.1 hn).2
  · rcases Nat.lt_or_ge n (8 + (frame.getRawByte 5 &&& 15)) with hlt | hge
    · exact ((hmid n (by omega) hlt).2.2.2.2.2.2.2 h6 haddr).2
    · have : n = 8 + (frame.getRawByte 5 &&& 15) := by omega
      rw [this]; exact hw
  · rcases Nat.eq_zero_or_pos n with rfl | hpos
    · exact ⟨rfl, rfl⟩
    · rcases Nat.lt_or_ge n (8 + (frame.getRawByte 5 &&& 15)) with hlt | hge
      · exact ⟨(hmid n hpos hlt).2.2.1, (hmid n hpos hlt).2.2.2.1⟩
      · have : n = 8 + (frame.getRawByte 5 &&& 15) := by omega
        rw [this]; exact ⟨hev, hslot⟩

/-- Witness of claim C23: the driver of scenario S4 and a frame for the group `0x1702`,
to which it is not subscribed. -/
theorem C23_rx_not_addressed_drop_witness :
    (driverS4.rxFeed frameS4Other.getRawByte (fun _ => 0) (fun _ => 0) 6).serial.written
      = driverS4.serial.written ++ [TPUART_RX_ACK_SERVICE_NOT_ADDRESSED]
    ∧ (driverS4.rxFeed frameS4Other.getRawByte (fun _ => 0) (fun _ => 0) 9).events
      = driverS4.events
    ∧ (driverS4.rxFeed frameS4Other.getRawByte (fun _ => 0) (fun _ => 0)
        (8 + frameS4Other.getPayloadLength)).rx.state = .RX_IDLE_WAITING_FOR_CTRL_FIELD :=
  have h := C23_rx_not_addressed_drop driverS4 frameS4Other (fun _ => 0) (fun _ => 0)
    (by decide) (by decide) (by decide)
    (Or.inr (fun ⟨i, hi, he⟩ => by
      have h0 : i = 0 := Nat.lt_one_iff.mp hi
      subst h0
      exact absurd he (by decide)))
    (fun _ _ => (by decide : TimeDeltaUnsignedLong 0 0 ≤ KNX_RX_TIMEOUT))
  ⟨h.2.1 6 (by decide) (by decide), (h.2.2.1 9 (by decide)).1, h.2.2.2⟩

/-- Claim C24 fails as stated, which has no condition on the time between the calls: the
frame `BC 00 01 17 01 E2 00 80 BC 00` is addressed to the driver of scenario S4 (source
`0x0001`, group `0x1701`) and its last byte is not the correct checksum byte. Fed one byte
per `rxTask()` call with 100 ms between the calls, it runs into the end-of-packet timeout
in the second call, which emits `ReceptionError`; the payload byte `0xBC` then starts a
reception again, which the timeout ends in the last call with a second
`ReceptionError`. -/
theorem C24_counterexample :
    driverS4.rx.state = .RX_IDLE_WAITING_FOR_CTRL_FIELD
    ∧ frameS5Restart.getSourceAddress ≠ driverS4.physicalAddr
    ∧ driverS4.isAddressAssigned frameS5Restart.getTargetAddress = true
    ∧ frameS5Restart.getPayloadLength = 2
    ∧ frameS5Restart.getRawByte 9 ≠ frameS5Restart.calculateChecksum
    ∧ (driverS4.rxFeed frameS5Restart.getRawByte (fun i => 100000 * i) (fun i => 100000 * i)
        10).events.map Prod.fst
      = [.TPUART_EVENT_KNX_TELEGRAM_RECEPTION_ERROR, .TPUART_EVENT_KNX_TELEGRAM_RECEPTION_ERROR] := by
  decide

/-- Claim C24, amended: starting from RX idle with nothing waiting in the UART, for every frame
(control byte of the pattern `(b & 0xD3) = 0x90`) addressed to the device (source other
than the own physical address, target in the group address table) whose checksum byte is
not the correct one, feeding the bytes one per `rxTask()` call with no end-of-packet
timeout in between emits no event before the last call and exactly one event in the last
call, `ReceptionError`, and leaves the received-telegram slot unchanged after every
call. -/
theorem C24_rx_checksum_error (d : KnxTpUart) (frame : KnxTelegram) (m1 m2 : Nat → Nat)
    (hidle : d.rx.state = .RX_IDLE_WAITING_FOR_CTRL_FIELD) (hbuf : d.serial.rxBuffer = [])
    (hctrl : frame.getRawByte 0 &&& KNX_CONTROL_FIELD_PATTERN_MASK
      = KNX_CONTROL_FIELD_VALID_PATTERN)
    (hsum : frame.getRawByte (7 + frame.getPayloadLength) ≠ frame.calculateChecksum)
    (hsrc : frame.getSourceAddress ≠ d.physicalAddr)
    (htgt : d.subscribed frame.getTargetAddress)
    (htime : noEopTimeout m1 m2 (8 + frame.getPayloadLength)) :
    (∀ n, n < 8 + frame.getPayloadLength →
        (d.rxFeed frame.getRawByte m1 m2 n).events = d.events)
    ∧ (d.rxFeed frame.getRawByte m1 m2 (8 + frame.getPayloadLength)).events
        = d.events ++ [(.TPUART_EVENT_KNX_TELEGRAM_RECEPTION_ERROR, d.rx.receivedTelegram)]
    ∧ (∀ n, n ≤ 8 + frame.getPayloadLength →
        (d.rxFeed frame.getRawByte m1 m2 n).rx.receivedTelegram = d.rx.receivedTelegram) := by
  have hbad : frame.isChecksumCorrect = false := by
    unfold isChecksumCorrect
    rw [getChecksum_eq]
    simpa using hsum
  rw [getPayloadLength_eq] at htime ⊢
  have haddr : toWord (frame.getRawByte 2 + (frame.getRawByte 1 <<< 8)) ≠ d.physicalAddr
      ∧ d.subscribed (toWord (frame.getRawByte 4 + (frame.getRawByte 3 <<< 8))) := ⟨hsrc, htgt⟩
  have hmid := rxFeed_mid d frame.getRawByte m1 m2 hidle hbuf (getRawByte_lt frame) hctrl htime
  obtain ⟨-, -, -, -, -, hno⟩ := rxFeed_end_addressed d frame.getRawByte m1 m2 hidle hbuf
    (getRawByte_lt frame) hctrl htime haddr frame (fun _ => rfl)
  obtain ⟨hev, hslot⟩ := hno hbad
  refine ⟨fun n hn => ?_, hev, fun n hn => ?_⟩
  · rcases Nat.eq_zero_or_pos n with rfl | hpos
    · rfl
    · exact (hmid n hpos hn).2.2.1
  · rcases Nat.eq_zero_or_pos n with rfl | hpos
    · rfl
    · rcases Nat.lt_or_ge n (8 + (frame.getRawByte 5 &&& 15)) with hlt | hge
      · exact (hmid n hpos hlt).2.2.2.1
      · have : n = 8 + (frame.getRawByte 5 &&& 15) := by omega
        rw [this]; exact hslot

/-- Witness of claim C24: the driver of scenario S4 and the frame of scenario S5,
`BC 00 01 17 01 E1 00 81 CD`. -/
theorem C24_rx_checksum_error_witness :
    (driverS4.rxFeed frameS5.getRawByte (fun _ => 0) (fun _ => 0)
        (8 + frameS5.getPayloadLength)).events
      = driverS4.events
        ++ [(.TPUART_EVENT_KNX_TELEGRAM_RECEPTION_ERROR, driverS4.rx.receivedTelegram)]
    ∧ (driverS4.rxFeed frameS5.getRawByte (fun _ => 0) (fun _ => 0) 9).rx.receivedTelegram
      = driverS4.rx.receivedTelegram :=
  have h := C24_rx_checksum_error driverS4 frameS5 (fun _ => 0) (fun _ => 0)
    (by decide) (by decide) (by decide) (by decide) (by decide) ⟨0, by decide, by decide⟩
    (fun _ _ => (by decide : TimeDeltaUnsignedLong 0 0 ≤ KNX_RX_TIMEOUT))
  ⟨h.2.1, h.2.2 9 (by decide)⟩

/-- Claim C29: for every frame (control byte of the pattern `(b & 0xD3) = 0x90`) fed to an
idle driver one byte per `rxTask()` call with no end-of-packet timeout, whatever the
payload-length nibble `L` of its routing byte: after each of the first `7 + L` calls RX is
not idle and `readBytes` counts the bytes consumed (the state being `RecvStarted` up to
the fifth call, then `RecvAddressed` or `RecvNotAddressed` according to the addresses), and
after the call that consumes byte number `8 + L` RX is idle with `readBytes = 0`. -/
theorem C29_finished_at_last_byte (d : KnxTpUart) (frame : KnxTelegram) (m1 m2 : Nat → Nat)
    (hidle : d.rx.state = .RX_IDLE_WAITING_FOR_CTRL_FIELD) (hbuf : d.serial.rxBuffer = [])
    (hctrl : frame.getRawByte 0 &&& KNX_CONTROL_FIELD_PATTERN_MASK
      = KNX_CONTROL_FIELD_VALID_PATTERN)
    (htime : noEopTimeout m1 m2 (8 + frame.getPayloadLength)) :
    frame.getPayloadLength ≤ 15
    ∧ (∀ n, 1 ≤ n → n < 8 + frame.getPayloadLength →
        (d.rxFeed frame.getRawByte m1 m2 n).rx.state ≠ .RX_IDLE_WAITING_FOR_CTRL_FIELD
        ∧ (d.rxFeed frame.getRawByte m1 m2 n).rx.readBytes = n)
    ∧ (∀ n, 1 ≤ n → n ≤ 5 →
        (d.rxFeed frame.getRawByte m1 m2 n).rx.state = .RX_KNX_TELEGRAM_RECEPTION_STARTED)
    ∧ (∀ n, 6 ≤ n → n < 8 + frame.getPayloadLength →
        (d.rxFeed frame.getRawByte m1 m2 n).rx.state
          = (if frame.getSourceAddress != d.physicalAddr
                && d.isAddressAssigned frame.getTargetAddress
             then .RX_KNX_TELEGRAM_RECEPTION_ADDRESSED
             else .RX_KNX_TELEGRAM_RECEPTION_NOT_ADDRESSED))
    ∧ (d.rxFeed frame.getRawByte m1 m2 (8 + frame.getPayloadLength)).rx.state
        = .RX_IDLE_WAITING_FOR_CTRL_FIELD
    ∧ (d.rxFeed frame.getRawByte m1 m2 (8 + frame.getPayloadLength)).rx.readBytes = 0 := by
  have hL := getPayloadLength_lt frame
  rw [getPayloadLength_eq] at htime hL ⊢
  have hmid := rxFeed_mid d frame.getRawByte m1 m2 hidle hbuf (getRawByte_lt frame) hctrl htime
  have hdec : (frame.getSourceAddress != d.physicalAddr
        && d.isAddressAssigned frame.getTargetAddress) = true
      ↔ (toWord (frame.getRawByte 2 + (frame.getRawByte 1 <<< 8)) ≠ d.physicalAddr
        ∧ d.subscribed (toWord (frame.getRawByte 4 + (frame.getRawByte 3 <<< 8)))) := by
    rw [Bool.and_eq_true, bne_iff_ne, isAddressAssigned_iff]
    rfl
  refine ⟨by omega, fun n h1 hn => ⟨(hmid n h1 hn).1, (hmid n h1 hn).2.1⟩,
    fun n h1 hn => ((hmid n h1 (by omega)).2.2.2.2.2.1 hn).1, fun n h6 hn => ?_, ?_⟩
  · by_cases haddr : toWord (frame.getRawByte 2 + (frame.getRawByte 1 <<< 8)) ≠ d.physicalAddr
        ∧ d.subscribed (toWord (frame.getRawByte 4 + (frame.getRawByte 3 <<< 8)))
    · rw [if_pos (hdec.mpr haddr)]
      exact ((hmid n (by omega) hn).2.2.2.2.2.2.1 h6 haddr).1
    · rw [if_neg (fun h => haddr (hdec.mp h))]
      exact ((hmid n (by omega) hn).2.2.2.2.2.2.2 h6 haddr).1
  · by_cases haddr : toWord (frame.getRawByte 2 + (frame.getRawByte 1 <<< 8)) ≠ d.physicalAddr
        ∧ d.subscribed (toWord (frame.getRawByte 4 + (frame.getRawByte 3 <<< 8)))
    · obtain ⟨hs, hr, -⟩ := rxFeed_end_addressed d frame.getRawByte m1 m2 hidle hbuf
        (getRawByte_lt frame) hctrl htime haddr frame (fun _ => rfl)
      exact ⟨hs, hr⟩
    · obtain ⟨hs, hr, -⟩ := rxFeed_end_notAddressed d frame.getRawByte m1 m2 hidle hbuf
        (getRawByte_lt frame) hctrl htime haddr
      exact ⟨hs, hr⟩

/-- Witness of claim C29: the frame of scenario S5 (`L = 1`, addressed) on the driver of
scenario S4: not idle after eight bytes, idle after the ninth. -/
theorem C29_finished_at_last_byte_witness :
    ((driverS4.rxFeed frameS5.getRawByte (fun _ => 0) (fun _ => 0) 8).rx.state
        ≠ .RX_IDLE_WAITING_FOR_CTRL_FIELD
      ∧ (driverS4.rxFeed frameS5.getRawByte (fun _ => 0) (fun _ => 0) 8).rx.readBytes = 8)
    ∧ (driverS4.rxFeed frameS5.getRawByte (fun _ => 0) (fun _ => 0)
        (8 + frameS5.getPayloadLength)).rx.state = .RX_IDLE_WAITING_FOR_CTRL_FIELD
    ∧ (driverS4.rxFeed frameS5.getRawByte (fun _ => 0) (fun _ => 0)
        (8 + frameS5.getPayloadLength)).rx.readBytes = 0 :=
  have h := C29_finished_at_last_byte driverS4 frameS5 (fun _ => 0) (fun _ => 0)
    (by decide) (by decide) (by decide)
    (fun _ _ => (by decide : TimeDeltaUnsignedLong 0 0 ≤ KNX_RX_TIMEOUT))
  ⟨h.2.1 8 (by decide) (by decide), h.2.2.2.2⟩

/-- The invariant of a reception in progress, for a driver in the state `RecvStarted`
taken by itself: the frame is what its telegram under assembly holds, followed by the
byte `b`. -/
theorem rxInv_self (d : KnxTpUart) (b : Nat)
    (hst : d.rx.state = .RX_KNX_TELEGRAM_RECEPTION_STARTED) (hbuf : d.serial.rxBuffer = [])
    (hn : d.rx.readBytes ≤ 5) :
    RxInv d (fun i => if i = d.rx.readBytes then b else d.statics.telegram.getRawByte i)
      .RX_KNX_TELEGRAM_RECEPTION_STARTED d.rx.readBytes d.rx.readBytes []
      d.statics.lastByteRxTimeMicrosec d :=
  { state := hst
    readBytes := rfl
    rxBuffer := hbuf
    written := (List.append_nil _).symm
    events := rfl
    receivedTelegram := rfl
    tx := rfl
    physicalAddr := rfl
    groupAddressList := rfl
    groupAddressListSize := rfl
    telegram := fun i hi => by
      show _ = if i = d.rx.readBytes then b else _
      rw [if_neg (by omega)]
    expected := fun h => by omega
    lastByte := rfl }

/-- Claim C28: in `RecvStarted`, with no end-of-packet timeout, the `rxTask()` call that
consumes the byte `b` at index 5 sets `expectedTelegramLength = (b & 0x0F) + 7` and
`readBytes = 6` and writes exactly one byte: `0x11`, going to `RecvAddressed`, if and only
if the buffered source address differs from the own physical address and the buffered
target address is among the first `_groupAddressListSize` entries of the group address
table; otherwise `0x10`, going to `RecvNotAddressed`. A call that consumes a byte at index
1..4 writes nothing, stays in `RecvStarted` and counts the byte. -/
theorem C28_ack_decision (d : KnxTpUart) (b m1 m2 : Nat)
    (hst : d.rx.state = .RX_KNX_TELEGRAM_RECEPTION_STARTED) (hbuf : d.serial.rxBuffer = [])
    (hb : b < 256)
    (hto : TimeDeltaUnsignedLong m1 d.statics.lastByteRxTimeMicrosec ≤ KNX_RX_TIMEOUT) :
    (d.rx.readBytes = 5 →
      ((d.receive b).rxTask m1 m2).statics.expectedTelegramLength
          = (b &&& KNX_PAYLOAD_LENGTH_MASK) + 7
      ∧ ((d.receive b).rxTask m1 m2).rx.readBytes = 6
      ∧ ((d.statics.telegram.getSourceAddress ≠ d.physicalAddr
            ∧ d.subscribed d.statics.telegram.getTargetAddress) →
          ((d.receive b).rxTask m1 m2).serial.written
              = d.serial.written ++ [TPUART_RX_ACK_SERVICE_ADDRESSED]
          ∧ ((d.receive b).rxTask m1 m2).rx.state = .RX_KNX_TELEGRAM_RECEPTION_ADDRESSED)
      ∧ (¬ (d.statics.telegram.getSourceAddress ≠ d.physicalAddr
            ∧ d.subscribed d.statics.telegram.getTargetAddress) →
          ((d.receive b).rxTask m1 m2).serial.written
              = d.serial.written ++ [TPUART_RX_ACK_SERVICE_NOT_ADDRESSED]
          ∧ ((d.receive b).rxTask m1 m2).rx.state
              = .RX_KNX_TELEGRAM_RECEPTION_NOT_ADDRESSED))
    ∧ (1 ≤ d.rx.readBytes → d.rx.readBytes ≤ 4 →
      ((d.receive b).rxTask m1 m2).serial.written = d.serial.written
      ∧ ((d.receive b).rxTask m1 m2).rx.state = .RX_KNX_TELEGRAM_RECEPTION_STARTED
      ∧ ((d.receive b).rxTask m1 m2).rx.readBytes = d.rx.readBytes + 1) := by
  refine ⟨fun h5 => ?_, fun h1 h4 => ?_⟩
  · have hinv := rxInv_self d b hst hbuf (by omega)
    rw [h5] at hinv
    have hack := rxInv_ack d d _ _ m1 m2 hinv (by simpa using hb) hto
    simp only [if_pos, (by decide : ¬ (2 = 5)), (by decide : ¬ (1 = 5)),
      (by decide : ¬ (4 = 5)), (by decide : ¬ (3 = 5)), if_false] at hack
    by_cases haddr : d.statics.telegram.getSourceAddress ≠ d.physicalAddr
          ∧ d.subscribed d.statics.telegram.getTargetAddress
    · have h := hack.1 haddr
      refine ⟨h.expected (Nat.le_refl _), h.readBytes, fun _ => ⟨h.written, h.state⟩,
        fun hna => absurd haddr hna⟩
    · have h := hack.2 haddr
      refine ⟨h.expected (Nat.le_refl _), h.readBytes, fun ha => absurd ha haddr,
        fun _ => ⟨h.written, h.state⟩⟩
  · have hinv := rxInv_self d b hst hbuf (by omega)
    have h := rxInv_started_step d d _ d.rx.readBytes _ m1 m2 hinv h4 (by simpa using hb) hto
    simp only [if_pos] at h
    exact ⟨by rw [h.written, List.append_nil], h.state, h.readBytes⟩

/-- Witness of claim C28: the driver of scenario S4 after five bytes of the frame of
scenario S4, given the routing byte `0xE1`. -/
theorem C28_ack_decision_witness :
    ((driverS4.rxFeed frameS4.getRawByte (fun _ => 0) (fun _ => 0) 5).receive 0xE1
        |>.rxTask 0 0).statics.expectedTelegramLength = (0xE1 &&& KNX_PAYLOAD_LENGTH_MASK) + 7
    ∧ ((driverS4.rxFeed frameS4.getRawByte (fun _ => 0) (fun _ => 0) 5).receive 0xE1
        |>.rxTask 0 0).rx.readBytes = 6 :=
  have h := (C28_ack_decision
    (driverS4.rxFeed frameS4.getRawByte (fun _ => 0) (fun _ => 0) 5) 0xE1 0 0
    (by decide) (by decide) (by decide) (by decide)).1 (by decide)
  ⟨h.1, h.2.1⟩

/-- Claim C30: whatever the RX state `rxTaskFinished` is called in, it leaves RX idle with
`readBytes = 0` and does not change the TX part. It emits `ReceptionError` (slot untouched)
when the state was `RecvStarted` or `RecvLengthInvalid`, and nothing when it was
`RecvNotAddressed`. In `RecvAddressed`, if the checksum of the telegram is correct, it
copies the telegram (its first `8 + len` bytes) into the received-telegram slot and then
emits `ReceivedTelegram`; if not, it emits `ReceptionError` and leaves the slot
untouched. -/
theorem C30_rxTaskFinished (d : KnxTpUart) (telegram : KnxTelegram) :
    (d.rxTaskFinished telegram).rx.state = .RX_IDLE_WAITING_FOR_CTRL_FIELD
    ∧ (d.rxTaskFinished telegram).rx.readBytes = 0
    ∧ (d.rxTaskFinished telegram).tx = d.tx
    ∧ (d.rxTaskFinished telegram).serial = d.serial
    ∧ (d.rx.state = .RX_KNX_TELEGRAM_RECEPTION_STARTED
        ∨ d.rx.state = .RX_KNX_TELEGRAM_RECEPTION_LENGTH_INVALID →
      (d.rxTaskFinished telegram).events
          = d.events ++ [(.TPUART_EVENT_KNX_TELEGRAM_RECEPTION_ERROR, d.rx.receivedTelegram)]
      ∧ (d.rxTaskFinished telegram).rx.receivedTelegram = d.rx.receivedTelegram)
    ∧ (d.rx.state = .RX_KNX_TELEGRAM_RECEPTION_NOT_ADDRESSED →
      (d.rxTaskFinished telegram).events = d.events
      ∧ (d.rxTaskFinished telegram).rx.receivedTelegram = d.rx.receivedTelegram)
    ∧ (d.rx.state = .RX_KNX_TELEGRAM_RECEPTION_ADDRESSED →
        telegram.isChecksumCorrect = true →
      (d.rxTaskFinished telegram).events
          = d.events ++ [(.TPUART_EVENT_RECEIVED_KNX_TELEGRAM,
              (d.rxTaskFinished telegram).rx.receivedTelegram)]
      ∧ ∀ i, (d.rxTaskFinished telegram).rx.receivedTelegram.getRawByte i
          = if i < 8 + telegram.getPayloadLength then telegram.getRawByte i
            else d.rx.receivedTelegram.getRawByte i)
    ∧ (d.rx.state = .RX_KNX_TELEGRAM_RECEPTION_ADDRESSED →
        telegram.isChecksumCorrect = false →
      (d.rxTaskFinished telegram).events
          = d.events ++ [(.TPUART_EVENT_KNX_TELEGRAM_RECEPTION_ERROR, d.rx.receivedTelegram)]
      ∧ (d.rxTaskFinished telegram).rx.receivedTelegram = d.rx.receivedTelegram) := by
  refine ⟨?_, ?_, ?_, ?_, ?_, ?_, ?_, ?_⟩
  · simp only [rxTaskFinished]
  · simp only [rxTaskFinished]
  · cases hs : d.rx.state <;> by_cases hc : telegram.isChecksumCorrect = true <;>
      simp [rxTaskFinished, evtCallbackFct, hs, hc]
  · cases hs : d.rx.state <;> by_cases hc : telegram.isChecksumCorrect = true <;>
      simp [rxTaskFinished, evtCallbackFct, hs, hc]
  · rintro (hs | hs) <;> simp [rxTaskFinished, evtCallbackFct, hs]
  · intro hs
    simp [rxTaskFinished, hs]
  · intro hs hc
    refine ⟨by simp [rxTaskFinished, evtCallbackFct, hs, hc], fun i => ?_⟩
    have : (d.rxTaskFinished telegram).rx.receivedTelegram
        = telegram.copy d.rx.receivedTelegram := by
      simp [rxTaskFinished, evtCallbackFct, hs, hc]
    rw [this, getRawByte_copy]
  · intro hs hc
    simp [rxTaskFinished, evtCallbackFct, hs, hc]

/-- Witness of claim C30: the driver of scenario S4 after eight bytes of the checked frame
(state `RecvAddressed`), finished with that frame. -/
theorem C30_rxTaskFinished_witness :
    ((driverS4.rxFeed frameS4Checked.getRawByte (fun _ => 0) (fun _ => 0) 8).rxTaskFinished
        frameS4Checked).rx.state = .RX_IDLE_WAITING_FOR_CTRL_FIELD
    ∧ ((driverS4.rxFeed frameS4Checked.getRawByte (fun _ => 0) (fun _ => 0) 8).rxTaskFinished
        frameS4Checked).events
      = (driverS4.rxFeed frameS4Checked.getRawByte (fun _ => 0) (fun _ => 0) 8).events
        ++ [(.TPUART_EVENT_RECEIVED_KNX_TELEGRAM,
            ((driverS4.rxFeed frameS4Checked.getRawByte (fun _ => 0) (fun _ => 0)
              8).rxTaskFinished frameS4Checked).rx.receivedTelegram)] :=
  have h := C30_rxTaskFinished
    (driverS4.rxFeed frameS4Checked.getRawByte (fun _ => 0) (fun _ => 0) 8) frameS4Checked
  ⟨h.1, (h.2.2.2.2.2.2.1 (by decide) (by decide)).1⟩

/-- Claim C25: while RX is not idle, `txTask()` writes no byte to the UART; when TX is in
the state `Sending` it changes nothing at all, so that the TX state, `bytesRemaining` and
`txByteIndex` are as before. -/
theorem C25_tx_rx_mutual_exclusion (d : KnxTpUart) (millis : Nat)
    (hrx : d.rx.state ≠ .RX_IDLE_WAITING_FOR_CTRL_FIELD) :
    (d.txTask millis).serial.written = d.serial.written
    ∧ (d.tx.state = .TX_TELEGRAM_SENDING_ONGOING →
        d.txTask millis = d
        ∧ (d.txTask millis).tx.state = .TX_TELEGRAM_SENDING_ONGOING
        ∧ (d.txTask millis).tx.bytesRemaining = d.tx.bytesRemaining
        ∧ (d.txTask millis).tx.txByteIndex = d.tx.txByteIndex) := by
  have hsend : d.tx.state = .TX_TELEGRAM_SENDING_ONGOING → d.txTask millis = d := by
    intro hs
    simp [txTask, hs, hrx]
  refine ⟨?_, fun hs => ?_⟩
  · cases hs : d.tx.state
    case TX_TELEGRAM_SENDING_ONGOING => rw [hsend hs]
    case TX_WAITING_ACK =>
      simp only [txTask, hs]
      split <;> rfl
    all_goals simp [txTask, hs]
  · rw [hsend hs]
    exact ⟨rfl, hs, rfl, rfl⟩

/-- Witness of claim C25: the driver of scenario S4 after three bytes of a frame, with a
telegram handed to `sendTelegram`. -/
theorem C25_tx_rx_mutual_exclusion_witness :
    (((driverS4.rxFeed frameS4.getRawByte (fun _ => 0) (fun _ => 0) 3).sendTelegram
        frameS4).2.2.txTask 0).serial.written
      = ((driverS4.rxFeed frameS4.getRawByte (fun _ => 0) (fun _ => 0) 3).sendTelegram
        frameS4).2.2.serial.written
    ∧ (((driverS4.rxFeed frameS4.getRawByte (fun _ => 0) (fun _ => 0) 3).sendTelegram
        frameS4).2.2.txTask 0).tx.bytesRemaining
      = ((driverS4.rxFeed frameS4.getRawByte (fun _ => 0) (fun _ => 0) 3).sendTelegram
        frameS4).2.2.tx.bytesRemaining :=
  have h := C25_tx_rx_mutual_exclusion
    ((driverS4.rxFeed frameS4.getRawByte (fun _ => 0) (fun _ => 0) 3).sendTelegram
      frameS4).2.2 0 (by decide)
  ⟨h.1, (h.2 (by decide)).2.2.1⟩

/-- Claim C27: for every telegram `t` and every driver, whose physical address `p` is a
16-bit word, `sendTelegram(t)` returns OK, makes the source address of `t` equal to `p`,
leaves `t` with a correct checksum and with every byte other than 1, 2 and `7 + len` as it
was, sets `bytesRemaining = 8 + len` and `txByteIndex = 0`, moves TX to `Sending`, keeps
the pointer to `t`, and changes nothing else of the driver: nothing is written to the
UART. -/
theorem C27_sendTelegram (d : KnxTpUart) (t : KnxTelegram) (hp : d.physicalAddr < 65536) :
    (d.sendTelegram t).1 = KNX_TPUART_OK
    ∧ (d.sendTelegram t).2.1.getSourceAddress = d.physicalAddr
    ∧ (d.sendTelegram t).2.1.isChecksumCorrect = true
    ∧ (d.sendTelegram t).2.1.getPayloadLength = t.getPayloadLength
    ∧ (∀ i, i ≠ 1 → i ≠ 2 → i ≠ 7 + t.getPayloadLength →
        (d.sendTelegram t).2.1.getRawByte i = t.getRawByte i)
    ∧ (d.sendTelegram t).2.2.tx.bytesRemaining = 8 + t.getPayloadLength
    ∧ (d.sendTelegram t).2.2.tx.txByteIndex = 0
    ∧ (d.sendTelegram t).2.2.tx.state = .TX_TELEGRAM_SENDING_ONGOING
    ∧ (d.sendTelegram t).2.2.tx.sentTelegram = some (d.sendTelegram t).2.1
    ∧ (d.sendTelegram t).2.2.serial = d.serial
    ∧ (d.sendTelegram t).2.2.rx = d.rx
    ∧ (d.sendTelegram t).2.2.events = d.events := by
  have hlen1 : (t.setSourceAddress d.physicalAddr).getPayloadLength = t.getPayloadLength := by
    apply getPayloadLength_congr
    rw [getRawByte_setSourceAddress]
    simp
  have hlen : (d.sendTelegram t).2.1.getPayloadLength = t.getPayloadLength := by
    show ((t.setSourceAddress d.physicalAddr).updateChecksum).getPayloadLength = _
    rw [getPayloadLength_updateChecksum, hlen1]
  have hbyte : ∀ i, (d.sendTelegram t).2.1.getRawByte i
      = if i = 7 + t.getPayloadLength then (t.setSourceAddress d.physicalAddr).calculateChecksum
        else if i = 1 then (toWord d.physicalAddr >>> 8) % 256
        else if i = 2 then toWord d.physicalAddr % 256 else t.getRawByte i := by
    intro i
    show ((t.setSourceAddress d.physicalAddr).updateChecksum).getRawByte i = _
    rw [getRawByte_updateChecksum, hlen1, getRawByte_setSourceAddress]
  refine ⟨rfl, ?_, ?_, hlen, ?_, ?_, rfl, rfl, rfl, rfl, rfl, rfl⟩
  · have h1 : (d.sendTelegram t).2.1.getRawByte 1 = (toWord d.physicalAddr >>> 8) % 256 := by
      rw [hbyte 1, if_neg (by omega), if_pos rfl]
    have h2 : (d.sendTelegram t).2.1.getRawByte 2 = toWord d.physicalAddr % 256 := by
      rw [hbyte 2, if_neg (by omega), if_neg (by decide), if_pos rfl]
    rw [getSourceAddress_eq, h1, h2]
    simp only [toWord, Nat.shiftRight_eq_div_pow, Nat.shiftLeft_eq]
    omega
  · show ((t.setSourceAddress d.physicalAddr).updateChecksum).isChecksumCorrect = true
    unfold isChecksumCorrect
    rw [getChecksum_eq, getRawByte_updateChecksum, getPayloadLength_updateChecksum,
      if_pos rfl, calculateChecksum_updateChecksum]
    simp
  · intro i h1 h2 h7
    rw [hbyte i, if_neg h7, if_neg h1, if_neg h2]
  · show ((t.setSourceAddress d.physicalAddr).updateChecksum).getTelegramLength = _
    rw [getTelegramLength_eq, getPayloadLength_updateChecksum, hlen1]

/-- Witness of claim C27: the driver of scenario S4 and the telegram of
`groupWriteBool(false, 0x1701, true)`. -/
theorem C27_sendTelegram_witness :
    (driverS4.sendTelegram (TxTelegram.groupWriteBool false 0x1701 true)).2.1.getSourceAddress
      = driverS4.physicalAddr
    ∧ (driverS4.sendTelegram (TxTelegram.groupWriteBool false 0x1701 true)).2.1.isChecksumCorrect
      = true
    ∧ (driverS4.sendTelegram (TxTelegram.groupWriteBool false 0x1701 true)).2.2.tx.bytesRemaining
      = 8 + (TxTelegram.groupWriteBool false 0x1701 true).getPayloadLength :=
  have h := C27_sendTelegram driverS4 (TxTelegram.groupWriteBool false 0x1701 true)
    (by decide)
  ⟨h.2.1, h.2.2.1, h.2.2.2.2.2.1⟩

end KnxTpUart

/-! ## The callback of the orchestrator -/

namespace SimpleKnx_
open KnxTelegram KnxTpUart

theorem deviceFeed_succ (w : Surroundings) (s : SimpleKnx_) (f m1 m2 : Nat → Nat) (n : Nat) :
    s.rxFeed w f m1 m2 (n + 1)
      = rxTaskCall w (s.rxFeed w f m1 m2 n) ⟨[f n], m1 n, m2 n⟩ := rfl

/-- One `rxTask()` call of `task()` that emits no event only changes the driver. -/
theorem rxTaskCall_of_no_event (w : Surroundings) (s : SimpleKnx_) (b m1 m2 : Nat)
    (h : ((s.tpuart.receive b).rxTask m1 m2).events = s.tpuart.events) :
    rxTaskCall w s ⟨[b], m1, m2⟩ = { s with tpuart := (s.tpuart.receive b).rxTask m1 m2 } := by
  have hlen : (s.tpuart.receive b).events.length = s.tpuart.events.length := rfl
  simp only [rxTaskCall, List.foldl_cons, List.foldl_nil, h, hlen, List.drop_length]

/-- One `rxTask()` call of `task()` that emits one event runs the callback once. -/
theorem rxTaskCall_of_event (w : Surroundings) (s : SimpleKnx_) (b m1 m2 : Nat)
    (e : KnxTpUartEvent × KnxTelegram)
    (h : ((s.tpuart.receive b).rxTask m1 m2).events = s.tpuart.events ++ [e]) :
    rxTaskCall w s ⟨[b], m1, m2⟩
      = getTpUartEvents w { s with tpuart := (s.tpuart.receive b).rxTask m1 m2 } e := by
  have hlen : (s.tpuart.receive b).events.length = s.tpuart.events.length := rfl
  simp only [rxTaskCall, List.foldl_cons, List.foldl_nil, h, hlen, List.drop_left]

/-- While a frame is being received the callback does not run: the device is as before,
apart from its driver. -/
theorem deviceFeed_mid (w : Surroundings) (s : SimpleKnx_) (f m1 m2 : Nat → Nat)
    (hidle : s.tpuart.rx.state = .RX_IDLE_WAITING_FOR_CTRL_FIELD)
    (hbuf : s.tpuart.serial.rxBuffer = [])
    (hf : ∀ i, f i < 256) (hctrl : f 0 &&& 0xD3 = 0x90)
    (htime : noEopTimeout m1 m2 (8 + (f 5 &&& 0x0F)))
    (n : Nat) (hn : n < 8 + (f 5 &&& 0x0F)) :
    s.rxFeed w f m1 m2 n = { s with tpuart := s.tpuart.rxFeed f m1 m2 n } := by
  induction n with
  | zero => rfl
  | succ n ih =>
    have hev : (s.tpuart.rxFeed f m1 m2 n).events = s.tpuart.events := by
      rcases Nat.eq_zero_or_pos n with rfl | hpos
      · rfl
      · exact (KnxTpUart.rxFeed_mid s.tpuart f m1 m2 hidle hbuf hf hctrl htime n hpos
          (by omega)).2.2.1
    have hev1 := (KnxTpUart.rxFeed_mid s.tpuart f m1 m2 hidle hbuf hf hctrl htime (n + 1)
      (by omega) hn).2.2.1
    rw [deviceFeed_succ, ih (by omega), rxTaskCall_of_no_event]
    · rfl
    · show (s.tpuart.rxFeed f m1 m2 (n + 1)).events = (s.tpuart.rxFeed f m1 m2 n).events
      rw [hev1, hev]

/-- The device after the last byte of a frame: the callback has run for the one event of
the last call, if there is one. -/
theorem deviceFeed_end (w : Surroundings) (s : SimpleKnx_) (f m1 m2 : Nat → Nat)
    (hidle : s.tpuart.rx.state = .RX_IDLE_WAITING_FOR_CTRL_FIELD)
    (hbuf : s.tpuart.serial.rxBuffer = [])
    (hf : ∀ i, f i < 256) (hctrl : f 0 &&& 0xD3 = 0x90)
    (htime : noEopTimeout m1 m2 (8 + (f 5 &&& 0x0F))) :
    (∀ e, (s.tpuart.rxFeed f m1 m2 (8 + (f 5 &&& 0x0F))).events = s.tpuart.events ++ [e] →
      s.rxFeed w f m1 m2 (8 + (f 5 &&& 0x0F))
        = getTpUartEvents w
            { s with tpuart := s.tpuart.rxFeed f m1 m2 (8 + (f 5 &&& 0x0F)) } e)
    ∧ ((s.tpuart.rxFeed f m1 m2 (8 + (f 5 &&& 0x0F))).events = s.tpuart.events →
      s.rxFeed w f m1 m2 (8 + (f 5 &&& 0x0F))
        = { s with tpuart := s.tpuart.rxFeed f m1 m2 (8 + (f 5 &&& 0x0F)) }) := by
  have hmid := deviceFeed_mid w s f m1 m2 hidle hbuf hf hctrl htime (7 + (f 5 &&& 0x0F))
    (by omega)
  have hev := (KnxTpUart.rxFeed_mid s.tpuart f m1 m2 hidle hbuf hf hctrl htime
    (7 + (f 5 &&& 0x0F)) (by omega) (by omega)).2.2.1
  have e8 : 8 + (f 5 &&& 0x0F) = (7 + (f 5 &&& 0x0F)) + 1 := by omega
  rw [e8]
  refine ⟨fun e he => ?_, fun he => ?_⟩
  · rw [deviceFeed_succ, hmid, rxTaskCall_of_event w _ _ _ _ e]
    · rfl
    · show (s.tpuart.rxFeed f m1 m2 (7 + (f 5 &&& 0x0F) + 1)).events
        = (s.tpuart.rxFeed f m1 m2 (7 + (f 5 &&& 0x0F))).events ++ [e]
      rw [he, hev]
  · rw [deviceFeed_succ, hmid, rxTaskCall_of_no_event]
    · rfl
    · show (s.tpuart.rxFeed f m1 m2 (7 + (f 5 &&& 0x0F) + 1)).events
        = (s.tpuart.rxFeed f m1 m2 (7 + (f 5 &&& 0x0F))).events
      rw [he, hev]

/-- Claim C22 fails as stated: the checksum byte of `BC 00 01 17 01 E1 00 81` is `0x34`,
not `0xCC`. Fed to the device of scenario S4, the frame `BC 00 01 17 01 E1 00 81 CC` is
acknowledged with `0x11` but then yields a `ReceptionError` event, and the host function
is not called. -/
theorem C22_counterexample :
    frameS4.getRawByte 8 = 0xCC
    ∧ frameS4.calculateChecksum = 0x34
    ∧ (deviceS4.rxFeed surroundingsS4 frameS4.getRawByte (fun _ => 0) (fun _ => 0)
        9).tpuart.serial.written = [0x11]
    ∧ (deviceS4.rxFeed surroundingsS4 frameS4.getRawByte (fun _ => 0) (fun _ => 0)
        9).tpuart.events.map Prod.fst = [.TPUART_EVENT_KNX_TELEGRAM_RECEPTION_ERROR]
    ∧ (deviceS4.rxFeed surroundingsS4 frameS4.getRawByte (fun _ => 0) (fun _ => 0)
        9).hostCalls.length = 0 := by
  decide

/-- Claim C22, amended: on a device with own address `0x110C` subscribed to `0x1701`, RX
idle and nothing waiting in the UART, delivering the bytes `BC 00 01 17 01 E1 00 81 34`
one per `rxTask()` call with no end-of-packet timeout in between: nothing has been written
after any of the first five calls, exactly `0x11` has been written after the sixth and
every later call, the host function has not been called before the ninth call, and the
ninth call makes the driver emit `ReceivedTelegram` and the callback hand the host function
one telegram, which has target `0x1701` and `getBool() = true`. -/
theorem C22_scenario_S4 (w : Surroundings) (s : SimpleKnx_) (m1 m2 : Nat → Nat)
    (hpa : s.tpuart.physicalAddr = 0x110C) (hsub : s.tpuart.subscribed 0x1701)
    (hidle : s.tpuart.rx.state = .RX_IDLE_WAITING_FOR_CTRL_FIELD)
    (hbuf : s.tpuart.serial.rxBuffer = [])
    (htime : noEopTimeout m1 m2 9) :
    (List.range 9).map frameS4Checked.getRawByte
        = [0xBC, 0x00, 0x01, 0x17, 0x01, 0xE1, 0x00, 0x81, 0x34]
    ∧ (∀ n, n ≤ 5 →
        (s.rxFeed w frameS4Checked.getRawByte m1 m2 n).tpuart.serial.written
          = s.tpuart.serial.written)
    ∧ (∀ n, 6 ≤ n → n ≤ 9 →
        (s.rxFeed w frameS4Checked.getRawByte m1 m2 n).tpuart.serial.written
          = s.tpuart.serial.written ++ [0x11])
    ∧ (∀ n, n < 9 →
        (s.rxFeed w frameS4Checked.getRawByte m1 m2 n).hostCalls = s.hostCalls
        ∧ (s.rxFeed w frameS4Checked.getRawByte m1 m2 n).tpuart.events = s.tpuart.events)
    ∧ ∃ t : KnxTelegram,
        (s.rxFeed w frameS4Checked.getRawByte m1 m2 9).tpuart.events
          = s.tpuart.events ++ [(.TPUART_EVENT_RECEIVED_KNX_TELEGRAM, t)]
        ∧ (s.rxFeed w frameS4Checked.getRawByte m1 m2 9).hostCalls = s.hostCalls ++ [t]
        ∧ t.getTargetAddress = 0x1701
        ∧ t.getBool = true := by
  have hf := getRawByte_lt frameS4Checked
  have hctrl : frameS4Checked.getRawByte 0 &&& 0xD3 = 0x90 := by decide
  have hL : 8 + (frameS4Checked.getRawByte 5 &&& 0x0F) = 9 := by decide
  have htime2 : noEopTimeout m1 m2 (8 + (frameS4Checked.getRawByte 5 &&& 0x0F)) := by
    rw [hL]; exact htime
  have haddr : toWord (frameS4Checked.getRawByte 2 + (frameS4Checked.getRawByte 1 <<< 8))
        ≠ s.tpuart.physicalAddr
      ∧ s.tpuart.subscribed
          (toWord (frameS4Checked.getRawByte 4 + (frameS4Checked.getRawByte 3 <<< 8))) := by
    refine ⟨?_, hsub⟩
    rw [hpa]; decide
  have hmidD := KnxTpUart.rxFeed_mid s.tpuart frameS4Checked.getRawByte m1 m2 hidle hbuf hf
    hctrl htime2
  have hmid := deviceFeed_mid w s frameS4Checked.getRawByte m1 m2 hidle hbuf hf hctrl htime2
  obtain ⟨-, -, hw, -, hok, -⟩ := rxFeed_end_addressed s.tpuart frameS4Checked.getRawByte
    m1 m2 hidle hbuf hf hctrl htime2 haddr frameS4Checked (fun _ => rfl)
  obtain ⟨hev, hslot⟩ := hok (by decide)
  have hend := (deviceFeed_end w s frameS4Checked.getRawByte m1 m2 hidle hbuf hf hctrl htime2).1
    _ hev
  rw [hL] at hmidD hmid hw hev hslot hend
  have hdrv : (s.rxFeed w frameS4Checked.getRawByte m1 m2 9).tpuart
      = s.tpuart.rxFeed frameS4Checked.getRawByte m1 m2 9 := by
    rw [hend]; rfl
  refine ⟨by decide, fun n hn => ?_, fun n h6 hn => ?_, fun n hn => ?_,
    (s.tpuart.rxFeed frameS4Checked.getRawByte m1 m2 9).rx.receivedTelegram, ?_, ?_, ?_, ?_⟩
  · rw [hmid n (by omega)]
    rcases Nat.eq_zero_or_pos n with rfl | hpos
    · rfl
    · exact ((hmidD n hpos (by omega)).2.2.2.2.2.1 hn).2
  · rcases Nat.lt_or_ge n 9 with hlt | hge
    · rw [hmid n hlt]
      exact ((hmidD n (by omega) hlt).2.2.2.2.2.2.1 h6 haddr).2
    · have h9 : n = 9 := by omega
      rw [h9, hdrv]; exact hw
  · rw [hmid n hn]
    refine ⟨rfl, ?_⟩
    rcases Nat.eq_zero_or_pos n with rfl | hpos
    · rfl
    · exact (hmidD n hpos hn).2.2.1
  · rw [hdrv]; exact hev
  · rw [hend]; rfl
  · rw [getTargetAddress_eq, hslot 4, hslot 3, if_pos (by decide), if_pos (by decide)]
    decide
  · unfold getBool commandL
    rw [getPayloadLength_eq, hslot 5, hslot 7, if_pos (by decide : 5 < 9),
      if_pos (by decide : 7 < 9)]
    decide

/-- Witness of the amended claim C22: the device of scenario S4 with a host function that
sends nothing. -/
theorem C22_scenario_S4_witness :
    ∃ t : KnxTelegram,
      (deviceS4.rxFeed surroundingsS4 frameS4Checked.getRawByte (fun _ => 0) (fun _ => 0)
        9).tpuart.events
          = deviceS4.tpuart.events ++ [(.TPUART_EVENT_RECEIVED_KNX_TELEGRAM, t)]
      ∧ (deviceS4.rxFeed surroundingsS4 frameS4Checked.getRawByte (fun _ => 0) (fun _ => 0)
        9).hostCalls = deviceS4.hostCalls ++ [t]
      ∧ t.getTargetAddress = 0x1701
      ∧ t.getBool = true :=
  (C22_scenario_S4 surroundingsS4 deviceS4 (fun _ => 0) (fun _ => 0) (by decide)
    ⟨0, by decide, by decide⟩ (by decide) (by decide)
    (fun _ _ => (by decide : TimeDeltaUnsignedLong 0 0 ≤ KNX_RX_TIMEOUT))).2.2.2.2

end SimpleKnx_

/-! ## Transmission and the outbound queue -/

namespace KnxTpUart
open KnxTelegram

/-- The loop of `txTask` from byte index `k` on, with `n` bytes remaining. -/
theorem txTaskLoop_eq (t : KnxTelegram) (n : Nat) (d : KnxTpUart) (k : Nat)
    (ht : d.tx.sentTelegram = some t) (hn : d.tx.bytesRemaining = n)
    (hk : d.tx.txByteIndex = k) (hkn : k + n ≤ 23) :
    txTaskLoop n d
      = { d with
          serial := { d.serial with
            written := d.serial.written ++ (List.range n).flatMap (fun j =>
              [(if k + j + 1 = k + n then TPUART_DATA_END_REQ
                  else TPUART_DATA_START_CONTINUE_REQ) ||| (k + j),
                t.getRawByte (k + j)]) }
          tx := { d.tx with txByteIndex := k + n, bytesRemaining := 0 } } := by
  induction n generalizing d k with
  | zero =>
    cases d with
    | mk serial rx tx events physicalAddr groupAddressList groupAddressListSize statics =>
      cases tx with
      | mk state sentTelegram bytesRemaining txByteIndex =>
        cases serial
        simp only at hn hk
        subst hn hk
        simp [txTaskLoop]
  | succ n ih =>
    have hflag : ∀ i < 23, (0x80 + i) % 256 = 0x80 ||| i ∧ (0x40 + i) % 256 = 0x40 ||| i := by
      decide
    have hk23 : k < 23 := by omega
    rw [txTaskLoop, if_pos (by omega)]
    simp only []
    refine (ih _ (k + 1) ?_ ?_ ?_ ?_).trans ?_
    · exact ht
    · show d.tx.bytesRemaining - 1 = n
      omega
    · show (toByte (d.tx.txByteIndex + 1)).val = k + 1
      rw [hk]
      exact Nat.mod_eq_of_lt (by omega)
    · omega
    rw [List.range_succ_eq_map, List.flatMap_cons, List.flatMap_map]
    simp only [ht, hn, hk, toByte, TPUART_DATA_END_REQ, TPUART_DATA_START_CONTINUE_REQ,
      List.append_assoc, Nat.add_zero, Function.comp]
    have e1 : ∀ j, k + 1 + j = k + (j + 1) := fun j => by omega
    have e2 : k + 1 + n = k + (n + 1) := by omega
    simp only [e1, e2, Nat.succ_eq_add_one]
    by_cases h1 : n + 1 = 1
    · have h0 : n = 0 := by omega
      subst h0
      simp [(hflag k hk23).2]
    · have hne : ¬ (k + 1 = k + (n + 1)) := by omega
      have hn0 : ¬ (n = 0) := by omega
      simp [h1, hne, hn0, (hflag k hk23).1]

theorem getTelegramLength_le (t : KnxTelegram) : t.getTelegramLength ≤ 23 := by
  have := getPayloadLength_lt t
  rw [getTelegramLength_eq]
  omega

theorem txTask_sending (d : KnxTpUart) (millis : Nat)
    (hs : d.tx.state = .TX_TELEGRAM_SENDING_ONGOING)
    (hrx : d.rx.state = .RX_IDLE_WAITING_FOR_CTRL_FIELD) :
    d.txTask millis
      = { txTaskLoop d.tx.bytesRemaining d with
          statics := { (txTaskLoop d.tx.bytesRemaining d).statics with
            sentMessageTimeMillisec := toWord millis }
          tx := { (txTaskLoop d.tx.bytesRemaining d).tx with state := .TX_WAITING_ACK } } := by
  unfold txTask
  rw [hs]
  simp only [hrx, beq_self_eq_true, if_true]

/-- The call of `txTask()` that follows `sendTelegram(t)` while RX is idle writes the
whole telegram and then waits for the confirmation. -/
theorem txTask_sendTelegram (d : KnxTpUart) (t : KnxTelegram) (millis : Nat)
    (hrx : d.rx.state = .RX_IDLE_WAITING_FOR_CTRL_FIELD) :
    ((d.sendTelegram t).2.2.txTask millis).serial.written
        = d.serial.written ++ uartFrame (d.sendTelegram t).2.1
    ∧ ((d.sendTelegram t).2.2.txTask millis).serial.rxBuffer = d.serial.rxBuffer
    ∧ ((d.sendTelegram t).2.2.txTask millis).tx.state = .TX_WAITING_ACK
    ∧ ((d.sendTelegram t).2.2.txTask millis).rx = d.rx
    ∧ ((d.sendTelegram t).2.2.txTask millis).events = d.events
    ∧ ((d.sendTelegram t).2.2.txTask millis).physicalAddr = d.physicalAddr := by
  have hloop := txTaskLoop_eq (d.sendTelegram t).2.1 (d.sendTelegram t).2.1.getTelegramLength
    (d.sendTelegram t).2.2 0 rfl rfl rfl (by have := getTelegramLength_le (d.sendTelegram t).2.1; omega)
  have htask : (d.sendTelegram t).2.2.txTask millis
      = { txTaskLoop (d.sendTelegram t).2.1.getTelegramLength (d.sendTelegram t).2.2 with
          statics := { (txTaskLoop (d.sendTelegram t).2.1.getTelegramLength
                    (d.sendTelegram t).2.2).statics with sentMessageTimeMillisec := toWord millis }
          tx := { (txTaskLoop (d.sendTelegram t).2.1.getTelegramLength
                    (d.sendTelegram t).2.2).tx with state := .TX_WAITING_ACK } } :=
    txTask_sending (d.sendTelegram t).2.2 millis rfl hrx
  rw [htask, hloop]
  refine ⟨?_, rfl, rfl, rfl, rfl, rfl⟩
  simp only [uartFrame, Nat.zero_add]
  rfl

end KnxTpUart

namespace SimpleKnx_
open KnxTelegram KnxTpUart

/-- STEP 2 of a pass hands the oldest queued telegram to `sendTelegram` when the driver is
free to send. -/
theorem taskStep2_send (s : SimpleKnx_) (t : KnxTelegram) (rest : List KnxTelegram)
    (hfree : s.tpuart.isFreeToSend = true) (hq : s.txActionList.items = t :: rest) :
    taskStep2 s
      = { s with
          txActionList := ⟨rest⟩
          txTelegram := (s.tpuart.sendTelegram t).2.1
          tpuart := (s.tpuart.sendTelegram t).2.2 } := by
  simp only [taskStep2, hfree, if_true, RingBuff.pop, hq]

/-- STEP 2 of a pass does nothing while the driver is not free to send. -/
theorem taskStep2_of_not_free (s : SimpleKnx_) (hfree : s.tpuart.isFreeToSend = false) :
    taskStep2 s = s := by
  simp [taskStep2, hfree]

/-- STEP 2 of a pass does nothing when the queue is empty. -/
theorem taskStep2_of_empty (s : SimpleKnx_) (hq : s.txActionList.items = []) :
    taskStep2 s = s := by
  simp only [taskStep2, RingBuff.pop, hq]
  split <;> rfl

end SimpleKnx_

namespace KnxTpUart
open KnxTelegram

theorem isFreeToSend_iff (d : KnxTpUart) :
    d.isFreeToSend = true
      ↔ d.rx.state = .RX_IDLE_WAITING_FOR_CTRL_FIELD ∧ d.tx.state = .TX_IDLE := by
  simp [isFreeToSend]

end KnxTpUart

namespace SimpleKnx_
open KnxTelegram KnxTpUart

end SimpleKnx_

/-! ## Confirmations, timeouts and `init()` -/

namespace KnxTpUart
open KnxTelegram

/-- Claim C35: `init()` returns OK exactly when RX and TX are both in their init state
beforehand; it then sets RX to `IdleWaitingCtrl` and TX to `Idle` and changes nothing else.
In every other combination of states it returns the not-in-init-state error, which is 254,
and leaves the driver as it was. -/
theorem C35_init (d : KnxTpUart) :
    (d.init.1 = KNX_TPUART_OK ↔ (d.rx.state = .RX_INIT ∧ d.tx.state = .TX_INIT))
    ∧ ((d.rx.state = .RX_INIT ∧ d.tx.state = .TX_INIT) →
        d.init.2.rx.state = .RX_IDLE_WAITING_FOR_CTRL_FIELD
        ∧ d.init.2.tx.state = .TX_IDLE
        ∧ d.init.2
            = { d with rx := { d.rx with state := .RX_IDLE_WAITING_FOR_CTRL_FIELD }
                       tx := { d.tx with state := .TX_IDLE } })
    ∧ (¬ (d.rx.state = .RX_INIT ∧ d.tx.state = .TX_INIT) →
        d.init.1 = KNX_TPUART_ERROR_NOT_INIT_STATE ∧ d.init.2 = d)
    ∧ KNX_TPUART_ERROR_NOT_INIT_STATE = 254 := by
  by_cases h : d.rx.state = .RX_INIT ∧ d.tx.state = .TX_INIT
  · have hi : d.init = (KNX_TPUART_OK,
        { d with rx := { d.rx with state := .RX_IDLE_WAITING_FOR_CTRL_FIELD }
                 tx := { d.tx with state := .TX_IDLE } }) := by
      simp [init, h.1, h.2]
    rw [hi]
    exact ⟨⟨fun _ => h, fun _ => rfl⟩, fun _ => ⟨rfl, rfl, rfl⟩, fun hn => absurd h hn, rfl⟩
  · have hi : d.init = (KNX_TPUART_ERROR_NOT_INIT_STATE, d) := by
      unfold init
      rw [if_pos]
      simp only [Bool.or_eq_true, bne_iff_ne, ne_eq]
      by_cases h1 : d.rx.state = .RX_INIT
      · exact Or.inr (fun h2 => h ⟨h1, h2⟩)
      · exact Or.inl h1
    rw [hi]
    exact ⟨⟨fun h0 => absurd h0 (by decide : ¬ KNX_TPUART_ERROR_NOT_INIT_STATE = KNX_TPUART_OK), fun hh => absurd hh h⟩, fun hh => absurd hh h,
      fun _ => ⟨rfl, rfl⟩, rfl⟩

/-- Witness of claim C35: the driver of scenario S1, fresh from its constructor, is not in
the init state. -/
theorem C35_init_witness :
    driverS1.init.1 = KNX_TPUART_ERROR_NOT_INIT_STATE ∧ driverS1.init.2 = driverS1 :=
  (C35_init driverS1).2.2.1 (by decide)

/-- Claim C31: with RX idle, a `rxTask()` call that reads the byte `0x8B`
(`DataConfirmSuccess`) or `0x0B` (`DataConfirmFailed`) at no end-of-packet timeout to
handle makes TX idle when TX was waiting for the confirmation and leaves the TX state as
it was otherwise; in both cases the rest of TX and all of RX are unchanged, no event is
emitted and nothing is written to the UART. The two bytes have the same effect. -/
theorem C31_data_confirm (d : KnxTpUart) (b : Nat) (rest : List Nat) (m1 m2 : Nat)
    (hrx : d.rx.state = .RX_IDLE_WAITING_FOR_CTRL_FIELD)
    (hbuf : d.serial.rxBuffer = b :: rest)
    (hb : b = TPUART_DATA_CONFIRM_SUCCESS ∨ b = TPUART_DATA_CONFIRM_FAILED) :
    (d.rxTask m1 m2).tx
        = { d.tx with
            state := if d.tx.state = .TX_WAITING_ACK then .TX_IDLE else d.tx.state }
    ∧ (d.rxTask m1 m2).rx = d.rx
    ∧ (d.rxTask m1 m2).events = d.events
    ∧ (d.rxTask m1 m2).serial.written = d.serial.written
    ∧ (d.rxTask m1 m2).serial.rxBuffer = rest
    ∧ TPUART_DATA_CONFIRM_SUCCESS = 0x8B ∧ TPUART_DATA_CONFIRM_FAILED = 0x0B := by
  have h8 : (toByte 139).val = 139 := by decide
  have hB : (toByte 11).val = 11 := by decide
  have hp8 : ¬ ((139 &&& KNX_CONTROL_FIELD_PATTERN_MASK) = KNX_CONTROL_FIELD_VALID_PATTERN) := by
    decide
  have hpB : ¬ ((11 &&& KNX_CONTROL_FIELD_PATTERN_MASK) = KNX_CONTROL_FIELD_VALID_PATTERN) := by
    decide
  have hsB : ¬ ((11 &&& TPUART_STATE_INDICATION_MASK) = TPUART_STATE_INDICATION) := by
    decide
  refine ⟨?_, ?_, ?_, ?_, ?_, rfl, rfl⟩ <;>
  · rcases hb with rfl | rfl <;> by_cases htx : d.tx.state = .TX_WAITING_ACK <;>
      simp [rxTask, rxTaskByte, hrx, hbuf, h8, hB, hp8, hpB, hsB, htx, TpUartRxState.val,
        TPUART_DATA_CONFIRM_SUCCESS, TPUART_DATA_CONFIRM_FAILED, TPUART_RESET_INDICATION]

/-- Witness of claim C31: the driver of scenario S4 while it waits for the confirmation of
a telegram, with `0x0B` waiting in the UART. -/
theorem C31_data_confirm_witness :
    ((((driverS4.sendTelegram frameS4).2.2.txTask 0).receive 0x0B).rxTask 0 0).tx
      = { (((driverS4.sendTelegram frameS4).2.2.txTask 0).receive 0x0B).tx with
          state :=
            if (((driverS4.sendTelegram frameS4).2.2.txTask 0).receive 0x0B).tx.state
                = .TX_WAITING_ACK
            then .TX_IDLE
            else (((driverS4.sendTelegram frameS4).2.2.txTask 0).receive 0x0B).tx.state } :=
  (C31_data_confirm (((driverS4.sendTelegram frameS4).2.2.txTask 0).receive 0x0B) 0x0B [] 0 0
    (by decide) (by decide) (Or.inr rfl)).1

/-- Claim C34: with TX waiting for the confirmation, `txTask()` makes TX idle exactly when
the 16-bit difference `(now - sendTime) mod 2^16` of the millisecond values is greater than
500, and otherwise leaves the TX state as it was; it changes nothing else, so nothing is
written to the UART and RX is untouched. When the send time is the 16-bit value of a
millisecond clock reading `sent` and the clock now reads `sent + elapsed` with
`elapsed < 2^16`, the difference is `elapsed`, whether or not the 16-bit value wrapped in
between. -/
theorem C34_ack_timeout (d : KnxTpUart) (millis : Nat)
    (htx : d.tx.state = .TX_WAITING_ACK) :
    (d.txTask millis).tx.state
        = (if (millis % 65536 + 65536 - d.statics.sentMessageTimeMillisec % 65536) % 65536 > 500
            then .TX_IDLE else .TX_WAITING_ACK)
    ∧ d.txTask millis = { d with tx := { d.tx with state := (d.txTask millis).tx.state } }
    ∧ (d.txTask millis).serial.written = d.serial.written
    ∧ (d.txTask millis).rx.state = d.rx.state
    ∧ (∀ sent elapsed, d.statics.sentMessageTimeMillisec = toWord sent →
        millis = sent + elapsed → elapsed < 65536 →
        ((d.txTask millis).tx.state = .TX_IDLE ↔ elapsed > 500)) := by
  have hdelta : TimeDeltaWord (toWord millis) d.statics.sentMessageTimeMillisec
      = (millis % 65536 + 65536 - d.statics.sentMessageTimeMillisec % 65536) % 65536 := by
    simp only [TimeDeltaWord, toWord, Nat.mod_mod]
  have hstate : (d.txTask millis).tx.state
      = (if (millis % 65536 + 65536 - d.statics.sentMessageTimeMillisec % 65536) % 65536 > 500
          then .TX_IDLE else .TX_WAITING_ACK) := by
    rw [← hdelta]
    unfold txTask
    rw [htx]
    simp only [KNX_TX_TIMEOUT]
    split
    · rfl
    · exact htx
  have hall : d.txTask millis
      = { d with tx := { d.tx with state := (d.txTask millis).tx.state } } := by
    unfold txTask
    rw [htx]
    simp only []
    split
    · rfl
    · simp only [htx]
      rw [← htx]
  refine ⟨hstate, hall, ?_, ?_, ?_⟩
  · rw [hall]
  · rw [hall]
  · intro sent elapsed hsent hmillis hel
    rw [hstate, hsent, hmillis]
    have : ((sent + elapsed) % 65536 + 65536 - toWord sent % 65536) % 65536 = elapsed := by
      simp only [toWord]
      omega
    rw [this]
    by_cases h : elapsed > 500 <;> simp [h]

/-- Witness of claim C34: the telegram was sent when the millisecond clock read 65500 and
the clock now reads 66001, so that the 16-bit value wrapped from 65500 to 465: 501
milliseconds have passed and TX becomes idle. -/
theorem C34_ack_timeout_witness :
    (((driverS4.sendTelegram frameS4).2.2.txTask 65500).txTask 66001).tx.state = .TX_IDLE
    ∧ (((driverS4.sendTelegram frameS4).2.2.txTask 65500).txTask 66001).serial.written
      = ((driverS4.sendTelegram frameS4).2.2.txTask 65500).serial.written :=
  have h := C34_ack_timeout ((driverS4.sendTelegram frameS4).2.2.txTask 65500) 66001
    (by decide)
  ⟨(h.2.2.2.2 65500 501 (by decide) (by decide) (by decide)).mpr (by decide), h.2.2.1⟩

end KnxTpUart

namespace KnxTelegram

/-- Claim C39: for every telegram that passes the control-field, frame-format,
payload-length and command-field checks of `getValidity()` and whose stored checksum is
not the computed one, `getValidity()` returns `IncorrectChecksum` whatever the command is,
in particular when the command is none of `ValueRead`, `ValueResponse`, `ValueWrite`,
`MemoryWrite`: the checksum is tested before the command. -/
theorem C39_checksum_before_command (t : KnxTelegram)
    (hctrl : t.controlField &&& CONTROL_FIELD_PATTERN_MASK = CONTROL_FIELD_VALID_PATTERN)
    (hfmt : t.controlField &&& CONTROL_FIELD_FRAME_FORMAT_MASK
      = CONTROL_FIELD_STANDARD_FRAME_FORMAT)
    (hlen : t.getPayloadLength ≠ 0)
    (hcmdf : t.commandH &&& COMMAND_FIELD_PATTERN_MASK = COMMAND_FIELD_VALID_PATTERN)
    (hsum : t.isChecksumCorrect = false) :
    t.getValidity = .KNX_TELEGRAM_INCORRECT_CHECKSUM
    ∧ ((t.getCommand ≠ KnxCommand.KNX_COMMAND_VALUE_READ.val
        ∧ t.getCommand ≠ KnxCommand.KNX_COMMAND_VALUE_RESPONSE.val
        ∧ t.getCommand ≠ KnxCommand.KNX_COMMAND_VALUE_WRITE.val
        ∧ t.getCommand ≠ KnxCommand.KNX_COMMAND_MEMORY_WRITE.val) →
      t.getValidity ≠ .KNX_TELEGRAM_UNKNOWN_COMMAND) := by
  have hne : t.getChecksum ≠ t.calculateChecksum := by
    intro h
    simp [isChecksumCorrect, h] at hsum
  have hv : t.getValidity = .KNX_TELEGRAM_INCORRECT_CHECKSUM := by
    rw [getValidity_cases]
    simp only [CONTROL_FIELD_PATTERN_MASK, CONTROL_FIELD_VALID_PATTERN,
      CONTROL_FIELD_FRAME_FORMAT_MASK, CONTROL_FIELD_STANDARD_FRAME_FORMAT,
      COMMAND_FIELD_PATTERN_MASK, COMMAND_FIELD_VALID_PATTERN] at hctrl hfmt hcmdf
    rw [if_neg (by simpa using hctrl), if_neg (by simpa using hfmt), if_neg hlen,
      if_neg (by simpa using hcmdf), if_pos hne]
  exact ⟨hv, fun _ => by rw [hv]; decide⟩

/-- Witness of claim C39: the bytes `BC 00 00 00 00 E1 00 C0 00`, a telegram with the
unknown command 3 and a checksum byte that is not the computed one. -/
theorem C39_checksum_before_command_witness :
    (KnxTelegram.ofBytes [0xBC, 0, 0, 0, 0, 0xE1, 0x00, 0xC0, 0x00]).getCommand = 3
    ∧ (KnxTelegram.ofBytes [0xBC, 0, 0, 0, 0, 0xE1, 0x00, 0xC0, 0x00]).getValidity
      = .KNX_TELEGRAM_INCORRECT_CHECKSUM :=
  ⟨by decide,
    (C39_checksum_before_command (KnxTelegram.ofBytes [0xBC, 0, 0, 0, 0, 0xE1, 0x00, 0xC0, 0x00])
      (by decide) (by decide) (by decide) (by decide) (by decide)).1⟩

end KnxTelegram

/-! ## The transmit loop and the steps of `task()` -/

namespace KnxTpUart
open KnxTelegram

/-- The bytes written for a telegram, with the last pair apart. -/
theorem uartFrame_eq (t : KnxTelegram) :
    uartFrame t
      = (List.range (7 + t.getPayloadLength)).flatMap
          (fun i => [TPUART_DATA_START_CONTINUE_REQ ||| i, t.getRawByte i])
        ++ [TPUART_DATA_END_REQ ||| (7 + t.getPayloadLength),
            t.getRawByte (7 + t.getPayloadLength)] := by
  unfold uartFrame
  rw [getTelegramLength_eq, show 8 + t.getPayloadLength = (7 + t.getPayloadLength) + 1 by omega,
    List.range_succ, List.flatMap_append, List.flatMap_singleton, if_pos rfl]
  congr 1
  apply List.flatMap_congr
  intro i hi
  rw [List.mem_range] at hi
  rw [if_neg (by omega)]

theorem uartFrame_length (t : KnxTelegram) :
    (uartFrame t).length = 2 * (8 + t.getPayloadLength) := by
  unfold uartFrame
  rw [getTelegramLength_eq, List.length_flatMap]
  have : (List.length ∘ fun i =>
      [(if i + 1 = 8 + t.getPayloadLength then TPUART_DATA_END_REQ
          else TPUART_DATA_START_CONTINUE_REQ) ||| i, t.getRawByte i]) = fun _ => 2 := by
    funext i
    rfl
  rw [this, List.map_const', List.sum_replicate, List.length_range]
  simp [Nat.mul_comm]

/-- The TX part after the call of `txTask()` that follows `sendTelegram(t)`. -/
theorem txTask_sendTelegram_tx (d : KnxTpUart) (t : KnxTelegram) (millis : Nat)
    (hrx : d.rx.state = .RX_IDLE_WAITING_FOR_CTRL_FIELD) :
    ((d.sendTelegram t).2.2.txTask millis).tx.bytesRemaining = 0
    ∧ ((d.sendTelegram t).2.2.txTask millis).tx.txByteIndex
        = (d.sendTelegram t).2.1.getTelegramLength
    ∧ ((d.sendTelegram t).2.2.txTask millis).tx.sentTelegram = some (d.sendTelegram t).2.1
    ∧ ((d.sendTelegram t).2.2.txTask millis).statics.sentMessageTimeMillisec
        = toWord millis := by
  have hloop := txTaskLoop_eq (d.sendTelegram t).2.1 (d.sendTelegram t).2.1.getTelegramLength
    (d.sendTelegram t).2.2 0 rfl rfl rfl
    (by have := getTelegramLength_le (d.sendTelegram t).2.1; omega)
  have htask : (d.sendTelegram t).2.2.txTask millis
      = { txTaskLoop (d.sendTelegram t).2.1.getTelegramLength (d.sendTelegram t).2.2 with
          statics := { (txTaskLoop (d.sendTelegram t).2.1.getTelegramLength
                    (d.sendTelegram t).2.2).statics with sentMessageTimeMillisec := toWord millis }
          tx := { (txTaskLoop (d.sendTelegram t).2.1.getTelegramLength
                    (d.sendTelegram t).2.2).tx with state := .TX_WAITING_ACK } } :=
    txTask_sending (d.sendTelegram t).2.2 millis rfl hrx
  rw [htask, hloop]
  exact ⟨rfl, Nat.zero_add _, rfl, rfl⟩

/-- Claim C33: after `sendTelegram(t)` on a telegram with payload length `len`, a
`txTask()` call with RX idle writes exactly `2 * (8 + len)` bytes to the UART: for each
index `i` in `0..6+len`, in increasing order, the pair `(0x80 | i, t[i])`, then the pair
`(0x40 | (7+len), t[7+len])`, where `t` is the telegram as `sendTelegram` left it;
afterwards `bytesRemaining = 0`, `txByteIndex = 8 + len` and TX waits for the
confirmation. -/
theorem C33_txTask_pairs (d : KnxTpUart) (t : KnxTelegram) (millis : Nat)
    (hrx : d.rx.state = .RX_IDLE_WAITING_FOR_CTRL_FIELD) :
    ((d.sendTelegram t).2.2.txTask millis).serial.written
        = d.serial.written
          ++ (List.range (7 + t.getPayloadLength)).flatMap
              (fun i => [0x80 ||| i, (d.sendTelegram t).2.1.getRawByte i])
          ++ [0x40 ||| (7 + t.getPayloadLength),
              (d.sendTelegram t).2.1.getRawByte (7 + t.getPayloadLength)]
    ∧ ((d.sendTelegram t).2.2.txTask millis).serial.written.length
        = d.serial.written.length + 2 * (8 + t.getPayloadLength)
    ∧ ((d.sendTelegram t).2.2.txTask millis).tx.bytesRemaining = 0
    ∧ ((d.sendTelegram t).2.2.txTask millis).tx.txByteIndex = 8 + t.getPayloadLength
    ∧ ((d.sendTelegram t).2.2.txTask millis).tx.state = .TX_WAITING_ACK := by
  have hlen1 : (t.setSourceAddress d.physicalAddr).getPayloadLength = t.getPayloadLength := by
    apply getPayloadLength_congr
    rw [getRawByte_setSourceAddress]
    simp
  have hlen : (d.sendTelegram t).2.1.getPayloadLength = t.getPayloadLength := by
    show ((t.setSourceAddress d.physicalAddr).updateChecksum).getPayloadLength = _
    rw [getPayloadLength_updateChecksum, hlen1]
  obtain ⟨hw, -, hs, -⟩ := txTask_sendTelegram d t millis hrx
  obtain ⟨hb, hi, -⟩ := txTask_sendTelegram_tx d t millis hrx
  refine ⟨?_, ?_, hb, ?_, hs⟩
  · rw [hw, uartFrame_eq, hlen, List.append_assoc]
    rfl
  · rw [hw, List.length_append, uartFrame_length, hlen]
  · rw [hi, getTelegramLength_eq, hlen]

/-- Witness of claim C33: the driver of scenario S4 and the telegram of
`groupWriteBool(false, 0x1701, true)`: 18 bytes are written. -/
theorem C33_txTask_pairs_witness :
    ((driverS4.sendTelegram (TxTelegram.groupWriteBool false 0x1701 true)).2.2.txTask
        0).serial.written.length
      = driverS4.serial.written.length
        + 2 * (8 + (TxTelegram.groupWriteBool false 0x1701 true).getPayloadLength)
    ∧ ((driverS4.sendTelegram (TxTelegram.groupWriteBool false 0x1701 true)).2.2.txTask
        0).tx.state = .TX_WAITING_ACK :=
  have h := C33_txTask_pairs driverS4 (TxTelegram.groupWriteBool false 0x1701 true) 0
    (by decide)
  ⟨h.2.1, h.2.2.2.2⟩

end KnxTpUart

namespace SimpleKnx_
open KnxTelegram KnxTpUart

theorem taskStep3_queue (e : TaskEnv) (s : SimpleKnx_) :
    (taskStep3 e s).txActionList = s.txActionList
    ∧ (taskStep3 e s).txTelegram = s.txTelegram
    ∧ (taskStep3 e s).hostCalls = s.hostCalls := by
  unfold taskStep3
  simp only []
  split <;> exact ⟨rfl, rfl, rfl⟩

/-- Claim C36: STEP 2 of a pass of `task()` pops a telegram from the outbound queue and
hands it to `sendTelegram` exactly when TX is idle, RX is idle and the queue is not empty;
it then pops the oldest telegram and no other. In every other case, in particular when TX
or RX is not idle, STEP 2 changes nothing: the queue, `_txTelegram` and the driver with its
telegram pointer are as before. STEP 3 of the pass does not touch the queue nor
`_txTelegram`. -/
theorem C36_dequeue (s : SimpleKnx_) :
    (∀ t rest, s.tpuart.tx.state = .TX_IDLE →
        s.tpuart.rx.state = .RX_IDLE_WAITING_FOR_CTRL_FIELD →
        s.txActionList.items = t :: rest →
        taskStep2 s
          = { s with
              txActionList := ⟨rest⟩
              txTelegram := (s.tpuart.sendTelegram t).2.1
              tpuart := (s.tpuart.sendTelegram t).2.2 })
    ∧ (¬ (s.tpuart.tx.state = .TX_IDLE
          ∧ s.tpuart.rx.state = .RX_IDLE_WAITING_FOR_CTRL_FIELD
          ∧ s.txActionList.items ≠ []) →
        taskStep2 s = s)
    ∧ ((taskStep2 s).txActionList.items = s.txActionList.items
        ∨ (taskStep2 s).txActionList.items = s.txActionList.items.tail)
    ∧ (∀ (w : Surroundings) (e : TaskEnv),
        taskPass w e s = taskStep3 e (taskStep2 (taskStep1 w e s))
        ∧ (taskPass w e s).txActionList = (taskStep2 (taskStep1 w e s)).txActionList
        ∧ (taskPass w e s).txTelegram = (taskStep2 (taskStep1 w e s)).txTelegram) := by
  have hsend : ∀ t rest, s.tpuart.tx.state = .TX_IDLE →
      s.tpuart.rx.state = .RX_IDLE_WAITING_FOR_CTRL_FIELD →
      s.txActionList.items = t :: rest →
      taskStep2 s
        = { s with
            txActionList := ⟨rest⟩
            txTelegram := (s.tpuart.sendTelegram t).2.1
            tpuart := (s.tpuart.sendTelegram t).2.2 } :=
    fun t rest htx hrx hq => taskStep2_send s t rest ((isFreeToSend_iff _).mpr ⟨hrx, htx⟩) hq
  have hkeep : ¬ (s.tpuart.tx.state = .TX_IDLE
        ∧ s.tpuart.rx.state = .RX_IDLE_WAITING_FOR_CTRL_FIELD
        ∧ s.txActionList.items ≠ []) → taskStep2 s = s := by
    intro h
    by_cases hfree : s.tpuart.isFreeToSend = true
    · obtain ⟨hrx, htx⟩ := (isFreeToSend_iff _).mp hfree
      apply taskStep2_of_empty
      by_contra hq
      exact h ⟨htx, hrx, hq⟩
    · exact taskStep2_of_not_free s (by simpa using hfree)
  refine ⟨hsend, hkeep, ?_, fun w e => ⟨rfl, (taskStep3_queue e _).1, (taskStep3_queue e _).2.1⟩⟩
  by_cases h : s.tpuart.tx.state = .TX_IDLE
        ∧ s.tpuart.rx.state = .RX_IDLE_WAITING_FOR_CTRL_FIELD
        ∧ s.txActionList.items ≠ []
  · obtain ⟨htx, hrx, hq⟩ := h
    obtain ⟨t, rest, hitems⟩ := List.exists_cons_of_ne_nil hq
    right
    rw [hsend t rest htx hrx hitems, hitems]
    rfl
  · left
    rw [hkeep h]

/-- Witness of claim C36: the device of scenario S4 with one queued telegram. -/
theorem C36_dequeue_witness :
    taskStep2 (deviceS4.groupWriteBool false 0x1701 true)
      = { deviceS4.groupWriteBool false 0x1701 true with
          txActionList := ⟨[]⟩
          txTelegram := ((deviceS4.groupWriteBool false 0x1701 true).tpuart.sendTelegram
            (TxTelegram.groupWriteBool false 0x1701 true)).2.1
          tpuart := ((deviceS4.groupWriteBool false 0x1701 true).tpuart.sendTelegram
            (TxTelegram.groupWriteBool false 0x1701 true)).2.2 } :=
  (C36_dequeue (deviceS4.groupWriteBool false 0x1701 true)).1
    (TxTelegram.groupWriteBool false 0x1701 true) [] (by decide) (by decide) rfl

theorem getTpUartEvents_ticks (w : Surroundings) (s : SimpleKnx_)
    (event : KnxTpUartEvent × KnxTelegram) :
    (getTpUartEvents w s event).lastRXTimeMicros = s.lastRXTimeMicros
    ∧ (getTpUartEvents w s event).lastTXTimeMicros = s.lastTXTimeMicros := by
  unfold getTpUartEvents
  split <;> exact ⟨rfl, rfl⟩

theorem foldl_getTpUartEvents_ticks (w : Surroundings)
    (events : List (KnxTpUartEvent × KnxTelegram)) (s : SimpleKnx_) :
    (events.foldl (getTpUartEvents w) s).lastRXTimeMicros = s.lastRXTimeMicros
    ∧ (events.foldl (getTpUartEvents w) s).lastTXTimeMicros = s.lastTXTimeMicros := by
  induction events generalizing s with
  | nil => exact ⟨rfl, rfl⟩
  | cons e l ih =>
    rw [List.foldl_cons]
    exact ⟨(ih _).1.trans (getTpUartEvents_ticks w s e).1,
      (ih _).2.trans (getTpUartEvents_ticks w s e).2⟩

theorem rxTaskCall_ticks (w : Surroundings) (s : SimpleKnx_) (e : RxTaskEnv) :
    (rxTaskCall w s e).lastRXTimeMicros = s.lastRXTimeMicros
    ∧ (rxTaskCall w s e).lastTXTimeMicros = s.lastTXTimeMicros := by
  unfold rxTaskCall
  exact foldl_getTpUartEvents_ticks w _ _

theorem rxTaskLoop_ticks (w : Surroundings) (l : List RxTaskEnv) (s : SimpleKnx_) :
    (rxTaskLoop w l s).lastRXTimeMicros = s.lastRXTimeMicros
    ∧ (rxTaskLoop w l s).lastTXTimeMicros = s.lastTXTimeMicros := by
  induction l generalizing s with
  | nil => exact ⟨rfl, rfl⟩
  | cons e l ih =>
    unfold rxTaskLoop
    split
    · exact ⟨(ih _).1.trans (rxTaskCall_ticks w s e).1,
        (ih _).2.trans (rxTaskCall_ticks w s e).2⟩
    · exact ⟨rfl, rfl⟩

/-- Claim C37 fails as stated: on the device of scenario S4, whose two ticks are 0, with
the byte `0xBC` arrived, STEP 1 of a pass at the time 400 (elapsed exactly 400) does not
call `rxTask()` and leaves the device as it is, whereas at the time 401 the byte is read
and the tick updated; and with a telegram handed to `sendTelegram`, STEP 3 at the time 800
(elapsed exactly 800) does not call `txTask()`, whereas at the time 801 the telegram is
written and the tick updated. -/
theorem C37_counterexample :
    TimeDeltaWord (toWord 400) deviceS4.lastRXTimeMicros = 400
    ∧ taskStep1 surroundingsS4 ⟨400, ⟨[0xBC], 400, 400⟩, [], 400, 0⟩ deviceS4 = deviceS4
    ∧ (taskStep1 surroundingsS4 ⟨401, ⟨[0xBC], 401, 401⟩, [], 401, 0⟩ deviceS4).tpuart.rx.state
        = .RX_KNX_TELEGRAM_RECEPTION_STARTED
    ∧ (taskStep1 surroundingsS4 ⟨401, ⟨[0xBC], 401, 401⟩, [], 401, 0⟩
        deviceS4).lastRXTimeMicros = 401
    ∧ TimeDeltaWord (toWord 800)
        (taskStep2 (deviceS4.groupWriteBool false 0x1701 true)).lastTXTimeMicros = 800
    ∧ taskStep3 ⟨800, ⟨[], 800, 800⟩, [], 800, 0⟩
          (taskStep2 (deviceS4.groupWriteBool false 0x1701 true))
        = taskStep2 (deviceS4.groupWriteBool false 0x1701 true)
    ∧ (taskStep3 ⟨801, ⟨[], 801, 801⟩, [], 801, 0⟩
          (taskStep2 (deviceS4.groupWriteBool false 0x1701 true))).tpuart.tx.state
        = .TX_WAITING_ACK
    ∧ (taskStep3 ⟨801, ⟨[], 801, 801⟩, [], 801, 0⟩
          (taskStep2 (deviceS4.groupWriteBool false 0x1701 true))).lastTXTimeMicros = 801 := by
  refine ⟨by decide, rfl, by decide, by decide, by decide, rfl, by decide, by decide⟩

/-- Claim C37, amended: in each pass of `task()`, STEP 1 calls `rxTask()` (and then keeps
calling it while RX is active) exactly when the 16-bit difference of the current
microsecond value and the RX tick is greater than 400, and STEP 3 calls `txTask()` exactly
when the 16-bit difference of the current microsecond value and the TX tick is greater than
800; a step that is not due changes nothing, and a step that is due sets its tick to the
current 16-bit microsecond value and leaves the other tick alone. -/
theorem C37_task_intervals (w : Surroundings) (e : TaskEnv) (s : SimpleKnx_) :
    TimeDeltaWord (toWord e.micros1) s.lastRXTimeMicros
        = (e.micros1 % 65536 + 65536 - s.lastRXTimeMicros % 65536) % 65536
    ∧ TimeDeltaWord (toWord e.micros2) s.lastTXTimeMicros
        = (e.micros2 % 65536 + 65536 - s.lastTXTimeMicros % 65536) % 65536
    ∧ (TimeDeltaWord (toWord e.micros1) s.lastRXTimeMicros > 400 →
        taskStep1 w e s
          = rxTaskLoop w e.rxTaskMore
              (rxTaskCall w { s with lastRXTimeMicros := toWord e.micros1 } e.rxTask)
        ∧ (taskStep1 w e s).lastRXTimeMicros = toWord e.micros1
        ∧ (taskStep1 w e s).lastTXTimeMicros = s.lastTXTimeMicros)
    ∧ (TimeDeltaWord (toWord e.micros1) s.lastRXTimeMicros ≤ 400 → taskStep1 w e s = s)
    ∧ (TimeDeltaWord (toWord e.micros2) s.lastTXTimeMicros > 800 →
        taskStep3 e s
          = { s with lastTXTimeMicros := toWord e.micros2
                     tpuart := s.tpuart.txTask e.millis })
    ∧ (TimeDeltaWord (toWord e.micros2) s.lastTXTimeMicros ≤ 800 → taskStep3 e s = s)
    ∧ taskPass w e s = taskStep3 e (taskStep2 (taskStep1 w e s))
    ∧ (taskStep2 (taskStep1 w e s)).lastTXTimeMicros = s.lastTXTimeMicros := by
  have hd : ∀ a b, TimeDeltaWord (toWord a) b = (a % 65536 + 65536 - b % 65536) % 65536 := by
    intro a b
    simp only [TimeDeltaWord, toWord, Nat.mod_mod]
  have h1 : TimeDeltaWord (toWord e.micros1) s.lastRXTimeMicros > 400 →
      taskStep1 w e s
        = rxTaskLoop w e.rxTaskMore
            (rxTaskCall w { s with lastRXTimeMicros := toWord e.micros1 } e.rxTask) := by
    intro h
    simp only [taskStep1, KNX_RXTASK_INTERVAL, if_pos h]
  have h1n : TimeDeltaWord (toWord e.micros1) s.lastRXTimeMicros ≤ 400 → taskStep1 w e s = s := by
    intro h
    simp only [taskStep1, KNX_RXTASK_INTERVAL, if_neg (Nat.not_lt.mpr h)]
  have htx1 : (taskStep1 w e s).lastTXTimeMicros = s.lastTXTimeMicros := by
    by_cases h : TimeDeltaWord (toWord e.micros1) s.lastRXTimeMicros > 400
    · rw [h1 h, (rxTaskLoop_ticks w _ _).2, (rxTaskCall_ticks w _ _).2]
    · rw [h1n (Nat.not_lt.mp h)]
  refine ⟨hd _ _, hd _ _, fun h => ⟨h1 h, ?_, htx1⟩, h1n, fun h => ?_, fun h => ?_, rfl, ?_⟩
  · rw [h1 h, (rxTaskLoop_ticks w _ _).1, (rxTaskCall_ticks w _ _).1]
  · simp only [taskStep3, KNX_TXTASK_INTERVAL, if_pos h]
  · simp only [taskStep3, KNX_TXTASK_INTERVAL, if_neg (Nat.not_lt.mpr h)]
  · rw [← htx1]
    unfold taskStep2
    split
    · split <;> rfl
    · rfl

end SimpleKnx_

/-! ## The 2-byte float encoder on small values -/

namespace TxTelegram
open KnxTelegram

/-- The array `data` of the 2-byte float encoder for a value of -2048..2047 hundredths:
no loop iteration, no rounding. -/
theorem data_of_small (M : Int) (hlo : -2048 ≤ M) (hhi : M ≤ 2047) :
    (groupWrite2ByteFloatValue.data M 0).val
        = (if M < 0 then 0x80 else 0) + ((M / 256) % 8).toNat
    ∧ (groupWrite2ByteFloatValue.data M 1).val = (M % 256).toNat := by
  have hand : ∀ v < 256, v &&& 7 = v % 8 := by decide
  have hpos : ∀ h < 8, ∀ b < 256, (256 * h + b) &&& 0x80000000 = 0 := by decide
  have hneg : ∀ h < 8, ∀ b < 256, (4294965248 + (256 * h + b)) &&& 0x80000000 ≠ 0 := by decide
  have hsign : ((longBits M &&& 0x80000000) != 0) = decide (M < 0) := by
    unfold longBits
    by_cases hM : M < 0
    · have e : (M % 4294967296).toNat
          = 4294965248 + (256 * ((M + 2048).toNat / 256) + (M + 2048).toNat % 256) := by omega
      have := hneg ((M + 2048).toNat / 256) (by omega) ((M + 2048).toNat % 256)
        (Nat.mod_lt _ (by decide))
      rw [e]
      simp [hM, this]
    · have e : (M % 4294967296).toNat = 256 * (M.toNat / 256) + M.toNat % 256 := by omega
      have := hpos (M.toNat / 256) (by omega) (M.toNat % 256) (Nat.mod_lt _ (by decide))
      rw [e]
      simp [hM, this]
  have hnl : negativeLoop 32 { longValuex100 := M, exponent := 0, round := 0 }
      = { longValuex100 := M, exponent := 0, round := 0 } := by
    rw [negativeLoop, if_neg (by simp only []; omega)]
  have hpl : positiveLoop 32 { longValuex100 := M, exponent := 0, round := 0 }
      = { longValuex100 := M, exponent := 0, round := 0 } := by
    rw [positiveLoop, if_neg (by simp only []; omega)]
  have hv : (toByteInt (M >>> (8 : Nat))).val = ((M / 256) % 256).toNat := by
    simp only [toByteInt, Int.shiftRight_eq_div_pow]
    norm_num
  have h7 : (toByteInt (M >>> (8 : Nat))).val &&& 0x7 = ((M / 256) % 8).toNat := by
    rw [hv, hand _ (by omega)]
    omega
  unfold groupWrite2ByteFloatValue.data
  simp only [hsign, hnl, hpl, ite_self, bne_self_eq_false, Bool.false_eq_true, if_false, h7]
  by_cases hM : M < 0
  · simp only [hM, decide_True, if_true, arrayOf, toByte, toByteInt, List.getD_cons_zero,
      List.getD_cons_succ, Nat.zero_shiftLeft, Nat.add_zero]
    constructor <;> first | trivial | (clear hv h7; omega)
  · simp only [hM, decide_False, Bool.false_eq_true, if_false, arrayOf, toByte, toByteInt,
      List.getD_cons_zero, List.getD_cons_succ, Nat.zero_shiftLeft, Nat.add_zero]
    constructor <;> first | trivial | (clear hv h7; omega)

/-- The integer `get2ByteFloatValue` scales by 0.01, from the payload bytes. -/
theorem get2ByteFloatValue_of_bytes (t : KnxTelegram) (hlen : t.getPayloadLength = 3) :
    t.get2ByteFloatValue
      = signed12 (mantissaBits (t.getRawByte 8) (t.getRawByte 9))
          * 2 ^ ((t.getRawByte 8 >>> 3) &&& 0xF) := by
  obtain ⟨hs, he, hm, hbits, hh⟩ := get2ByteFloatValue_parts t
  have hb1 := getRawByte_lt t 9
  unfold get2ByteFloatValue
  rw [hlen, hs, he, hm, hbits, Nat.shiftLeft_eq]
  simp only [bne_self_eq_false, Bool.false_eq_true, if_false, signed12]
  by_cases h : t.getRawByte 8 < 128
  · simp only [h, if_true]
    rw [if_pos (by omega)]
    push_cast
    ring
  · simp only [h, if_false]
    rw [if_neg (by omega)]
    have hX : ((2048 - (256 * (t.getRawByte 8 &&& 7) + t.getRawByte 9) : Nat) : Int)
        = 2048 - ((256 * (t.getRawByte 8 &&& 7) + t.getRawByte 9 : Nat) : Int) := by omega
    rw [Nat.cast_mul, hX]
    push_cast
    ring

/-- Claim C40: for every value whose hundredths `M` (the `long` the 2-byte float encoder
computes) lie in -2048..2047, the telegram of `groupWrite2ByteFloatValue` has the exponent
bits 0 and carries the 12-bit two-complement form of `M`: payload byte 0 is
`sign << 7 | (M >> 8) & 7`, payload byte 1 is `M & 0xFF`; and the integer that
`get2ByteFloatValue` scales by 0.01 on that telegram is exactly `M`. -/
theorem C40_small_values_exact (answer : Bool) (groupAddress : Nat) (M : Int)
    (hlo : -2048 ≤ M) (hhi : M ≤ 2047) :
    get2ByteFloatValue.exponent (groupWrite2ByteFloatValue answer groupAddress M) = 0
    ∧ (groupWrite2ByteFloatValue answer groupAddress M).getRawByte 8
        = ((if M < 0 then 1 else 0) <<< 7) ||| ((M >>> (8 : Nat)) % 8).toNat
    ∧ (groupWrite2ByteFloatValue answer groupAddress M).getRawByte 9 = (M % 256).toNat
    ∧ mantissaBits ((groupWrite2ByteFloatValue answer groupAddress M).getRawByte 8)
          ((groupWrite2ByteFloatValue answer groupAddress M).getRawByte 9)
        = (M % 4096).toNat
    ∧ signed12 (mantissaBits ((groupWrite2ByteFloatValue answer groupAddress M).getRawByte 8)
          ((groupWrite2ByteFloatValue answer groupAddress M).getRawByte 9)) = M
    ∧ (groupWrite2ByteFloatValue answer groupAddress M).get2ByteFloatValue = M := by
  obtain ⟨hd0, hd1⟩ := data_of_small M hlo hhi
  have hB : ∀ k < 8, (1 <<< 7) ||| k = 128 + k ∧ (0 <<< 7) ||| k = k
      ∧ ((128 + k) >>> 3) &&& 0xF = 0 ∧ (k >>> 3) &&& 0xF = 0
      ∧ (128 + k) &&& 7 = k ∧ k &&& 7 = k := by decide
  have hk : ((M / 256) % 8).toNat < 8 := by omega
  obtain ⟨ho1, ho0, he1, he0, ha1, ha0⟩ := hB _ hk
  have hb8 : (groupWrite2ByteFloatValue answer groupAddress M).getRawByte 8
      = (if M < 0 then 0x80 else 0) + ((M / 256) % 8).toNat := by
    unfold groupWrite2ByteFloatValue
    rw [getRawByte_appendTelegram_pos _ _ _ _ (by decide) (by decide)]
    simpa using hd0
  have hb9 : (groupWrite2ByteFloatValue answer groupAddress M).getRawByte 9
      = (M % 256).toNat := by
    unfold groupWrite2ByteFloatValue
    rw [getRawByte_appendTelegram_pos _ _ _ _ (by decide) (by decide)]
    simpa using hd1
  have hlen : (groupWrite2ByteFloatValue answer groupAddress M).getPayloadLength = 3 := by
    unfold groupWrite2ByteFloatValue
    rw [getPayloadLength_appendTelegram_pos _ _ _ _ (by decide) (by decide)]
    rfl
  obtain ⟨-, he, -, hbits, -⟩ :=
    get2ByteFloatValue_parts (groupWrite2ByteFloatValue answer groupAddress M)
  have hval := get2ByteFloatValue_of_bytes _ hlen
  rw [he, hval, hbits, hb8, hb9, Int.shiftRight_eq_div_pow]
  by_cases hM : M < 0
  · simp only [hM, if_true, he1, ha1, ho1, signed12]
    have h128 : ¬ (128 + ((M / 256) % 8).toNat < 128) := by omega
    simp only [h128, if_false]
    refine ⟨trivial, ho1.symm, trivial, by omega, ?_, ?_⟩
    · rw [if_neg (by omega)]; omega
    · rw [if_neg (by omega)]; omega
  · simp only [hM, if_false, Nat.zero_add, he0, ha0, ho0, signed12]
    have h128 : ((M / 256) % 8).toNat < 128 := by omega
    simp only [h128, if_true]
    refine ⟨trivial, ho0.symm, trivial, by omega, ?_, ?_⟩
    · rw [if_pos (by omega)]; omega
    · rw [if_pos (by omega)]; omega

/-- Witness of claim C40: -12.34, whose hundredths are -1234: the payload is `8B 2E`. -/
theorem C40_small_values_exact_witness :
    (groupWrite2ByteFloatValue false 0x1706 (-1234)).getRawByte 8
        = ((if (-1234 : Int) < 0 then 1 else 0) <<< 7) ||| (((-1234 : Int) >>> (8 : Nat)) % 8).toNat
    ∧ (groupWrite2ByteFloatValue false 0x1706 (-1234)).get2ByteFloatValue = -1234 :=
  have h := C40_small_values_exact false 0x1706 (-1234) (by decide) (by decide)
  ⟨h.2.1, h.2.2.2.2.2⟩

end TxTelegram

/-! ## Reachable states of the reception, and `reset()` -/

namespace KnxTpUart
open KnxTelegram

theorem foldl_receive (l : List Nat) (d : KnxTpUart) :
    l.foldl receive d
      = { d with serial := { d.serial with rxBuffer := d.serial.rxBuffer ++ l } } := by
  induction l generalizing d with
  | nil => simp
  | cons b l ih =>
    rw [List.foldl_cons, ih]
    simp [receive]

theorem rxBounds_rxTaskFinished (d : KnxTpUart) (t : KnxTelegram) :
    (d.rxTaskFinished t).RxBounds := by
  have hs : (d.rxTaskFinished t).rx.state = .RX_IDLE_WAITING_FOR_CTRL_FIELD := by
    simp only [rxTaskFinished]
  have hr : (d.rxTaskFinished t).rx.readBytes = 0 := by
    simp only [rxTaskFinished]
  exact ⟨by rw [hr]; omega, by rw [hs]; decide, fun h => by rw [hr]; omega,
    fun h => by rw [hs] at h; rcases h with h | h <;> exact absurd h (by decide)⟩

/-- The bounds depend on the reception state, the byte count and the expected length
only. -/
theorem rxBounds_congr {d d2 : KnxTpUart} (h : d.RxBounds)
    (hs : d2.rx.state = d.rx.state) (hr : d2.rx.readBytes = d.rx.readBytes)
    (he : d2.statics.expectedTelegramLength = d.statics.expectedTelegramLength) :
    d2.RxBounds :=
  ⟨by rw [hr]; exact h.readBytes, by rw [hs]; exact h.notInvalid,
    fun h2 => by rw [hr]; exact h.started (hs ▸ h2),
    fun h2 => by rw [hr, he]; exact h.expected (hs ▸ h2)⟩

theorem rxBounds_rxTaskByte (d : KnxTpUart) (b : Nat) (h : d.RxBounds) :
    (d.rxTaskByte b).RxBounds := by
  have hL := Nat.and_le_right (n := b) (m := 0x0F)
  have hrb := h.readBytes
  cases hs : d.rx.state
  case RX_RESET =>
    have hsame : d.rxTaskByte b = d := by simp [rxTaskByte, hs]
    rw [hsame]
    exact h
  case RX_STOPPED =>
    have hsame : d.rxTaskByte b = d := by simp [rxTaskByte, hs]
    rw [hsame]
    exact h
  case RX_INIT =>
    have hsame : d.rxTaskByte b = d := by simp [rxTaskByte, hs]
    rw [hsame]
    exact h
  case RX_KNX_TELEGRAM_RECEPTION_LENGTH_INVALID => exact absurd hs h.notInvalid
  case RX_IDLE_WAITING_FOR_CTRL_FIELD =>
    simp only [rxTaskByte, hs]
    split
    · exact ⟨by simp, by simp, fun _ => by simp, fun h2 => by simp at h2⟩
    · split
      · split <;> exact rxBounds_congr h rfl rfl rfl
      · split
        · exact ⟨by simp [evtCallbackFct]; exact hrb, by simp [evtCallbackFct],
            fun h2 => by simp [evtCallbackFct] at h2, fun h2 => by simp [evtCallbackFct] at h2⟩
        · split
          · exact h
          · split
            · split <;> exact rxBounds_congr h rfl rfl rfl
            · split <;> exact h
  case RX_KNX_TELEGRAM_RECEPTION_STARTED =>
    have h5 := h.started hs
    have hinc : (toByte (d.rx.readBytes + 1)).val = d.rx.readBytes + 1 :=
      Nat.mod_eq_of_lt (by omega)
    have hexp : (toByte ((b &&& KNX_PAYLOAD_LENGTH_MASK) + 7)).val = (b &&& 0x0F) + 7 :=
      Nat.mod_eq_of_lt (by simp only [KNX_PAYLOAD_LENGTH_MASK]; omega)
    simp only [rxTaskByte, hs, hinc, hexp]
    split
    · split
      · refine ⟨by simp only; omega, by simp, fun h2 => by simp at h2, fun _ => ?_⟩
        simp only
        omega
      · refine ⟨by simp only; omega, by simp, fun h2 => by simp at h2, fun _ => ?_⟩
        simp only
        omega
    · rename_i h6
      have h6' : ¬ (d.rx.readBytes + 1 = 6) := by simpa using h6
      exact ⟨by simp only; omega, by simp [hs], fun _ => by simp only; omega,
        fun h2 => by simp [hs] at h2⟩
  case RX_KNX_TELEGRAM_RECEPTION_ADDRESSED =>
    obtain ⟨he1, he2⟩ := h.expected (Or.inl hs)
    have hinc : (toByte (d.rx.readBytes + 1)).val = d.rx.readBytes + 1 :=
      Nat.mod_eq_of_lt (by omega)
    have hmax : ¬ (d.rx.readBytes = KNX_TELEGRAM_MAX_SIZE) := by
      simp only [KNX_TELEGRAM_MAX_SIZE]; omega
    simp only [rxTaskByte, hs, hinc, beq_iff_eq, hmax, if_false, beq_self_eq_true, if_true]
    split
    · exact rxBounds_rxTaskFinished _ _
    · rename_i hne
      exact ⟨by simp only; omega, by simp [hs], fun h2 => by simp [hs] at h2,
        fun _ => by simp only; omega⟩
  case RX_KNX_TELEGRAM_RECEPTION_NOT_ADDRESSED =>
    obtain ⟨he1, he2⟩ := h.expected (Or.inr hs)
    have hinc : (toByte (d.rx.readBytes + 1)).val = d.rx.readBytes + 1 :=
      Nat.mod_eq_of_lt (by omega)
    have hmax : ¬ (d.rx.readBytes = KNX_TELEGRAM_MAX_SIZE) := by
      simp only [KNX_TELEGRAM_MAX_SIZE]; omega
    simp only [rxTaskByte, hs, hinc, beq_iff_eq, hmax, if_false]
    simp only [(by decide : ¬ (TpUartRxState.RX_KNX_TELEGRAM_RECEPTION_NOT_ADDRESSED
      = TpUartRxState.RX_KNX_TELEGRAM_RECEPTION_ADDRESSED)), if_false]
    split
    · exact rxBounds_rxTaskFinished _ _
    · rename_i hne
      exact ⟨by simp only; omega, by simp [hs], fun h2 => by simp [hs] at h2,
        fun _ => by simp only; omega⟩

theorem rxTaskFinished_statics (d : KnxTpUart) (t : KnxTelegram) :
    (d.rxTaskFinished t).statics = d.statics := by
  cases hs : d.rx.state <;> by_cases hc : t.isChecksumCorrect = true <;>
    simp [rxTaskFinished, evtCallbackFct, hs, hc]

/-- The two steps of `rxTask`: the end-of-packet check, which runs `rxTaskFinished` or
does nothing, and the switch on the byte read, if there is one, which starts from the same
reception state and the same telegram under assembly. -/
theorem rxTask_cases (d : KnxTpUart) (m1 m2 : Nat) :
    ∃ d1, (d1 = d ∨ d1 = d.rxTaskFinished d.statics.telegram)
      ∧ (d.rxTask m1 m2 = d1
        ∨ ∃ (d2 : KnxTpUart) (b : Nat), d2.rx = d1.rx ∧ d2.statics.telegram = d1.statics.telegram
            ∧ d2.statics.expectedTelegramLength = d1.statics.expectedTelegramLength
            ∧ d.rxTask m1 m2 = d2.rxTaskByte b) := by
  obtain ⟨F, hF, hrx⟩ : ∃ F : KnxTpUart → KnxTpUart,
      (∀ d1, F d1 = d1
        ∨ ∃ (d2 : KnxTpUart) (b : Nat), d2.rx = d1.rx ∧ d2.statics.telegram = d1.statics.telegram
            ∧ d2.statics.expectedTelegramLength = d1.statics.expectedTelegramLength
            ∧ F d1 = d2.rxTaskByte b)
      ∧ d.rxTask m1 m2
        = F (if d.rx.state.val ≥ TpUartRxState.RX_KNX_TELEGRAM_RECEPTION_STARTED.val then
              if TimeDeltaUnsignedLong (m1 % 4294967296) d.statics.lastByteRxTimeMicrosec
                  > KNX_RX_TIMEOUT then
                d.rxTaskFinished d.statics.telegram
              else d
            else d) := by
    refine ⟨fun d1 =>
      match d1.serial.rxBuffer with
      | [] => d1
      | first :: rest =>
        KnxTpUart.rxTaskByte
          { d1 with
            serial := { d1.serial with rxBuffer := rest }
            statics := { d1.statics with lastByteRxTimeMicrosec := m2 % 4294967296 } }
          (toByte first).val, fun d1 => ?_, rfl⟩
    cases hb : d1.serial.rxBuffer with
    | nil =>
      left
      simp only [hb]
    | cons first rest =>
      right
      refine ⟨{ d1 with
          serial := { d1.serial with rxBuffer := rest }
          statics := { d1.statics with lastByteRxTimeMicrosec := m2 % 4294967296 } },
        (toByte first).val, rfl, rfl, rfl, ?_⟩
      simp only [hb]
  rw [hrx]
  split
  · split
    · exact ⟨_, Or.inr rfl, hF _⟩
    · exact ⟨_, Or.inl rfl, hF _⟩
  · exact ⟨_, Or.inl rfl, hF _⟩

theorem rxBounds_rxTask (d : KnxTpUart) (m1 m2 : Nat) (h : d.RxBounds) :
    (d.rxTask m1 m2).RxBounds := by
  obtain ⟨d1, hd1, hres⟩ := rxTask_cases d m1 m2
  have h1 : d1.RxBounds := by
    rcases hd1 with rfl | rfl
    · exact h
    · exact rxBounds_rxTaskFinished _ _
  rcases hres with hres | ⟨d2, b, hrx, -, hexp, hres⟩
  · rw [hres]; exact h1
  · rw [hres]
    exact rxBounds_rxTaskByte d2 b
      (rxBounds_congr h1 (by rw [hrx]) (by rw [hrx]) hexp)

/-- The `for` loop of `reset()` leaves the byte count of the reception alone, and both
state machines are in their init state when it has read the reset indication. -/
theorem resetWait_some (startTime : Nat) (polls : List ResetPoll) (nowTime : Nat)
    (d d2 : KnxTpUart) (ok : Bool) (h : resetWait startTime polls nowTime d = some (ok, d2)) :
    d2.rx.readBytes = d.rx.readBytes
    ∧ (ok = true → d2.rx.state = .RX_INIT ∧ d2.tx.state = .TX_INIT) := by
  induction polls generalizing nowTime d with
  | nil =>
    unfold resetWait at h
    split at h
    · exact absurd h (by simp)
    · simp only [Option.some.injEq, Prod.mk.injEq] at h
      obtain ⟨rfl, rfl⟩ := h
      exact ⟨rfl, fun h => absurd h (by decide)⟩
  | cons p polls ih =>
    unfold resetWait at h
    split at h
    · simp only [foldl_receive] at h
      split at h
      · split at h
        · simp only [Option.some.injEq, Prod.mk.injEq] at h
          obtain ⟨rfl, rfl⟩ := h
          exact ⟨rfl, fun _ => ⟨rfl, rfl⟩⟩
        · have h3 := ih _ _ h
          exact h3
      · have h3 := ih _ _ h
        exact h3
    · simp only [Option.some.injEq, Prod.mk.injEq] at h
      obtain ⟨rfl, rfl⟩ := h
      exact ⟨rfl, fun h => absurd h (by decide)⟩

theorem resetAttempts_some (attempts : Nat) (inputs : List ResetAttempt)
    (d d2 : KnxTpUart) (ok : Bool) (h : resetAttempts attempts inputs d = some (ok, d2)) :
    d2.rx.readBytes = d.rx.readBytes
    ∧ (ok = true → d2.rx.state = .RX_INIT ∧ d2.tx.state = .TX_INIT) := by
  induction attempts generalizing inputs d with
  | zero =>
    unfold resetAttempts at h
    simp only [Option.some.injEq, Prod.mk.injEq] at h
    obtain ⟨rfl, rfl⟩ := h
    exact ⟨rfl, fun h => absurd h (by decide)⟩
  | succ n ih =>
    cases inputs with
    | nil =>
      unfold resetAttempts at h
      exact absurd h (by simp)
    | cons a more =>
      unfold resetAttempts at h
      simp only [] at h
      split at h
      · exact absurd h (by simp)
      · rename_i d3 hw
        simp only [Option.some.injEq, Prod.mk.injEq] at h
        obtain ⟨rfl, rfl⟩ := h
        have h3 := resetWait_some _ _ _ _ _ _ hw
        exact h3
      · rename_i d3 hw
        have h3 := ih _ _ h
        have h4 := resetWait_some _ _ _ _ _ _ hw
        exact ⟨h3.1.trans h4.1, h3.2⟩

/-- The function `reset()` returns OK or the error 255, leaves the byte count of the
reception alone, and has put both state machines in their init state when it returns
OK. -/
theorem reset_some (d d2 : KnxTpUart) (inputs : List ResetAttempt) (status : Nat)
    (h : d.reset inputs = some (status, d2)) :
    d2.rx.readBytes = d.rx.readBytes
    ∧ (status = KNX_TPUART_OK ∨ status = KNX_TPUART_ERROR)
    ∧ (status = KNX_TPUART_OK → d2.rx.state = .RX_INIT ∧ d2.tx.state = .TX_INIT) := by
  unfold reset at h
  simp only [] at h
  split at h
  · exact absurd h (by simp)
  · rename_i d3 hw
    simp only [Option.some.injEq, Prod.mk.injEq] at h
    obtain ⟨rfl, rfl⟩ := h
    have h3 := resetAttempts_some _ _ _ _ _ hw
    refine ⟨h3.1.trans ?_, Or.inl rfl, fun _ => h3.2 rfl⟩
    simp only [serialBegin, serialEnd]
    split <;> rfl
  · rename_i d3 hw
    simp only [Option.some.injEq, Prod.mk.injEq] at h
    obtain ⟨rfl, rfl⟩ := h
    have h3 := resetAttempts_some _ _ _ _ _ hw
    refine ⟨?_, Or.inr rfl, fun h => absurd h (by decide)⟩
    show d3.rx.readBytes = _
    rw [h3.1]
    simp only [serialBegin, serialEnd]
    split <;> rfl

/-- When the loop around `reset()` has ended, both state machines are in their init state,
and the byte count of the reception is as before. -/
theorem resetLoop_some (inputs : List (List ResetAttempt)) (d d2 : KnxTpUart)
    (h : resetLoop inputs d = some d2) :
    d2.rx.readBytes = d.rx.readBytes ∧ d2.rx.state = .RX_INIT ∧ d2.tx.state = .TX_INIT := by
  induction inputs generalizing d with
  | nil =>
    unfold resetLoop at h
    exact absurd h (by simp)
  | cons a more ih =>
    unfold resetLoop at h
    split at h
    · exact absurd h (by simp)
    · rename_i status d3 hr
      obtain ⟨hrb, hst, hok⟩ := reset_some _ _ _ _ hr
      split at h
      · have h3 := ih _ h
        exact ⟨h3.1.trans hrb, h3.2⟩
      · rename_i hne
        simp only [Option.some.injEq] at h
        subst h
        have : status = KNX_TPUART_OK := by
          rcases hst with h | h
          · exact h
          · exact absurd (by rw [h]; rfl) hne
        exact ⟨hrb, hok this⟩

/-- After `init()` on a driver whose state machines are in their init state. -/
theorem init_of_init (d : KnxTpUart) (hrx : d.rx.state = .RX_INIT) (htx : d.tx.state = .TX_INIT) :
    d.init = (KNX_TPUART_OK,
      { d with rx := { d.rx with state := .RX_IDLE_WAITING_FOR_CTRL_FIELD }
               tx := { d.tx with state := .TX_IDLE } }) := by
  simp [init, hrx, htx]

theorem rxBounds_of_idle (d : KnxTpUart) (hs : d.rx.state = .RX_IDLE_WAITING_FOR_CTRL_FIELD)
    (hr : d.rx.readBytes ≤ 22) : d.RxBounds :=
  ⟨hr, by rw [hs]; decide, fun h => by rw [hs] at h; exact absurd h (by decide),
    fun h => by rw [hs] at h; rcases h with h | h <;> exact absurd h (by decide)⟩

theorem rxBounds_of_reachable (d : KnxTpUart) (h : d.RxReachable) : d.RxBounds := by
  induction h with
  | init d h0 hok =>
    have hst : d.rx.state = .RX_INIT ∧ d.tx.state = .TX_INIT := by
      by_contra hn
      have : d.init = (KNX_TPUART_ERROR_NOT_INIT_STATE, d) := by
        unfold init
        rw [if_pos]
        simp only [Bool.or_eq_true, bne_iff_ne, ne_eq]
        by_cases h1 : d.rx.state = .RX_INIT
        · exact Or.inr (fun h2 => hn ⟨h1, h2⟩)
        · exact Or.inl h1
      rw [this] at hok
      exact absurd hok (by decide : ¬ KNX_TPUART_ERROR_NOT_INIT_STATE = KNX_TPUART_OK)
    rw [init_of_init d hst.1 hst.2]
    exact rxBounds_of_idle _ rfl (by show d.rx.readBytes ≤ 22; omega)
  | rxTask d arrived m1 m2 _ ih =>
    apply rxBounds_rxTask
    rw [foldl_receive]
    exact rxBounds_congr ih rfl rfl rfl
  | callback d d1 inputs _ hloop ih =>
    obtain ⟨hrb, hrx, htx⟩ := resetLoop_some _ _ _ hloop
    rw [init_of_init d1 hrx htx]
    exact rxBounds_of_idle _ rfl (by show d1.rx.readBytes ≤ 22; rw [hrb]; exact ih.readBytes)

/-- The switch of `rxTask` changes the telegram under assembly by the one store of
`rxTaskByteStore`, and not at all when there is none. -/
theorem rxTaskByte_store (d : KnxTpUart) (b : Nat) :
    (d.rxTaskByte b).statics.telegram
      = match d.rxTaskByteStore b with
        | some i => d.statics.telegram.setRawByte b i
        | none => d.statics.telegram := by
  cases hs : d.rx.state
  case RX_RESET => simp [rxTaskByte, rxTaskByteStore, hs]
  case RX_STOPPED => simp [rxTaskByte, rxTaskByteStore, hs]
  case RX_INIT => simp [rxTaskByte, rxTaskByteStore, hs]
  case RX_KNX_TELEGRAM_RECEPTION_LENGTH_INVALID => simp [rxTaskByte, rxTaskByteStore, hs]
  case RX_IDLE_WAITING_FOR_CTRL_FIELD =>
    simp only [rxTaskByte, rxTaskByteStore, hs]
    split
    · rfl
    · simp only []
      split
      · split <;> rfl
      · split
        · rfl
        · split
          · rfl
          · split
            · split <;> rfl
            · split <;> rfl
  case RX_KNX_TELEGRAM_RECEPTION_STARTED =>
    simp only [rxTaskByte, rxTaskByteStore, hs]
    split
    · split <;> rfl
    · rfl
  case RX_KNX_TELEGRAM_RECEPTION_ADDRESSED =>
    simp only [rxTaskByte, rxTaskByteStore, hs, beq_self_eq_true, if_true]
    split
    · rw [rxTaskFinished_statics]
    · simp only []
      split
      · rw [rxTaskFinished_statics]
      · rfl
  case RX_KNX_TELEGRAM_RECEPTION_NOT_ADDRESSED =>
    simp only [rxTaskByte, rxTaskByteStore, hs]
    simp only [(by decide : (TpUartRxState.RX_KNX_TELEGRAM_RECEPTION_NOT_ADDRESSED
      == TpUartRxState.RX_KNX_TELEGRAM_RECEPTION_ADDRESSED) = false), Bool.false_eq_true,
      if_false]
    split
    · rw [rxTaskFinished_statics]
    · simp only []
      split
      · rw [rxTaskFinished_statics]
      · rfl

/-- Within the bounds of the reachable states, the index of a store of the switch of
`rxTask` is 0 or `readBytes`, and it is within the buffer of 23 bytes. -/
theorem rxTaskByteStore_lt (d : KnxTpUart) (b i : Nat) (h : d.RxBounds)
    (hi : d.rxTaskByteStore b = some i) : i < 23 ∧ (i = 0 ∨ i = d.rx.readBytes) := by
  have hrb := h.readBytes
  unfold rxTaskByteStore at hi
  split at hi
  · split at hi
    · simp only [Option.some.injEq] at hi
      subst hi
      exact ⟨by decide, Or.inl rfl⟩
    · exact absurd hi (by simp)
  · simp only [Option.some.injEq] at hi
    subst hi
    exact ⟨by omega, Or.inr rfl⟩
  · split at hi
    · exact absurd hi (by simp)
    · split at hi
      · simp only [Option.some.injEq] at hi
        subst hi
        exact ⟨by omega, Or.inr rfl⟩
      · exact absurd hi (by simp)
  · split at hi
    · exact absurd hi (by simp)
    · split at hi
      · simp only [Option.some.injEq] at hi
        subst hi
        exact ⟨by omega, Or.inr rfl⟩
      · exact absurd hi (by simp)
  · exact absurd hi (by simp)

theorem rxTaskFinished_serial (d : KnxTpUart) (t : KnxTelegram) :
    (d.rxTaskFinished t).serial = d.serial := by
  cases hs : d.rx.state <;> by_cases hc : t.isChecksumCorrect = true <;>
    simp [rxTaskFinished, evtCallbackFct, hs, hc]

/-- What `rxTask` does after the end-of-packet check, in terms of the store. -/
theorem rxTask_store_aux (d1 : KnxTpUart) (m2 : Nat) :
    (match d1.serial.rxBuffer with
      | [] => d1
      | first :: rest =>
        KnxTpUart.rxTaskByte
          { d1 with
            serial := { d1.serial with rxBuffer := rest }
            statics := { d1.statics with lastByteRxTimeMicrosec := m2 % 4294967296 } }
          (toByte first).val).statics.telegram
      = match (match d1.serial.rxBuffer with
          | [] => none
          | first :: _ => d1.rxTaskByteStore (toByte first).val) with
        | some i => d1.statics.telegram.setRawByte (toByte (d1.serial.rxBuffer.headD 0)).val i
        | none => d1.statics.telegram := by
  cases hb : d1.serial.rxBuffer with
  | nil => rfl
  | cons first rest =>
    simp only [List.headD_cons]
    rw [rxTaskByte_store]
    rfl

/-- The end-of-packet check of `rxTask` runs `rxTaskFinished` or does nothing. -/
theorem rxTask_eop_cases (d : KnxTpUart) (m1 : Nat) :
    (if d.rx.state.val ≥ TpUartRxState.RX_KNX_TELEGRAM_RECEPTION_STARTED.val then
        if TimeDeltaUnsignedLong (m1 % 4294967296) d.statics.lastByteRxTimeMicrosec
            > KNX_RX_TIMEOUT then
          d.rxTaskFinished d.statics.telegram
        else d
      else d) = d
    ∨ (if d.rx.state.val ≥ TpUartRxState.RX_KNX_TELEGRAM_RECEPTION_STARTED.val then
        if TimeDeltaUnsignedLong (m1 % 4294967296) d.statics.lastByteRxTimeMicrosec
            > KNX_RX_TIMEOUT then
          d.rxTaskFinished d.statics.telegram
        else d
      else d) = d.rxTaskFinished d.statics.telegram := by
  by_cases h1 : d.rx.state.val ≥ TpUartRxState.RX_KNX_TELEGRAM_RECEPTION_STARTED.val
  · by_cases h2 : TimeDeltaUnsignedLong (m1 % 4294967296) d.statics.lastByteRxTimeMicrosec
        > KNX_RX_TIMEOUT
    · right; rw [if_pos h1, if_pos h2]
    · left; rw [if_pos h1, if_neg h2]
  · left; rw [if_neg h1]

/-- A call of `rxTask` changes the telegram under assembly by the one store of
`rxTaskStore`, of the byte read, and not at all when there is none. -/
theorem rxTask_store (d : KnxTpUart) (m1 m2 : Nat) :
    (d.rxTask m1 m2).statics.telegram
      = match d.rxTaskStore m1 with
        | some i => d.statics.telegram.setRawByte (toByte (d.serial.rxBuffer.headD 0)).val i
        | none => d.statics.telegram := by
  have key : ∀ d1 : KnxTpUart, d1 = d ∨ d1 = d.rxTaskFinished d.statics.telegram →
      (match d1.serial.rxBuffer with
        | [] => d1
        | first :: rest =>
          KnxTpUart.rxTaskByte
            { d1 with
              serial := { d1.serial with rxBuffer := rest }
              statics := { d1.statics with lastByteRxTimeMicrosec := m2 % 4294967296 } }
            (toByte first).val).statics.telegram
        = match (match d1.serial.rxBuffer with
            | [] => none
            | first :: _ => d1.rxTaskByteStore (toByte first).val) with
          | some i => d.statics.telegram.setRawByte (toByte (d.serial.rxBuffer.headD 0)).val i
          | none => d.statics.telegram := by
    intro d1 hd1
    have h := rxTask_store_aux d1 m2
    rcases hd1 with rfl | rfl
    · exact h
    · rw [rxTaskFinished_statics, rxTaskFinished_serial] at h ⊢
      exact h
  exact key _ (rxTask_eop_cases d m1)

/-- Within the bounds of the reachable states, the index of the store of a `rxTask` call
is within the buffer of 23 bytes. -/
theorem rxTaskStore_lt (d : KnxTpUart) (m1 i : Nat) (h : d.RxBounds)
    (hi : d.rxTaskStore m1 = some i) : i < 23 ∧ (i = 0 ∨ i = d.rx.readBytes) := by
  have key : ∀ d1 : KnxTpUart, d1 = d ∨ d1 = d.rxTaskFinished d.statics.telegram →
      (match d1.serial.rxBuffer with
        | [] => none
        | first :: _ => d1.rxTaskByteStore (toByte first).val) = some i →
      i < 23 ∧ (i = 0 ∨ i = d.rx.readBytes) := by
    intro d1 hd1 h1
    split at h1
    · exact absurd h1 (by simp)
    · rcases hd1 with rfl | rfl
      · exact rxTaskByteStore_lt _ _ _ h h1
      · have h2 := rxTaskByteStore_lt _ _ _ (rxBounds_rxTaskFinished d d.statics.telegram) h1
        refine ⟨h2.1, Or.inl ?_⟩
        rcases h2.2 with h0 | h0
        · exact h0
        · rw [h0]
          simp only [rxTaskFinished]
  exact key _ (rxTask_eop_cases d m1) hi

/-- Claim C38: in every state reachable from a successful `init()` by `rxTask()` calls
(any bytes arriving, any clock values; a reset event handled by the callback of the
orchestrator included), `readBytes` is at most 22 and the RX state is not
`RecvLengthInvalid`; every index that a further `rxTask()` call passes to `setRawByte` is
below 23, the size of the telegram buffer (it is 0 or `readBytes`); and that store, of the
byte read, is all the call does to the telegram under assembly. -/
theorem C38_rx_reachable_bounds (d : KnxTpUart) (h : d.RxReachable) :
    d.rx.readBytes ≤ 22
    ∧ d.rx.state ≠ .RX_KNX_TELEGRAM_RECEPTION_LENGTH_INVALID
    ∧ (∀ (arrived : List Nat) (m1 i : Nat),
        (arrived.foldl receive d).rxTaskStore m1 = some i →
          i < KNX_TELEGRAM_MAX_SIZE ∧ (i = 0 ∨ i = d.rx.readBytes))
    ∧ (∀ (arrived : List Nat) (m1 m2 : Nat),
        ((arrived.foldl receive d).rxTask m1 m2).statics.telegram
          = match (arrived.foldl receive d).rxTaskStore m1 with
            | some i => d.statics.telegram.setRawByte
                (toByte ((d.serial.rxBuffer ++ arrived).headD 0)).val i
            | none => d.statics.telegram) := by
  have hb := rxBounds_of_reachable d h
  refine ⟨hb.readBytes, hb.notInvalid, fun arrived m1 i hi => ?_, fun arrived m1 m2 => ?_⟩
  · have hb2 : (arrived.foldl receive d).RxBounds := by
      rw [foldl_receive]
      exact rxBounds_congr hb rfl rfl rfl
    have h2 := rxTaskStore_lt _ m1 i hb2 hi
    rw [foldl_receive] at h2
    exact h2
  · rw [rxTask_store, foldl_receive]

/-- Witness of claim C38: the driver of scenario S4, which is a driver just after `init()`,
after a `rxTask()` call that reads the control byte `0xBC`; the next call, reading `0x00`,
stores at the index 1. -/
theorem C38_rx_reachable_bounds_witness :
    (([0xBC].foldl receive driverS4).rxTask 0 0).rx.readBytes ≤ 22
    ∧ (([0xBC].foldl receive driverS4).rxTask 0 0).rx.state
      ≠ .RX_KNX_TELEGRAM_RECEPTION_LENGTH_INVALID
    ∧ ([0x00].foldl receive (([0xBC].foldl receive driverS4).rxTask 0 0)).rxTaskStore 0 = some 1
    ∧ 1 < KNX_TELEGRAM_MAX_SIZE :=
  have h := C38_rx_reachable_bounds (([0xBC].foldl receive driverS4).rxTask 0 0)
    (RxReachable.rxTask driverS4 [0xBC] 0 0 (RxReachable.init _ rfl rfl))
  ⟨h.1, h.2.1, by decide, (h.2.2.1 [0x00] 0 1 (by decide)).1⟩

end KnxTpUart

namespace SimpleKnx_
open KnxTelegram KnxTpUart

/-- Claim C32: with RX idle, a `rxTask()` call that reads the byte `0x03`
(`ResetIndication`) sets RX and TX to `Stopped`, whatever the TX state was, emits exactly
one event, `Reset`, and writes nothing. With the callback of the orchestrator installed,
the callback runs the loop around `reset()` and then `init()`: when that loop ends (the bus
coupler answers a reset request), `init()` returns OK and, when `rxTask()` returns, RX is
`IdleWaitingCtrl` and TX is `Idle`; the host function is not called and the queue is as
before. -/
theorem C32_reset_indication (w : Surroundings) (s : SimpleKnx_) (e : RxTaskEnv)
    (rest : List Nat) (inputs : List (List ResetAttempt)) (stopped : KnxTpUart)
    (hrx : s.tpuart.rx.state = .RX_IDLE_WAITING_FOR_CTRL_FIELD)
    (hbuf : s.tpuart.serial.rxBuffer ++ e.arrived = TPUART_RESET_INDICATION :: rest)
    (hstopped : stopped = (e.arrived.foldl receive s.tpuart).rxTask e.micros1 e.micros2)
    (hloop : resetLoop inputs stopped = some (w.resetUntilOk stopped)) :
    stopped.rx.state = .RX_STOPPED
    ∧ stopped.tx.state = .TX_STOPPED
    ∧ stopped.events = s.tpuart.events ++ [(.TPUART_EVENT_RESET, s.tpuart.rx.receivedTelegram)]
    ∧ stopped.serial.written = s.tpuart.serial.written
    ∧ stopped.serial.rxBuffer = rest
    ∧ (rxTaskCall w s e).tpuart = (w.resetUntilOk stopped).init.2
    ∧ (w.resetUntilOk stopped).init.1 = KNX_TPUART_OK
    ∧ (rxTaskCall w s e).tpuart.rx.state = .RX_IDLE_WAITING_FOR_CTRL_FIELD
    ∧ (rxTaskCall w s e).tpuart.tx.state = .TX_IDLE
    ∧ (rxTaskCall w s e).hostCalls = s.hostCalls
    ∧ (rxTaskCall w s e).txActionList = s.txActionList := by
  have h3 : (toByte 3).val = 3 := by decide
  have hp : ¬ ((3 &&& KNX_CONTROL_FIELD_PATTERN_MASK) = KNX_CONTROL_FIELD_VALID_PATTERN) := by
    decide
  have hst : stopped
      = { s.tpuart with
          serial := { s.tpuart.serial with rxBuffer := rest }
          statics := { s.tpuart.statics with lastByteRxTimeMicrosec := e.micros2 % 4294967296 }
          tx := { s.tpuart.tx with state := .TX_STOPPED }
          rx := { s.tpuart.rx with state := .RX_STOPPED }
          events := s.tpuart.events ++ [(.TPUART_EVENT_RESET, s.tpuart.rx.receivedTelegram)] } := by
    rw [hstopped, foldl_receive]
    simp [rxTask, rxTaskByte, evtCallbackFct, hrx, hbuf, h3, hp, TpUartRxState.val,
      TPUART_RESET_INDICATION, TPUART_DATA_CONFIRM_SUCCESS]
  obtain ⟨-, hirx, hitx⟩ := resetLoop_some _ _ _ hloop
  have hinit := init_of_init _ hirx hitx
  have hcall : rxTaskCall w s e
      = { s with tpuart := (w.resetUntilOk stopped).init.2 } := by
    have hlen : (e.arrived.foldl receive s.tpuart).events.length = s.tpuart.events.length := by
      rw [foldl_receive]
    have hev : stopped.events
        = s.tpuart.events ++ [(.TPUART_EVENT_RESET, s.tpuart.rx.receivedTelegram)] := by
      rw [hst]
    simp only [rxTaskCall, hlen, ← hstopped]
    rw [hev, List.drop_left]
    rfl
  rw [hcall, hinit]
  rw [hst]
  exact ⟨rfl, rfl, rfl, rfl, rfl, rfl, rfl, rfl, rfl, rfl, rfl⟩

/-- Witness of claim C32: the device of scenario S4 reads `0x03`; the bus coupler answers
the first reset request of the callback. -/
theorem C32_reset_indication_witness :
    (rxTaskCall surroundingsS4 deviceS4 ⟨[0x03], 0, 0⟩).tpuart.rx.state
      = .RX_IDLE_WAITING_FOR_CTRL_FIELD
    ∧ (rxTaskCall surroundingsS4 deviceS4 ⟨[0x03], 0, 0⟩).tpuart.tx.state = .TX_IDLE :=
  have h := C32_reset_indication surroundingsS4 deviceS4 ⟨[0x03], 0, 0⟩ []
    [[⟨0, [⟨[0x03], 0⟩]⟩]] (([0x03].foldl receive deviceS4.tpuart).rxTask 0 0)
    (by decide) (by decide) rfl rfl
  ⟨h.2.2.2.2.2.2.2.1, h.2.2.2.2.2.2.2.2.1⟩

end SimpleKnx_

/-! ## The order of the outbound queue under any schedule -/

namespace KnxTpUart
open KnxTelegram

end KnxTpUart

namespace SimpleKnx_
open KnxTelegram KnxTpUart

/-- The surroundings of the scenarios are a run of the loop around `reset()`: on a driver
whose reception is stopped, the bus coupler answers the first reset request. -/
theorem surroundingsS4_resetLoop (d : KnxTpUart) (h : d.rx.state = .RX_STOPPED) :
    resetLoop [[⟨0, [⟨[TPUART_RESET_INDICATION], 0⟩]⟩]] d
      = some (surroundingsS4.resetUntilOk d) := by
  have h3 : (toByte 3).val = 3 := by decide
  simp [resetLoop, reset, resetAttempts, resetWait, serialEnd, serialBegin, receive, h,
    TpUartRxState.val, surroundingsS4, TPUART_RESET_INDICATION, h3, TimeDeltaWord, toWord,
    KNX_TPUART_OK, KNX_TPUART_ERROR]

end SimpleKnx_

end SimpleKnx
